import Mathlib

/-!
Verification of the 6flow-convergence workflow compiler core.

This file gives a shallow embedding, in Lean 4, of the lowering phase
(`compiler/src/lower/builder.rs`, `topo.rs`) and the IR validator
(`compiler/src/ir/validate.rs`) of the 6flow workflow compiler, together
with the IR data model (`compiler/src/ir/types.rs`) and the pieces of the
parse-model (`compiler/src/parse/types.rs`, `graph.rs`) that those
functions use, and proves or refutes the frozen behavioural claims about
them.

Embedding conventions:
- Rust `Vec<T>` becomes `List T` (push = append at the right end).
- Rust `HashSet<String>` becomes a `List String` used only through
  membership and insert-if-absent; `HashMap` becomes an association list.
- Mutation through `&mut` is embedded by explicit state passing: a Rust
  function mutating a set returns the updated set.
- The mutual recursion of the structurer (`build_steps` / `build_branch`)
  and the worklist loop of `collect_reachable` are embedded with an
  explicit fuel argument so every definition is structural and computable;
  the fuel bounds under which the embedding agrees with the (always
  terminating) Rust originals are part of the theorems' hypotheses.
- The repository snapshot mixes versions of some type definitions: the
  `Operation` enum of `ir/types.rs` does not declare `GetSecret` and `Log`
  variants although `ir/validate.rs`, `lower/builder.rs` and
  `lower/expand.rs` all construct and match `Operation::GetSecret` and
  `Operation::Log`, and `ir/types.rs` declares `HttpAuth` as a struct
  while `ir/validate.rs` matches four enum variants of it.  The embedding
  follows the consumers (the functions the claims are about), and the
  divergence itself is the subject of claim C8.
-/

namespace Sixflow

/-- A Rust `HashSet<String>`, used only through membership and insert. -/
abbrev StrSet := List String

/-- `HashSet::insert`: add when absent (the Rust return value is the
freshness Bool; call sites that use it test membership first here). -/
def StrSet.insert (s : StrSet) (x : String) : StrSet :=
  if x ∈ s then s else x :: s

/-- Association-list stand-in for Rust's `HashMap<String, String>`. -/
abbrev IdMap := List (String × String)

/-- `HashMap::get` on an association list. -/
def IdMap.get (m : IdMap) (k : String) : Option String :=
  (m.find? (fun p => p.1 == k)).map (·.2)

-- ===========================================================================
-- IR data model, from compiler/src/ir/types.rs
-- ===========================================================================

/-- `LiteralValue` of ir/types.rs. -/
inductive LiteralValue where
  | String (value : String)
  | Number (value : Float)
  | Integer (value : Int)
  | Boolean (value : Bool)
  | Null
  | Json (value : String)

/-- `BindingRef` of ir/types.rs: a reference to a prior step's output. -/
structure BindingRef where
  step_id : String
  field_path : String
deriving DecidableEq, Repr

mutual
/-- `ValueExpr` of ir/types.rs. -/
inductive ValueExpr where
  | Literal (v : LiteralValue)
  | Binding (r : BindingRef)
  | ConfigRef (field : String)
  | TriggerDataRef (field : String)
  | Template (parts : List TemplatePart)
  | RawExpr (expr : String)
/-- `TemplatePart` of ir/types.rs. -/
inductive TemplatePart where
  | Lit (value : String)
  | Expr (value : ValueExpr)
end

/-- `ValueExpr::string` constructor helper. -/
def ValueExpr.string (s : String) : ValueExpr := .Literal (.String s)

/-- `ValueExpr::number` constructor helper. -/
def ValueExpr.number (n : Float) : ValueExpr := .Literal (.Number n)

/-- `ValueExpr::integer` constructor helper. -/
def ValueExpr.integer (n : Int) : ValueExpr := .Literal (.Integer n)

/-- `ValueExpr::boolean` constructor helper. -/
def ValueExpr.boolean (b : Bool) : ValueExpr := .Literal (.Boolean b)

/-- `ValueExpr::null` constructor helper. -/
def ValueExpr.null : ValueExpr := .Literal .Null

/-- `ValueExpr::binding` constructor helper. -/
def ValueExpr.binding (step_id field_path : String) : ValueExpr :=
  .Binding ⟨step_id, field_path⟩

/-- `ValueExpr::config` constructor helper. -/
def ValueExpr.config (field : String) : ValueExpr := .ConfigRef field

/-- `ValueExpr::trigger_data` constructor helper. -/
def ValueExpr.trigger_data (field : String) : ValueExpr := .TriggerDataRef field

/-- `ValueExpr::raw` constructor helper. -/
def ValueExpr.raw (expr : String) : ValueExpr := .RawExpr expr

/-- `OutputBinding` of ir/types.rs. -/
structure OutputBinding where
  variable_name : String
  ts_type : String
  destructure_fields : Option (List String)

/-- `HttpMethod` of ir/types.rs. -/
inductive HttpMethod where
  | Get | Post | Put | Delete | Patch | Head

/-- `HttpContentType` of ir/types.rs. -/
inductive HttpContentType where
  | Json | FormUrlEncoded | Raw

/-- `HttpBody` of ir/types.rs. -/
structure HttpBody where
  content_type : HttpContentType
  data : ValueExpr

/-- `HttpAuth` as consumed by ir/validate.rs (`collect_secret_refs_from_step`
matches these four variants) and constructed by lower/expand.rs; the
ir/types.rs of the snapshot declares a plain struct with one
`token_secret` field instead (mixed-version snapshot). -/
inductive HttpAuth where
  | HeaderAuth (header_name : String) (value_secret : String)
  | BasicAuth (username_secret : String) (password_secret : String)
  | BearerToken (token_secret : String)
  | QueryAuth (param_name : String) (value_secret : String)

/-- `HttpResponseFormat` of ir/types.rs. -/
inductive HttpResponseFormat where
  | Json | Text | Binary

/-- `ConsensusStrategy` of ir/types.rs. -/
inductive ConsensusStrategy where
  | Identical
  | MedianByFields (fields : List String)
  | Custom (expr : String)

/-- `HttpRequestOp` of ir/types.rs. -/
structure HttpRequestOp where
  method : HttpMethod
  url : ValueExpr
  headers : List (String × ValueExpr)
  query_params : List (String × ValueExpr)
  body : Option HttpBody
  authentication : Option HttpAuth
  cache_max_age_seconds : Option Nat
  timeout_ms : Option Nat
  expected_status_codes : List Nat
  response_format : HttpResponseFormat
  consensus : ConsensusStrategy

/-- `EvmArg` of ir/types.rs. -/
structure EvmArg where
  abi_type : String
  value : ValueExpr

/-- `EvmReadOp` of ir/types.rs. -/
structure EvmReadOp where
  evm_client_binding : String
  contract_address : ValueExpr
  function_name : String
  abi_json : String
  args : List EvmArg
  from_address : Option ValueExpr
  block_number : Option ValueExpr

/-- `EvmWriteOp` of ir/types.rs. -/
structure EvmWriteOp where
  evm_client_binding : String
  receiver_address : ValueExpr
  gas_limit : ValueExpr
  encoded_data : ValueExpr
  value_wei : Option ValueExpr

/-- `GetSecretOp`: constructed by builder.rs (`lower_get_secret`),
expand.rs and matched by validate.rs; its declaration is missing from the
snapshot's ir/types.rs (see claim C8).  Field from all uses:
`secret_name`. -/
structure GetSecretOp where
  secret_name : String

/-- `CodeInputBinding` of ir/types.rs. -/
structure CodeInputBinding where
  variable_name : String
  value : ValueExpr

/-- `CodeExecutionMode` of ir/types.rs. -/
inductive CodeExecutionMode where
  | RunOnceForAll | RunOnceForEach

/-- `CodeNodeOp` of ir/types.rs. -/
structure CodeNodeOp where
  code : String
  input_bindings : List CodeInputBinding
  execution_mode : CodeExecutionMode
  timeout_ms : Option Nat

/-- `JsonParseOp` of ir/types.rs. -/
structure JsonParseOp where
  input : ValueExpr
  source_path : Option String
  strict : Bool

/-- `AbiDataMapping` of ir/types.rs. -/
structure AbiDataMapping where
  param_name : String
  value : ValueExpr

/-- `AbiEncodeOp` of ir/types.rs (`function_name`, `abi_json`,
`data_mappings`; lower/expand.rs of the snapshot writes the second field
as `abi_params_json` — mixed-version snapshot, the field's value is
payload only). -/
structure AbiEncodeOp where
  function_name : Option String
  abi_json : String
  data_mappings : List AbiDataMapping

/-- `AbiDecodeOp` of ir/types.rs. -/
structure AbiDecodeOp where
  input : ValueExpr
  abi_json : String
  output_names : List String

/-- `ComparisonOp` of ir/types.rs. -/
inductive ComparisonOp where
  | Equals | NotEquals | Gt | Gte | Lt | Lte
  | Contains | NotContains | StartsWith | EndsWith
  | Regex | NotRegex | Exists | NotExists | IsEmpty | IsNotEmpty

/-- `LogicCombinator` of ir/types.rs. -/
inductive LogicCombinator where
  | And | Or

/-- `ConditionIR` of ir/types.rs. -/
structure ConditionIR where
  field : ValueExpr
  operator : ComparisonOp
  value : Option ValueExpr

/-- `FilterNonMatchBehavior` of ir/types.rs. -/
inductive FilterNonMatchBehavior where
  | EarlyReturn (message : String)
  | Skip

/-- `FilterOp` of ir/types.rs. -/
structure FilterOp where
  conditions : List ConditionIR
  combine_with : LogicCombinator
  non_match_behavior : FilterNonMatchBehavior

/-- `MergeInput` of ir/types.rs. -/
structure MergeInput where
  handle_name : String
  value : ValueExpr

/-- `MergeStrategy` of ir/types.rs. -/
inductive MergeStrategy where
  | PassThrough
  | Append
  | Custom (expr : String)

/-- `MergeOp` of ir/types.rs. -/
structure MergeOp where
  branch_step_id : String
  strategy : MergeStrategy
  inputs : List MergeInput

/-- `AiResponseFormat` of ir/types.rs. -/
inductive AiResponseFormat where
  | Text | Json

/-- `AiCallOp` of ir/types.rs. -/
structure AiCallOp where
  provider : String
  base_url : ValueExpr
  model : ValueExpr
  api_key_secret : String
  system_prompt : ValueExpr
  user_prompt : ValueExpr
  temperature : Option Float
  max_tokens : Option Nat
  response_format : AiResponseFormat
  consensus : ConsensusStrategy

/-- `LogLevel`: constructed by builder.rs (`lower_log` and the
`settings.log` expansion); declaration missing from the snapshot's
ir/types.rs (see claim C8).  Variants from the builder's `match`. -/
inductive LogLevel where
  | Debug | Info | Warn | Error

/-- `LogOp`: constructed by builder.rs and matched by validate.rs
(`collect_binding_refs_from_operation`); declaration missing from the
snapshot's ir/types.rs (see claim C8).  Fields from all uses. -/
structure LogOp where
  level : LogLevel
  message : ValueExpr

/-- `ErrorThrowOp` of ir/types.rs. -/
structure ErrorThrowOp where
  message : ValueExpr

/-- `ReturnOp` of ir/types.rs. -/
structure ReturnOp where
  expression : ValueExpr

mutual
/-- `Operation` as consumed by every consumer in the snapshot
(validate.rs, builder.rs, expand.rs, codegen/operations.rs): the thirteen
variants declared at ir/types.rs lines 326-349 plus the `GetSecret` and
`Log` variants those consumers construct and match but which the
snapshot's enum omits — that omission is claim C8's subject. -/
inductive Operation where
  | HttpRequest (o : HttpRequestOp)
  | EvmRead (o : EvmReadOp)
  | EvmWrite (o : EvmWriteOp)
  | GetSecret (o : GetSecretOp)
  | CodeNode (o : CodeNodeOp)
  | JsonParse (o : JsonParseOp)
  | AbiEncode (o : AbiEncodeOp)
  | AbiDecode (o : AbiDecodeOp)
  | Branch (o : BranchOp)
  | Filter (o : FilterOp)
  | Merge (o : MergeOp)
  | AiCall (o : AiCallOp)
  | Log (o : LogOp)
  | ErrorThrow (o : ErrorThrowOp)
  | Return (o : ReturnOp)
/-- `BranchOp` of ir/types.rs. -/
inductive BranchOp where
  | mk (conditions : List ConditionIR) (combine_with : LogicCombinator)
       (true_branch : Block) (false_branch : Block)
       (reconverge_at : Option String)
/-- `Block` of ir/types.rs: an ordered sequence of steps. -/
inductive Block where
  | mk (steps : List Step)
/-- `Step` of ir/types.rs. -/
inductive Step where
  | mk (id : String) (source_node_ids : List String) (label : String)
       (operation : Operation) (output : Option OutputBinding)
end

/-- Projection: `BranchOp.conditions`. -/
def BranchOp.conditions : BranchOp → List ConditionIR
  | .mk c _ _ _ _ => c

/-- Projection: `BranchOp.combine_with`. -/
def BranchOp.combine_with : BranchOp → LogicCombinator
  | .mk _ c _ _ _ => c

/-- Projection: `BranchOp.true_branch`. -/
def BranchOp.true_branch : BranchOp → Block
  | .mk _ _ t _ _ => t

/-- Projection: `BranchOp.false_branch`. -/
def BranchOp.false_branch : BranchOp → Block
  | .mk _ _ _ f _ => f

/-- Projection: `BranchOp.reconverge_at`. -/
def BranchOp.reconverge_at : BranchOp → Option String
  | .mk _ _ _ _ r => r

/-- Projection: `Block.steps`. -/
def Block.steps : Block → List Step
  | .mk s => s

/-- Projection: `Step.id`. -/
def Step.id : Step → String
  | .mk i _ _ _ _ => i

/-- Projection: `Step.source_node_ids`. -/
def Step.source_node_ids : Step → List String
  | .mk _ s _ _ _ => s

/-- Projection: `Step.label`. -/
def Step.label : Step → String
  | .mk _ _ l _ _ => l

/-- Projection: `Step.operation`. -/
def Step.operation : Step → Operation
  | .mk _ _ _ o _ => o

/-- Projection: `Step.output`. -/
def Step.output : Step → Option OutputBinding
  | .mk _ _ _ _ o => o

/-- `ZodType` of ir/types.rs. -/
inductive ZodType where
  | String | Number | Boolean
  | Raw (v : String)

/-- `ConfigField` of ir/types.rs. -/
structure ConfigField where
  name : String
  zod_type : ZodType
  default_value : Option String
  description : Option String

/-- `SecretDeclaration` of ir/types.rs. -/
structure SecretDeclaration where
  name : String
  env_variable : String

/-- `EvmChainUsage` of ir/types.rs. -/
structure EvmChainUsage where
  chain_selector_name : String
  binding_name : String
  used_for_trigger : Bool

/-- `RpcEntry` of ir/types.rs. -/
structure RpcEntry where
  chain_name : String
  url : String

/-- `WorkflowMetadata` of ir/types.rs. -/
structure WorkflowMetadata where
  id : String
  name : String
  description : Option String
  version : String
  is_testnet : Bool
  default_chain_selector : Option String

/-- `CronTriggerDef` of ir/types.rs (the snapshot's lower/trigger.rs also
writes a `timezone` field; the validator never reads it, so the
ir/types.rs shape is kept). -/
structure CronTriggerDef where
  schedule : ValueExpr

/-- `HttpTriggerDef` of ir/types.rs. -/
structure HttpTriggerDef where
  authorized_keys : List String

/-- `TopicFilter` of ir/types.rs. -/
structure TopicFilter where
  index : Nat
  values : List String

/-- `EvmLogTriggerDef` of ir/types.rs. -/
structure EvmLogTriggerDef where
  evm_client_binding : String
  contract_addresses : List ValueExpr
  event_signature : String
  event_abi_json : String
  topic_filters : List TopicFilter
  confidence : String

/-- `TriggerDef` of ir/types.rs. -/
inductive TriggerDef where
  | Cron (d : CronTriggerDef)
  | Http (d : HttpTriggerDef)
  | EvmLog (d : EvmLogTriggerDef)

/-- `TriggerParam` of ir/types.rs. -/
inductive TriggerParam where
  | None | CronTrigger | HttpRequest | EvmLog

/-- `WorkflowIR` of ir/types.rs. -/
structure WorkflowIR where
  metadata : WorkflowMetadata
  trigger : TriggerDef
  trigger_param : TriggerParam
  config_schema : List ConfigField
  required_secrets : List SecretDeclaration
  evm_chains : List EvmChainUsage
  user_rpcs : List RpcEntry
  handler_body : Block

-- ===========================================================================
-- IR validator, from compiler/src/ir/validate.rs
-- ===========================================================================

/-- `MAX_HTTP_CALLS` of ir/validate.rs. -/
def MAX_HTTP_CALLS : Nat := 5

/-- `MAX_EVM_READS` of ir/validate.rs. -/
def MAX_EVM_READS : Nat := 10

/-- `MAX_EVM_WRITES` of ir/validate.rs. -/
def MAX_EVM_WRITES : Nat := 5

/-- `ValidationError` of ir/validate.rs. -/
structure ValidationError where
  code : String
  message : String
  step_id : Option String
deriving DecidableEq, Repr

/-- `validate_handler_body_non_empty` of ir/validate.rs. -/
def validate_handler_body_non_empty (ir : WorkflowIR) : List ValidationError :=
  if ir.handler_body.steps.isEmpty then
    [{ code := "E001",
       message := "Handler body must contain at least one step",
       step_id := none }]
  else []

/-- `collect_step_ids` of ir/validate.rs: threads the `seen` set and
accumulates duplicate-ID errors in traversal order. -/
def collect_step_ids : Block → StrSet → StrSet × List ValidationError
  | .mk steps, seen => go steps seen
where
  /-- The `for step in &block.steps` loop of `collect_step_ids`. -/
  go : List Step → StrSet → StrSet × List ValidationError
  | [], seen => (seen, [])
  | .mk id _ _ operation _ :: rest, seen =>
    let dupErr : List ValidationError :=
      if id ∈ seen then
        [{ code := "E002",
           message := "Duplicate step ID '" ++ id ++ "'",
           step_id := some id }]
      else []
    let seen := seen.insert id
    let (seen, branchErrs) :=
      match operation with
      | .Branch (.mk _ _ true_branch false_branch _) =>
        let (seen, e1) := collect_step_ids true_branch seen
        let (seen, e2) := collect_step_ids false_branch seen
        (seen, e1 ++ e2)
      | _ => (seen, [])
    let (seen, restErrs) := go rest seen
    (seen, dupErr ++ branchErrs ++ restErrs)

/-- `validate_unique_step_ids` of ir/validate.rs. -/
def validate_unique_step_ids (ir : WorkflowIR) : List ValidationError :=
  (collect_step_ids ir.handler_body []).2

/-- `collect_binding_refs_from_value_expr` of ir/validate.rs (push order
preserved). -/
def collect_binding_refs_from_value_expr : ValueExpr → List BindingRef
  | .Binding r => [r]
  | .Template parts => goParts parts
  | .Literal _ | .ConfigRef _ | .TriggerDataRef _ | .RawExpr _ => []
where
  /-- The `for part in parts` loop of `collect_binding_refs_from_value_expr`. -/
  goParts : List TemplatePart → List BindingRef
  | [] => []
  | .Lit _ :: rest => goParts rest
  | .Expr value :: rest => collect_binding_refs_from_value_expr value ++ goParts rest

/-- `collect_binding_refs_from_operation` of ir/validate.rs.  For a
`Branch` only the conditions are visited (the branch blocks are handled
separately by `validate_block_bindings`). -/
def collect_binding_refs_from_operation : Operation → List BindingRef
  | .HttpRequest o =>
    collect_binding_refs_from_value_expr o.url
      ++ (o.headers.map (fun p => collect_binding_refs_from_value_expr p.2)).flatten
      ++ (o.query_params.map (fun p => collect_binding_refs_from_value_expr p.2)).flatten
      ++ (match o.body with
          | some body => collect_binding_refs_from_value_expr body.data
          | none => [])
  | .EvmRead o =>
    collect_binding_refs_from_value_expr o.contract_address
      ++ (o.args.map (fun a => collect_binding_refs_from_value_expr a.value)).flatten
      ++ (match o.from_address with
          | some v => collect_binding_refs_from_value_expr v
          | none => [])
      ++ (match o.block_number with
          | some v => collect_binding_refs_from_value_expr v
          | none => [])
  | .EvmWrite o =>
    collect_binding_refs_from_value_expr o.receiver_address
      ++ collect_binding_refs_from_value_expr o.gas_limit
      ++ collect_binding_refs_from_value_expr o.encoded_data
      ++ (match o.value_wei with
          | some v => collect_binding_refs_from_value_expr v
          | none => [])
  | .GetSecret _ => []
  | .CodeNode o =>
    (o.input_bindings.map (fun b => collect_binding_refs_from_value_expr b.value)).flatten
  | .JsonParse o => collect_binding_refs_from_value_expr o.input
  | .AbiEncode o =>
    (o.data_mappings.map (fun m => collect_binding_refs_from_value_expr m.value)).flatten
  | .AbiDecode o => collect_binding_refs_from_value_expr o.input
  | .Branch o =>
    (o.conditions.map (fun c =>
      collect_binding_refs_from_value_expr c.field
        ++ (match c.value with
            | some v => collect_binding_refs_from_value_expr v
            | none => []))).flatten
  | .Filter o =>
    (o.conditions.map (fun c =>
      collect_binding_refs_from_value_expr c.field
        ++ (match c.value with
            | some v => collect_binding_refs_from_value_expr v
            | none => []))).flatten
  | .Merge o =>
    (o.inputs.map (fun i => collect_binding_refs_from_value_expr i.value)).flatten
  | .AiCall o =>
    collect_binding_refs_from_value_expr o.base_url
      ++ collect_binding_refs_from_value_expr o.model
      ++ collect_binding_refs_from_value_expr o.system_prompt
      ++ collect_binding_refs_from_value_expr o.user_prompt
  | .Log o => collect_binding_refs_from_value_expr o.message
  | .ErrorThrow o => collect_binding_refs_from_value_expr o.message
  | .Return o => collect_binding_refs_from_value_expr o.expression

/-- `collect_binding_refs_from_step` of ir/validate.rs. -/
def collect_binding_refs_from_step (step : Step) : List BindingRef :=
  collect_binding_refs_from_operation step.operation

/-- The E003 error `validate_block_bindings` pushes for an out-of-scope
reference. -/
def scope_error (step_id ref_id : String) : ValidationError :=
  { code := "E003",
    message := "Step '" ++ step_id ++ "' references binding '" ++ ref_id
      ++ "' which is not in scope (not defined in a prior step or an ancestor block)",
    step_id := some step_id }

/-- `validate_block_bindings` of ir/validate.rs.  The incoming
`parent_scope` is cloned into a local scope; each branch arm is validated
against its own clone of the scope at the branch point (the returned arm
scopes are dropped, exactly as the Rust call sites drop the mutated
clones); a step's id enters the scope after its own references are
checked, and only when the step has an output binding.  Returns the
errors and the scope the Rust code writes back into `parent_scope`. -/
def validate_block_bindings : Block → StrSet → List ValidationError × StrSet
  | .mk steps, parent_scope => go steps parent_scope
where
  /-- The `for step in &block.steps` loop of `validate_block_bindings`. -/
  go : List Step → StrSet → List ValidationError × StrSet
  | [], scope => ([], scope)
  | .mk id src label operation output :: rest, scope =>
    let refs := collect_binding_refs_from_step (.mk id src label operation output)
    let refErrs : List ValidationError :=
      (refs.map (fun r =>
        if r.step_id ∈ scope then [] else [scope_error id r.step_id])).flatten
    let armErrs : List ValidationError :=
      match operation with
      | .Branch (.mk _ _ true_branch false_branch _) =>
        (validate_block_bindings true_branch scope).1
          ++ (validate_block_bindings false_branch scope).1
      | _ => []
    let scope := match output with
      | some _ => scope.insert id
      | none => scope
    let r := go rest scope
    (refErrs ++ armErrs ++ r.1, r.2)

/-- `validate_forward_bindings` of ir/validate.rs. -/
def validate_forward_bindings (ir : WorkflowIR) : List ValidationError :=
  (validate_block_bindings ir.handler_body []).1

/-- The E004 error for a branch whose declared merge is not the next step. -/
def branch_next_mismatch_error (branch_id merge_id next_id : String) : ValidationError :=
  { code := "E004",
    message := "Branch '" ++ branch_id ++ "' declares reconverge_at='" ++ merge_id
      ++ "', but the next step is '" ++ next_id
      ++ "'. Merge must immediately follow its Branch.",
    step_id := some branch_id }

/-- The E004 error for a branch whose declared merge has no next step. -/
def branch_no_next_error (branch_id merge_id : String) : ValidationError :=
  { code := "E004",
    message := "Branch '" ++ branch_id ++ "' declares reconverge_at='" ++ merge_id
      ++ "', but there are no more steps in this block",
    step_id := some branch_id }

/-- The E005 error for a merge naming the wrong branch. -/
def merge_wrong_branch_error (next_id got want : String) : ValidationError :=
  { code := "E005",
    message := "Merge '" ++ next_id ++ "' references branch_step_id='" ++ got
      ++ "', but should reference '" ++ want ++ "'",
    step_id := some next_id }

/-- The E006 error for a non-merge step at a reconvergence target. -/
def not_a_merge_error (next_id branch_id : String) : ValidationError :=
  { code := "E006",
    message := "Step '" ++ next_id
      ++ "' should be a Merge operation (reconverge_at target of branch '"
      ++ branch_id ++ "')",
    step_id := some next_id }

/-- `validate_block_branch_merge` of ir/validate.rs: the Rust loop reads
`block.steps.get(i + 1)`, which is the head of the remaining list here. -/
def validate_block_branch_merge : Block → List ValidationError
  | .mk steps => go steps
where
  /-- The `for (i, step)` loop of `validate_block_branch_merge`. -/
  go : List Step → List ValidationError
  | [] => []
  | .mk id _ _ operation _ :: rest =>
    match operation with
    | .Branch (.mk _ _ true_branch false_branch reconverge_at) =>
      let adjacencyErrs : List ValidationError :=
        match reconverge_at with
        | some merge_id =>
          match rest with
          | next_step :: _ =>
            (if next_step.id ≠ merge_id then
              [branch_next_mismatch_error id merge_id next_step.id]
             else [])
              ++ (match next_step.operation with
                  | .Merge merge =>
                    if merge.branch_step_id ≠ id then
                      [merge_wrong_branch_error next_step.id merge.branch_step_id id]
                    else []
                  | _ => [not_a_merge_error next_step.id id])
          | [] => [branch_no_next_error id merge_id]
        | none => []
      adjacencyErrs
        ++ validate_block_branch_merge true_branch
        ++ validate_block_branch_merge false_branch
        ++ go rest
    | _ => go rest

/-- `validate_branch_merge_consistency` of ir/validate.rs. -/
def validate_branch_merge_consistency (ir : WorkflowIR) : List ValidationError :=
  validate_block_branch_merge ir.handler_body

/-- `collect_secret_refs_from_step` of ir/validate.rs: for a `Branch` it
recurses into both arms' steps, attributing every nested secret to the
branch step itself. -/
def collect_secret_refs_from_step : Step → List String
  | .mk _ _ _ operation _ =>
    match operation with
    | .GetSecret o => [o.secret_name]
    | .HttpRequest o =>
      match o.authentication with
      | some auth =>
        match auth with
        | .HeaderAuth _ value_secret => [value_secret]
        | .BasicAuth username_secret password_secret => [username_secret, password_secret]
        | .BearerToken token_secret => [token_secret]
        | .QueryAuth _ value_secret => [value_secret]
      | none => []
    | .AiCall o => [o.api_key_secret]
    | .Branch (.mk _ _ (.mk true_steps) (.mk false_steps) _) =>
      goSteps true_steps ++ goSteps false_steps
    | _ => []
where
  /-- The `for s in &branch...steps` loops of `collect_secret_refs_from_step`. -/
  goSteps : List Step → List String
  | [] => []
  | s :: rest => collect_secret_refs_from_step s ++ goSteps rest

/-- The E007 error for an undeclared secret. -/
def secret_error (name step_id : String) : ValidationError :=
  { code := "E007",
    message := "Secret '" ++ name ++ "' used in step '" ++ step_id
      ++ "' is not declared in required_secrets",
    step_id := some step_id }

/-- `validate_block_secret_refs` of ir/validate.rs. -/
def validate_block_secret_refs : Block → List String → List ValidationError
  | .mk steps, declared => go steps declared
where
  /-- The `for step in &block.steps` loop of `validate_block_secret_refs`. -/
  go : List Step → List String → List ValidationError
  | [], _ => []
  | .mk id src label operation output :: rest, declared =>
    let secretErrs : List ValidationError :=
      ((collect_secret_refs_from_step (.mk id src label operation output)).map (fun name =>
        if name ∈ declared then [] else [secret_error name id])).flatten
    let armErrs : List ValidationError :=
      match operation with
      | .Branch (.mk _ _ true_branch false_branch _) =>
        validate_block_secret_refs true_branch declared
          ++ validate_block_secret_refs false_branch declared
      | _ => []
    secretErrs ++ armErrs ++ go rest declared

/-- `validate_secret_refs` of ir/validate.rs. -/
def validate_secret_refs (ir : WorkflowIR) : List ValidationError :=
  validate_block_secret_refs ir.handler_body (ir.required_secrets.map (·.name))

/-- The E008 error for an undeclared chain binding used by a step. -/
def evm_ref_error (step_id binding : String) : ValidationError :=
  { code := "E008",
    message := "Step '" ++ step_id ++ "' references evm_client_binding '"
      ++ binding ++ "' which is not in evm_chains",
    step_id := some step_id }

/-- `validate_block_evm_refs` of ir/validate.rs. -/
def validate_block_evm_refs : Block → List String → List ValidationError
  | .mk steps, declared => go steps declared
where
  /-- The `for step in &block.steps` loop of `validate_block_evm_refs`. -/
  go : List Step → List String → List ValidationError
  | [], _ => []
  | .mk id _ _ operation _ :: rest, declared =>
    let bindingErrs : List ValidationError :=
      match (match operation with
             | .EvmRead o => some o.evm_client_binding
             | .EvmWrite o => some o.evm_client_binding
             | _ => none) with
      | some b => if b ∈ declared then [] else [evm_ref_error id b]
      | none => []
    let armErrs : List ValidationError :=
      match operation with
      | .Branch (.mk _ _ true_branch false_branch _) =>
        validate_block_evm_refs true_branch declared
          ++ validate_block_evm_refs false_branch declared
      | _ => []
    bindingErrs ++ armErrs ++ go rest declared

/-- `validate_evm_chain_refs` of ir/validate.rs. -/
def validate_evm_chain_refs (ir : WorkflowIR) : List ValidationError :=
  let declared := ir.evm_chains.map (·.binding_name)
  let triggerErrs : List ValidationError :=
    match ir.trigger with
    | .EvmLog trigger =>
      if trigger.evm_client_binding ∈ declared then []
      else
        [{ code := "E008",
           message := "Trigger references evm_client_binding '"
             ++ trigger.evm_client_binding ++ "' which is not in evm_chains",
           step_id := none }]
    | _ => []
  triggerErrs ++ validate_block_evm_refs ir.handler_body declared

/-- `count_capabilities` of ir/validate.rs: the three `&mut usize`
counters become a returned triple (http, evm_read, evm_write); a `Branch`
contributes the componentwise maximum of its two arms' counts. -/
def count_capabilities : Block → Nat × Nat × Nat
  | .mk steps => go steps
where
  /-- The `match &step.operation` of `count_capabilities`: the charge of a
  single step. -/
  contrib : Operation → Nat × Nat × Nat
  | .HttpRequest _ | .AiCall _ => (1, 0, 0)
  | .EvmRead _ => (0, 1, 0)
  | .EvmWrite _ => (0, 0, 1)
  | .Branch (.mk _ _ true_branch false_branch _) =>
    let t := count_capabilities true_branch
    let f := count_capabilities false_branch
    (max t.1 f.1, max t.2.1 f.2.1, max t.2.2 f.2.2)
  | _ => (0, 0, 0)
  /-- The `for step in &block.steps` loop of `count_capabilities`. -/
  go : List Step → Nat × Nat × Nat
  | [] => (0, 0, 0)
  | .mk _ _ _ operation _ :: rest =>
    let c := contrib operation
    let r := go rest
    (c.1 + r.1, c.2.1 + r.2.1, c.2.2 + r.2.2)

/-- The E009 error for an exceeded HTTP-call budget. -/
def http_budget_error (n : Nat) : ValidationError :=
  { code := "E009",
    message := "Workflow uses " ++ toString n
      ++ " HTTP calls, exceeding CRE limit of " ++ toString MAX_HTTP_CALLS,
    step_id := none }

/-- The E010 error for an exceeded EVM-read budget. -/
def evm_read_budget_error (n : Nat) : ValidationError :=
  { code := "E010",
    message := "Workflow uses " ++ toString n
      ++ " EVM reads, exceeding CRE limit of " ++ toString MAX_EVM_READS,
    step_id := none }

/-- The E011 error for an exceeded EVM-write budget. -/
def evm_write_budget_error (n : Nat) : ValidationError :=
  { code := "E011",
    message := "Workflow uses " ++ toString n
      ++ " EVM writes, exceeding CRE limit of " ++ toString MAX_EVM_WRITES,
    step_id := none }

/-- `validate_cre_budget` of ir/validate.rs. -/
def validate_cre_budget (ir : WorkflowIR) : List ValidationError :=
  let counts := count_capabilities ir.handler_body
  let http_count := counts.1
  let evm_read_count := counts.2.1
  let evm_write_count := counts.2.2
  (if http_count > MAX_HTTP_CALLS then [http_budget_error http_count] else [])
    ++ (if evm_read_count > MAX_EVM_READS then [evm_read_budget_error evm_read_count]
        else [])
    ++ (if evm_write_count > MAX_EVM_WRITES then [evm_write_budget_error evm_write_count]
        else [])

/-- `block_terminates` of ir/validate.rs: the Rust function returns
`false` for an empty block and otherwise inspects only
`block.steps.last()`.  The loop here evaluates the last-step test for
each element, each result overwriting the accumulator, so the value
returned is exactly the test of the last element (initial accumulator
`false` is the `steps.is_empty()` early return). -/
def block_terminates : Block → Bool
  | .mk steps => go false steps
where
  /-- The `match last.operation` test of `block_terminates`. -/
  check : Step → Bool
  | .mk _ _ _ operation _ =>
    match operation with
    | .Return _ | .ErrorThrow _ => true
    | .Branch (.mk _ _ true_branch false_branch reconverge_at) =>
      (match reconverge_at with
       | none => block_terminates true_branch && block_terminates false_branch
       | some _ => false)
    | _ => false
  /-- Folds the `match last.operation` test over the list; only the last
  element's result survives. -/
  go : Bool → List Step → Bool
  | acc, [] => acc
  | _, s :: rest => go (check s) rest

/-- `validate_return_paths` of ir/validate.rs. -/
def validate_return_paths (ir : WorkflowIR) : List ValidationError :=
  if ¬ block_terminates ir.handler_body then
    [{ code := "E012",
       message := "Not all execution paths end with a Return or ErrorThrow step",
       step_id := none }]
  else []

/-- `validate_ir` of ir/validate.rs: all eight invariant checks run, in
order, and every violation found is returned. -/
def validate_ir (ir : WorkflowIR) : List ValidationError :=
  validate_handler_body_non_empty ir
    ++ validate_unique_step_ids ir
    ++ validate_forward_bindings ir
    ++ validate_branch_merge_consistency ir
    ++ validate_secret_refs ir
    ++ validate_evm_chain_refs ir
    ++ validate_cre_budget ir
    ++ validate_return_paths ir

-- ===========================================================================
-- Compiler errors, from compiler/src/error.rs
-- ===========================================================================

/-- `Phase` of error.rs. -/
inductive Phase where
  | Parse | Validate | Lower | IrValidate | Codegen
deriving DecidableEq, Repr

/-- `CompilerError` of error.rs. -/
structure CompilerError where
  code : String
  phase : Phase
  message : String
  node_id : Option String
deriving DecidableEq, Repr

/-- `CompilerError::lower` of error.rs. -/
def CompilerError.lower (code : String) (message : String) (node_id : Option String) :
    CompilerError :=
  { code := code, phase := .Lower, message := message, node_id := node_id }

-- ===========================================================================
-- Graph model, from compiler/src/parse/graph.rs
-- ===========================================================================

/-- `EdgeLabel` of parse/graph.rs. -/
structure EdgeLabel where
  source_handle : Option String
  target_handle : Option String
deriving DecidableEq, Repr

/-- One directed edge of the petgraph `DiGraph<String, EdgeLabel>`. -/
structure GraphEdge where
  source : String
  target : String
  label : EdgeLabel
deriving DecidableEq, Repr

/-- `WorkflowGraph` of parse/graph.rs: the petgraph `DiGraph` is its node
list (the node weights are the node id strings) and its edge list. -/
structure WorkflowGraph where
  nodes : List String
  edges : List GraphEdge

/-- `WorkflowGraph::successors`: the outgoing `(target, label)` pairs of a
node, `[]` for an id not in the graph.  petgraph's `neighbors_directed`
yields neighbors in reverse insertion order and `find_edge` returns the
first parallel edge's label; nothing claim-relevant reads the order, and
the structural pre-check excludes duplicate edges, so edge-list order is
used with each edge's own label. -/
def WorkflowGraph.successors (g : WorkflowGraph) (node_id : String) :
    List (String × EdgeLabel) :=
  if node_id ∈ g.nodes then
    g.edges.filterMap (fun e =>
      if e.source = node_id then some (e.target, e.label) else none)
  else []

/-- `WorkflowGraph::predecessors` of parse/graph.rs. -/
def WorkflowGraph.predecessors (g : WorkflowGraph) (node_id : String) : List String :=
  if node_id ∈ g.nodes then
    g.edges.filterMap (fun e => if e.target = node_id then some e.source else none)
  else []

/-- `WorkflowGraph::outgoing_edges` of parse/graph.rs. -/
def WorkflowGraph.outgoing_edges (g : WorkflowGraph) (node_id : String) :
    List (String × EdgeLabel) :=
  g.successors node_id

/-- `WorkflowGraph::incoming_count` of parse/graph.rs. -/
def WorkflowGraph.incoming_count (g : WorkflowGraph) (node_id : String) : Nat :=
  (g.predecessors node_id).length

/-- `WorkflowGraph::outgoing_count` of parse/graph.rs. -/
def WorkflowGraph.outgoing_count (g : WorkflowGraph) (node_id : String) : Nat :=
  (g.successors node_id).length

-- ===========================================================================
-- Parse model, from compiler/src/parse/types.rs (the pieces the builder uses)
-- ===========================================================================

/-- `Position` of parse/types.rs. -/
structure Position where
  x : Float
  y : Float

/-- `RetryConfig` of parse/types.rs. -/
structure RetryConfig where
  enabled : Bool
  max_tries : Nat
  wait_between_tries : Nat

/-- `OnErrorBehavior` of parse/types.rs. -/
inductive OnErrorBehavior where
  | Stop | Continue | ContinueWithError

/-- The `settings.log` payload builder.rs reads (`log.level`,
`log.message_template`); the snapshot's parse/types.rs `NodeSettings`
lacks the field (mixed-version snapshot), so its shape is taken from the
builder's uses. -/
structure LogSettings where
  level : String
  message_template : String

/-- `NodeSettings` of parse/types.rs, extended with the `log` and
`return_expression` fields builder.rs reads (`settings.log`,
`settings.return_expression`) which the snapshot's struct omits
(mixed-version snapshot). -/
structure NodeSettings where
  retry_on_fail : Option RetryConfig
  on_error : Option OnErrorBehavior
  notes : Option String
  execute_once : Option Bool
  log : Option LogSettings
  return_expression : Option String

/-- `NodeData<C>` of parse/types.rs. -/
structure NodeData (C : Type) where
  label : String
  config : C

/-- `NodeBase<C>` of parse/types.rs. -/
structure NodeBase (C : Type) where
  id : String
  position : Position
  data : NodeData C
  settings : Option NodeSettings

/-- `AbiParameter` of parse/types.rs. -/
structure AbiParameter where
  name : String
  abi_type : String
  indexed : Option Bool

/-- `AbiFunction` of parse/types.rs. -/
structure AbiFunction where
  abi_type : String
  name : String
  inputs : List AbiParameter
  outputs : List AbiParameter
  state_mutability : String

/-- `AbiEvent` of parse/types.rs. -/
structure AbiEvent where
  abi_type : String
  name : String
  inputs : List AbiParameter

/-- `EvmArgDef` of parse/types.rs. -/
structure EvmArgDef where
  arg_type : String
  value : String
  abi_type : String

/-- `CronTriggerConfig` of parse/types.rs. -/
structure CronTriggerConfig where
  schedule : String
  timezone : Option String

/-- `WebhookAuth` of parse/types.rs. -/
inductive WebhookAuth where
  | None
  | EvmSignature (authorized_addresses : List String)

/-- `HttpTriggerConfig` of parse/types.rs. -/
structure HttpTriggerConfig where
  http_method : String
  path : Option String
  authentication : WebhookAuth
  response_mode : String
  response_code : Option Nat

/-- `TopicFilters` of parse/types.rs. -/
structure TopicFilters where
  topic1 : Option (List String)
  topic2 : Option (List String)
  topic3 : Option (List String)

/-- `EvmLogTriggerConfig` of parse/types.rs. -/
structure EvmLogTriggerConfig where
  chain_selector_name : String
  contract_addresses : List String
  event_signature : String
  event_abi : AbiEvent
  topic_filters : Option TopicFilters
  block_confirmation : Option String

/-- `HttpAuthConfig` of parse/types.rs. -/
inductive HttpAuthConfig where
  | None
  | BearerToken (token_secret : String)

/-- `HttpBodyConfig` of parse/types.rs. -/
structure HttpBodyConfig where
  content_type : String
  data : String

/-- `HttpRequestConfig` of parse/types.rs (the two `HashMap` fields become
association lists). -/
structure HttpRequestConfig where
  method : String
  url : String
  authentication : Option HttpAuthConfig
  headers : Option (List (String × String))
  query_parameters : Option (List (String × String))
  body : Option HttpBodyConfig
  cache_max_age : Option Nat
  timeout : Option Nat
  expected_status_codes : Option (List Nat)
  response_format : Option String
  follow_redirects : Option Bool
  ignore_ssl : Option Bool

/-- `EvmReadConfig` of parse/types.rs. -/
structure EvmReadConfig where
  chain_selector_name : String
  contract_address : String
  abi : AbiFunction
  function_name : String
  args : List EvmArgDef
  from_address : Option String
  block_number : Option String

/-- `EvmWriteConfig` of parse/types.rs. -/
structure EvmWriteConfig where
  chain_selector_name : String
  receiver_address : String
  gas_limit : String
  abi_params : List AbiParameter
  data_mapping : List EvmArgDef
  value : Option String

/-- `GetSecretConfig` of parse/types.rs. -/
structure GetSecretConfig where
  secret_name : String

/-- `CodeNodeConfig` of parse/types.rs. -/
structure CodeNodeConfig where
  code : String
  language : Option String
  execution_mode : String
  input_variables : List String
  timeout : Option Nat

/-- `JsonParseConfig` of parse/types.rs. -/
structure JsonParseConfig where
  source_path : Option String
  strict : Option Bool

/-- `AbiDataMappingDef` of parse/types.rs. -/
structure AbiDataMappingDef where
  param_name : String
  source : String

/-- `AbiEncodeConfig` of parse/types.rs. -/
structure AbiEncodeConfig where
  abi_params : List AbiParameter
  data_mapping : List AbiDataMappingDef

/-- `AbiDecodeConfig` of parse/types.rs. -/
structure AbiDecodeConfig where
  abi_params : List AbiParameter
  output_names : List String

/-- `MergeStrategyDef` of parse/types.rs. -/
inductive MergeStrategyDef where
  | Append
  | MatchingFields (join_fields : List String) (output_type : String)
  | Position (include_unpaired : Option Bool)
  | Combinations
  | Custom (code : String)

/-- `MergeConfig` of parse/types.rs. -/
structure MergeConfig where
  strategy : MergeStrategyDef
  number_of_inputs : Option Nat
  clash_handling : Option String

/-- `Condition` of parse/types.rs. -/
structure Condition where
  field : String
  operator : String
  value : Option String

/-- `FilterConfig` of parse/types.rs. -/
structure FilterConfig where
  conditions : List Condition
  combine_with : String

/-- `IfConfig` of parse/types.rs. -/
structure IfConfig where
  conditions : List Condition
  combine_with : String

/-- `AiNodeConfig` of parse/types.rs. -/
structure AiNodeConfig where
  provider : String
  base_url : String
  model : String
  api_key_secret : String
  system_prompt : String
  user_prompt : String
  temperature : Option Float
  max_tokens : Option Nat
  response_format : Option String
  timeout : Option Nat
  max_retries : Option Nat

/-- `ReturnConfig` of parse/types.rs. -/
structure ReturnConfig where
  return_expression : String

/-- `LogConfig` of parse/types.rs. -/
structure LogConfig where
  level : String
  message_template : String

/-- `ErrorConfig` of parse/types.rs. -/
structure ErrorConfig where
  error_message : String

/-- `StopAndErrorConfig`: builder.rs lowers a `WorkflowNode::StopAndError`
variant reading `config.error_message`; both the variant and this config
struct are absent from the snapshot's parse/types.rs (mixed-version
snapshot), so the shape is taken from the builder's use. -/
structure StopAndErrorConfig where
  error_message : String

/-- `MintTokenConfig` of parse/types.rs. -/
structure MintTokenConfig where
  chain_selector_name : String
  token_contract_address : String
  token_abi : AbiFunction
  recipient_source : String
  amount_source : String
  gas_limit : String

/-- `BurnTokenConfig` of parse/types.rs. -/
structure BurnTokenConfig where
  chain_selector_name : String
  token_contract_address : String
  token_abi : AbiFunction
  from_source : String
  amount_source : String
  gas_limit : String

/-- `TransferTokenConfig` of parse/types.rs. -/
structure TransferTokenConfig where
  chain_selector_name : String
  token_contract_address : String
  token_abi : AbiFunction
  to_source : String
  amount_source : String
  gas_limit : String

/-- `CheckKycConfig` of parse/types.rs. -/
structure CheckKycConfig where
  provider_url : String
  api_key_secret_name : String
  wallet_address_source : String

/-- `CheckBalanceConfig` of parse/types.rs. -/
structure CheckBalanceConfig where
  chain_selector_name : String
  token_contract_address : String
  token_abi : AbiFunction
  address_source : String

/-- `WorkflowNode` of parse/types.rs: the tagged union over the node
types, plus the `StopAndError` variant builder.rs matches which the
snapshot's enum omits (mixed-version snapshot). -/
inductive WorkflowNode where
  | CronTrigger (n : NodeBase CronTriggerConfig)
  | HttpTrigger (n : NodeBase HttpTriggerConfig)
  | EvmLogTrigger (n : NodeBase EvmLogTriggerConfig)
  | HttpRequest (n : NodeBase HttpRequestConfig)
  | EvmRead (n : NodeBase EvmReadConfig)
  | EvmWrite (n : NodeBase EvmWriteConfig)
  | GetSecret (n : NodeBase GetSecretConfig)
  | CodeNode (n : NodeBase CodeNodeConfig)
  | JsonParse (n : NodeBase JsonParseConfig)
  | AbiEncode (n : NodeBase AbiEncodeConfig)
  | AbiDecode (n : NodeBase AbiDecodeConfig)
  | Merge (n : NodeBase MergeConfig)
  | Filter (n : NodeBase FilterConfig)
  | If (n : NodeBase IfConfig)
  | Ai (n : NodeBase AiNodeConfig)
  | Return (n : NodeBase ReturnConfig)
  | Log (n : NodeBase LogConfig)
  | Error (n : NodeBase ErrorConfig)
  | StopAndError (n : NodeBase StopAndErrorConfig)
  | MintToken (n : NodeBase MintTokenConfig)
  | BurnToken (n : NodeBase BurnTokenConfig)
  | TransferToken (n : NodeBase TransferTokenConfig)
  | CheckKyc (n : NodeBase CheckKycConfig)
  | CheckBalance (n : NodeBase CheckBalanceConfig)

/-- `WorkflowNode::id` of parse/types.rs. -/
def WorkflowNode.id : WorkflowNode → String
  | .CronTrigger n => n.id
  | .HttpTrigger n => n.id
  | .EvmLogTrigger n => n.id
  | .HttpRequest n => n.id
  | .EvmRead n => n.id
  | .EvmWrite n => n.id
  | .GetSecret n => n.id
  | .CodeNode n => n.id
  | .JsonParse n => n.id
  | .AbiEncode n => n.id
  | .AbiDecode n => n.id
  | .Merge n => n.id
  | .Filter n => n.id
  | .If n => n.id
  | .Ai n => n.id
  | .Return n => n.id
  | .Log n => n.id
  | .Error n => n.id
  | .StopAndError n => n.id
  | .MintToken n => n.id
  | .BurnToken n => n.id
  | .TransferToken n => n.id
  | .CheckKyc n => n.id
  | .CheckBalance n => n.id

/-- `WorkflowNode::label` of parse/types.rs. -/
def WorkflowNode.label : WorkflowNode → String
  | .CronTrigger n => n.data.label
  | .HttpTrigger n => n.data.label
  | .EvmLogTrigger n => n.data.label
  | .HttpRequest n => n.data.label
  | .EvmRead n => n.data.label
  | .EvmWrite n => n.data.label
  | .GetSecret n => n.data.label
  | .CodeNode n => n.data.label
  | .JsonParse n => n.data.label
  | .AbiEncode n => n.data.label
  | .AbiDecode n => n.data.label
  | .Merge n => n.data.label
  | .Filter n => n.data.label
  | .If n => n.data.label
  | .Ai n => n.data.label
  | .Return n => n.data.label
  | .Log n => n.data.label
  | .Error n => n.data.label
  | .StopAndError n => n.data.label
  | .MintToken n => n.data.label
  | .BurnToken n => n.data.label
  | .TransferToken n => n.data.label
  | .CheckKyc n => n.data.label
  | .CheckBalance n => n.data.label

/-- `WorkflowNode::node_type` of parse/types.rs, with `"stopAndError"`
for the builder-only `StopAndError` variant. -/
def WorkflowNode.node_type : WorkflowNode → String
  | .CronTrigger _ => "cronTrigger"
  | .HttpTrigger _ => "httpTrigger"
  | .EvmLogTrigger _ => "evmLogTrigger"
  | .HttpRequest _ => "httpRequest"
  | .EvmRead _ => "evmRead"
  | .EvmWrite _ => "evmWrite"
  | .GetSecret _ => "getSecret"
  | .CodeNode _ => "codeNode"
  | .JsonParse _ => "jsonParse"
  | .AbiEncode _ => "abiEncode"
  | .AbiDecode _ => "abiDecode"
  | .Merge _ => "merge"
  | .Filter _ => "filter"
  | .If _ => "if"
  | .Ai _ => "ai"
  | .Return _ => "return"
  | .Log _ => "log"
  | .Error _ => "error"
  | .StopAndError _ => "stopAndError"
  | .MintToken _ => "mintToken"
  | .BurnToken _ => "burnToken"
  | .TransferToken _ => "transferToken"
  | .CheckKyc _ => "checkKyc"
  | .CheckBalance _ => "checkBalance"

/-- `WorkflowNode::is_trigger` of parse/types.rs. -/
def WorkflowNode.is_trigger : WorkflowNode → Bool
  | .CronTrigger _ | .HttpTrigger _ | .EvmLogTrigger _ => true
  | _ => false

/-- `WorkflowNode::settings`: builder.rs calls `node.settings()`; the
accessor returns the `NodeBase.settings` field of every variant. -/
def WorkflowNode.settings : WorkflowNode → Option NodeSettings
  | .CronTrigger n => n.settings
  | .HttpTrigger n => n.settings
  | .EvmLogTrigger n => n.settings
  | .HttpRequest n => n.settings
  | .EvmRead n => n.settings
  | .EvmWrite n => n.settings
  | .GetSecret n => n.settings
  | .CodeNode n => n.settings
  | .JsonParse n => n.settings
  | .AbiEncode n => n.settings
  | .AbiDecode n => n.settings
  | .Merge n => n.settings
  | .Filter n => n.settings
  | .If n => n.settings
  | .Ai n => n.settings
  | .Return n => n.settings
  | .Log n => n.settings
  | .Error n => n.settings
  | .StopAndError n => n.settings
  | .MintToken n => n.settings
  | .BurnToken n => n.settings
  | .TransferToken n => n.settings
  | .CheckKyc n => n.settings
  | .CheckBalance n => n.settings

/-- `WorkflowNode::is_explicit_terminal`: called by builder.rs for the
auto-return decision but absent from the snapshot's parse/types.rs, whose
`is_terminal` covers `Return | Error`.  Modelled from the spec: "nodes
with zero outgoing edges that are not an explicit terminal operation are
implicitly closed with a synthesized terminating step" — the explicit
terminal operations are the return and error nodes (`Return`, `Error`,
and the builder-only `StopAndError`, which also lowers to an error
throw). -/
def WorkflowNode.is_explicit_terminal : WorkflowNode → Bool
  | .Return _ | .Error _ | .StopAndError _ => true
  | _ => false

-- ===========================================================================
-- String helpers for reference.rs and builder.rs (Rust `str` methods,
-- implemented over `List Char` so everything kernel-reduces)
-- ===========================================================================

/-- Rust `str::find` on char lists: the index of the first occurrence of
`pat` as a contiguous sublist. -/
def listFindSub (pat : List Char) : List Char → Option Nat
  | [] => if pat.isEmpty then some 0 else none
  | c :: rest =>
    if pat.isPrefixOf (c :: rest) then some 0
    else (listFindSub pat rest).map (· + 1)

/-- Rust `str::matches(pat).count()` on char lists (non-overlapping, the
scan resuming after each match); the fuel argument is the list length,
enough because every step consumes at least one character. -/
def listCountSub (fuel : Nat) (pat l : List Char) : Nat :=
  match fuel with
  | 0 => 0
  | fuel + 1 =>
    match listFindSub pat l with
    | none => 0
    | some i => 1 + listCountSub fuel pat (l.drop (i + pat.length))

/-- Rust `str::contains` for string patterns. -/
def strContainsSub (s pat : String) : Bool :=
  (listFindSub pat.toList s.toList).isSome

/-- Rust `str::trim` (whitespace stripped from both ends). -/
def strTrim (s : String) : String :=
  .mk (((s.toList.dropWhile Char.isWhitespace).reverse.dropWhile Char.isWhitespace).reverse)

/-- Rust `str::starts_with` for string patterns. -/
def strStartsWith (s pat : String) : Bool :=
  pat.toList.isPrefixOf s.toList

/-- Rust `str::ends_with` for string patterns. -/
def strEndsWith (s pat : String) : Bool :=
  pat.toList.isSuffixOf s.toList

/-- Rust slicing `&s[a..b]` by char positions (ids in this program are
ASCII, so byte and char indices agree). -/
def strSlice (s : String) (a b : Nat) : String :=
  .mk ((s.toList.take b).drop a)

/-- Rust `str::replace(char, str)` specialised to the builder's
`replace('-', "_")`-style calls: every occurrence of the character is
replaced by the given string. -/
def strReplaceChar (s : String) (c : Char) (repl : String) : String :=
  .mk ((s.toList.map (fun x => if x = c then repl.toList else [x])).flatten)

/-- Rust `str::replace(str, str)` on char lists; fuel is the list length
(each step consumes at least one character). -/
def listReplaceSub (fuel : Nat) (pat repl l : List Char) : List Char :=
  match fuel with
  | 0 => l
  | fuel + 1 =>
    match listFindSub pat l with
    | none => l
    | some i =>
      if pat.isEmpty then l
      else
        l.take i ++ repl ++ listReplaceSub fuel pat repl (l.drop (i + pat.length))

/-- Rust `str::replace(str, str)`. -/
def strReplaceSub (s pat repl : String) : String :=
  .mk (listReplaceSub s.length pat.toList repl.toList s.toList)

/-- Rust `str::parse::<i64>()` as used by the builder (`gas_limit.parse()`):
an optional sign followed by at least one decimal digit. -/
def parseI64 (s : String) : Option Int :=
  let digits (l : List Char) : Option Nat :=
    if l.isEmpty then none
    else l.foldl (fun acc c =>
      match acc with
      | none => none
      | some n => if c.isDigit then some (n * 10 + (c.toNat - 48)) else none) (some 0)
  match s.toList with
  | '-' :: rest => (digits rest).map (fun n => -(n : Int))
  | '+' :: rest => (digits rest).map (fun n => (n : Int))
  | l => (digits l).map (fun n => (n : Int))

/-- Rust `str::to_uppercase` (ASCII-sufficient for the method names it is
applied to). -/
def strToUpper (s : String) : String :=
  .mk (s.toList.map Char.toUpper)

-- ===========================================================================
-- Reference resolution, from compiler/src/lower/reference.rs
-- ===========================================================================

/-- `split_ref` of reference.rs: split at the first `.`, or `(s, "")`. -/
def split_ref (s : String) : String × String :=
  match listFindSub ['.'] s.toList with
  | some pos => (strSlice s 0 pos, strSlice s (pos + 1) s.length)
  | none => (s, "")

/-- `parse_single_ref` of reference.rs. -/
def parse_single_ref (inner : String) (id_map : IdMap) : ValueExpr :=
  let (node_id, field_path) := split_ref inner
  if node_id = "config" then ValueExpr.config field_path
  else if node_id = "trigger" then ValueExpr.trigger_data field_path
  else
    let step_id := (id_map.get node_id).getD node_id
    if step_id = "trigger" then ValueExpr.trigger_data field_path
    else ValueExpr.binding step_id field_path

/-- `parse_template_parts` of reference.rs: the `while let Some(start)`
loop, with fuel (every iteration consumes at least two characters of
`remaining`, so `length + 1` never runs out).  The malformed-reference
arm pushes the whole current `remaining` as a literal, duplicating the
prefix literal already pushed, exactly as the Rust code does. -/
def parse_template_parts_go (fuel : Nat) (remaining : String) (id_map : IdMap) :
    List TemplatePart :=
  match fuel with
  | 0 => []
  | fuel + 1 =>
    match listFindSub ['{', '{'] remaining.toList with
    | none =>
      if remaining = "" then [] else [.Lit remaining]
    | some start =>
      let lit : List TemplatePart :=
        if start > 0 then [.Lit (strSlice remaining 0 start)] else []
      let after_open := strSlice remaining (start + 2) remaining.length
      match listFindSub ['}', '}'] after_open.toList with
      | some e =>
        let inner := strSlice after_open 0 e
        let expr := parse_single_ref inner id_map
        lit ++ [.Expr expr]
          ++ parse_template_parts_go fuel
               (strSlice after_open (e + 2) after_open.length) id_map
      | none => lit ++ [.Lit remaining]

/-- `parse_template_parts` of reference.rs. -/
def parse_template_parts (input : String) (id_map : IdMap) : List TemplatePart :=
  parse_template_parts_go (input.length + 1) input id_map

/-- `resolve_value_expr` of reference.rs: parse a raw
double-brace-reference string into a `ValueExpr`. -/
def resolve_value_expr (input : String) (id_map : IdMap) : ValueExpr :=
  let trimmed := strTrim input
  if strStartsWith trimmed "\x7b\x7b" ∧ strEndsWith trimmed "\x7d\x7d"
      ∧ listCountSub trimmed.length ['{', '{'] trimmed.toList = 1 then
    parse_single_ref (strSlice trimmed 2 (trimmed.length - 2)) id_map
  else if ¬ strContainsSub trimmed "\x7b\x7b" then
    ValueExpr.string trimmed
  else
    let parts := parse_template_parts trimmed id_map
    match parts with
    | [.Lit value] => ValueExpr.string value
    | _ => ValueExpr.Template parts

-- ===========================================================================
-- Convenience-node expansion, from compiler/src/lower/expand.rs,
-- and the binding-name helper from compiler/src/lower/trigger.rs
-- ===========================================================================

/-- `make_evm_binding_name` of lower/trigger.rs. -/
def make_evm_binding_name (chain_selector : String) : String :=
  "evmClient_" ++ strReplaceChar chain_selector '-' "_"

/-- Modelled stand-in for `serde_json::to_string` (external serde_json
crate) on an ABI parameter list: it produces an opaque payload string
that no function of the compiler core ever inspects. -/
def serde_json_abi_params (ps : List AbiParameter) : String :=
  "[" ++ String.intercalate "," (ps.map (fun p => p.name ++ ":" ++ p.abi_type)) ++ "]"

/-- Modelled stand-in for `serde_json::to_string` (external serde_json
crate) on an ABI function: an opaque payload string the compiler core
never inspects. -/
def serde_json_abi_function (f : AbiFunction) : String :=
  f.name ++ (serde_json_abi_params f.inputs)

/-- `ExpandedStep` of lower/expand.rs. -/
structure ExpandedStep where
  id : String
  source_node_id : String
  label : String
  operation : Operation
  output : Option OutputBinding

/-- `expand_mint_token` of lower/expand.rs: mintToken becomes
AbiEncode + EvmWrite. -/
def expand_mint_token (node_id : String) (config : MintTokenConfig) (id_map : IdMap) :
    List ExpandedStep :=
  let encode_id := node_id ++ "___encode"
  let write_id := node_id ++ "___write"
  let binding_name := make_evm_binding_name config.chain_selector_name
  let abi_params_json := serde_json_abi_params config.token_abi.inputs
  let encode : ExpandedStep :=
    { id := encode_id,
      source_node_id := node_id,
      label := "ABI encode mint call",
      operation := .AbiEncode
        { function_name := none,
          abi_json := abi_params_json,
          data_mappings := [
            { param_name := ((config.token_abi.inputs.head?).map (·.name)).getD "to",
              value := resolve_value_expr config.recipient_source id_map },
            { param_name := ((config.token_abi.inputs.get? 1).map (·.name)).getD "amount",
              value := resolve_value_expr config.amount_source id_map }] },
      output := some
        { variable_name := "step_" ++ strReplaceChar encode_id '-' "_",
          ts_type := "{ encoded: string }",
          destructure_fields := none } }
  let gas_limit : Int := (parseI64 config.gas_limit).getD 500000
  let write : ExpandedStep :=
    { id := write_id,
      source_node_id := node_id,
      label := "Execute mint transaction",
      operation := .EvmWrite
        { evm_client_binding := binding_name,
          receiver_address := ValueExpr.string config.token_contract_address,
          gas_limit := ValueExpr.integer gas_limit,
          encoded_data := ValueExpr.binding encode_id "encoded",
          value_wei := none },
      output := some
        { variable_name := "step_" ++ strReplaceChar write_id '-' "_",
          ts_type := "{ txHash: string; status: string }",
          destructure_fields := none } }
  [encode, write]

/-- `expand_burn_token` of lower/expand.rs: burnToken becomes
AbiEncode + EvmWrite. -/
def expand_burn_token (node_id : String) (config : BurnTokenConfig) (id_map : IdMap) :
    List ExpandedStep :=
  let encode_id := node_id ++ "___encode"
  let write_id := node_id ++ "___write"
  let binding_name := make_evm_binding_name config.chain_selector_name
  let abi_params_json := serde_json_abi_params config.token_abi.inputs
  let encode : ExpandedStep :=
    { id := encode_id,
      source_node_id := node_id,
      label := "ABI encode burn call",
      operation := .AbiEncode
        { function_name := none,
          abi_json := abi_params_json,
          data_mappings := [
            { param_name := ((config.token_abi.inputs.head?).map (·.name)).getD "from",
              value := resolve_value_expr config.from_source id_map },
            { param_name := ((config.token_abi.inputs.get? 1).map (·.name)).getD "amount",
              value := resolve_value_expr config.amount_source id_map }] },
      output := some
        { variable_name := "step_" ++ strReplaceChar encode_id '-' "_",
          ts_type := "{ encoded: string }",
          destructure_fields := none } }
  let gas_limit : Int := (parseI64 config.gas_limit).getD 500000
  let write : ExpandedStep :=
    { id := write_id,
      source_node_id := node_id,
      label := "Execute burn transaction",
      operation := .EvmWrite
        { evm_client_binding := binding_name,
          receiver_address := ValueExpr.string config.token_contract_address,
          gas_limit := ValueExpr.integer gas_limit,
          encoded_data := ValueExpr.binding encode_id "encoded",
          value_wei := none },
      output := some
        { variable_name := "step_" ++ strReplaceChar write_id '-' "_",
          ts_type := "{ txHash: string; status: string }",
          destructure_fields := none } }
  [encode, write]

/-- `expand_transfer_token` of lower/expand.rs: transferToken becomes
AbiEncode + EvmWrite. -/
def expand_transfer_token (node_id : String) (config : TransferTokenConfig)
    (id_map : IdMap) : List ExpandedStep :=
  let encode_id := node_id ++ "___encode"
  let write_id := node_id ++ "___write"
  let binding_name := make_evm_binding_name config.chain_selector_name
  let abi_params_json := serde_json_abi_params config.token_abi.inputs
  let encode : ExpandedStep :=
    { id := encode_id,
      source_node_id := node_id,
      label := "ABI encode transfer call",
      operation := .AbiEncode
        { function_name := none,
          abi_json := abi_params_json,
          data_mappings := [
            { param_name := ((config.token_abi.inputs.head?).map (·.name)).getD "to",
              value := resolve_value_expr config.to_source id_map },
            { param_name := ((config.token_abi.inputs.get? 1).map (·.name)).getD "amount",
              value := resolve_value_expr config.amount_source id_map }] },
      output := some
        { variable_name := "step_" ++ strReplaceChar encode_id '-' "_",
          ts_type := "{ encoded: string }",
          destructure_fields := none } }
  let gas_limit : Int := (parseI64 config.gas_limit).getD 500000
  let write : ExpandedStep :=
    { id := write_id,
      source_node_id := node_id,
      label := "Execute transfer transaction",
      operation := .EvmWrite
        { evm_client_binding := binding_name,
          receiver_address := ValueExpr.string config.token_contract_address,
          gas_limit := ValueExpr.integer gas_limit,
          encoded_data := ValueExpr.binding encode_id "encoded",
          value_wei := none },
      output := some
        { variable_name := "step_" ++ strReplaceChar write_id '-' "_",
          ts_type := "{ txHash: string; status: string }",
          destructure_fields := none } }
  [encode, write]

/-- `expand_check_kyc` of lower/expand.rs: checkKyc becomes
GetSecret + HttpRequest + JsonParse. -/
def expand_check_kyc (node_id : String) (config : CheckKycConfig) (id_map : IdMap) :
    List ExpandedStep :=
  let secret_id := node_id ++ "___secret"
  let http_id := node_id ++ "___http"
  let parse_id := node_id ++ "___parse"
  let get_secret : ExpandedStep :=
    { id := secret_id,
      source_node_id := node_id,
      label := "Get KYC API key",
      operation := .GetSecret { secret_name := config.api_key_secret_name },
      output := some
        { variable_name := "step_" ++ strReplaceChar secret_id '-' "_",
          ts_type := "{ value: string }",
          destructure_fields := none } }
  let wallet_address := resolve_value_expr config.wallet_address_source id_map
  let url := ValueExpr.Template
    [.Lit config.provider_url, .Lit "/", .Expr wallet_address]
  let http_request : ExpandedStep :=
    { id := http_id,
      source_node_id := node_id,
      label := "Check KYC status",
      operation := .HttpRequest
        { method := .Get,
          url := url,
          headers := [],
          query_params := [],
          body := none,
          authentication := some (.BearerToken config.api_key_secret_name),
          cache_max_age_seconds := some 60,
          timeout_ms := some 5000,
          expected_status_codes := [200],
          response_format := .Json,
          consensus := .Identical },
      output := some
        { variable_name := "step_" ++ strReplaceChar http_id '-' "_",
          ts_type := "{ statusCode: number; body: string; headers: Record<string, string> }",
          destructure_fields := none } }
  let json_parse : ExpandedStep :=
    { id := parse_id,
      source_node_id := node_id,
      label := "Parse KYC response",
      operation := .JsonParse
        { input := ValueExpr.binding http_id "body",
          source_path := none,
          strict := true },
      output := some
        { variable_name := "step_" ++ strReplaceChar parse_id '-' "_",
          ts_type := "any",
          destructure_fields := none } }
  [get_secret, http_request, json_parse]

/-- `expand_check_balance` of lower/expand.rs: checkBalance maps to a
single EvmRead step keeping the node's own id. -/
def expand_check_balance (node_id : String) (config : CheckBalanceConfig)
    (id_map : IdMap) : List ExpandedStep :=
  let binding_name := make_evm_binding_name config.chain_selector_name
  let abi_json := serde_json_abi_function config.token_abi
  let address_value := resolve_value_expr config.address_source id_map
  [{ id := node_id,
     source_node_id := node_id,
     label := "Check token balance",
     operation := .EvmRead
       { evm_client_binding := binding_name,
         contract_address := ValueExpr.string config.token_contract_address,
         function_name := config.token_abi.name,
         abi_json := abi_json,
         args := [{ abi_type := "address", value := address_value }],
         from_address := none,
         block_number := none },
     output := some
       { variable_name := "step_" ++ strReplaceChar node_id '-' "_",
         ts_type := "any",
         destructure_fields := none } }]

/-- `expand_node` of lower/expand.rs: `none` for non-convenience nodes. -/
def expand_node (node : WorkflowNode) (id_map : IdMap) : Option (List ExpandedStep) :=
  match node with
  | .MintToken n => some (expand_mint_token n.id n.data.config id_map)
  | .BurnToken n => some (expand_burn_token n.id n.data.config id_map)
  | .TransferToken n => some (expand_transfer_token n.id n.data.config id_map)
  | .CheckKyc n => some (expand_check_kyc n.id n.data.config id_map)
  | .CheckBalance n => some (expand_check_balance n.id n.data.config id_map)
  | _ => none

/-- `output_step_id` of lower/expand.rs. -/
def output_step_id (node : WorkflowNode) : Option String :=
  match node with
  | .MintToken n => some (n.id ++ "___write")
  | .BurnToken n => some (n.id ++ "___write")
  | .TransferToken n => some (n.id ++ "___write")
  | .CheckKyc n => some (n.id ++ "___parse")
  | .CheckBalance _ => none
  | _ => none

-- ===========================================================================
-- Step builder, from compiler/src/lower/builder.rs
-- ===========================================================================

/-- `HashMap<&str, &WorkflowNode>::get` on the association-list node map
(the builder's map has the structurally pre-validated unique node ids, so
first-match lookup agrees with the hash map). -/
def node_map_get (m : List (String × WorkflowNode)) (k : String) : Option WorkflowNode :=
  (m.find? (fun p => p.1 == k)).map (·.2)

/-- `expanded_to_step` of lower/builder.rs. -/
def expanded_to_step (es : ExpandedStep) : Step :=
  .mk es.id [es.source_node_id] es.label es.operation es.output

/-- `parse_comparison_op` of lower/builder.rs. -/
def parse_comparison_op (op : String) : ComparisonOp :=
  match op with
  | "equals" => .Equals
  | "notEquals" => .NotEquals
  | "gt" => .Gt
  | "gte" => .Gte
  | "lt" => .Lt
  | "lte" => .Lte
  | "contains" => .Contains
  | "notContains" => .NotContains
  | "startsWith" => .StartsWith
  | "endsWith" => .EndsWith
  | "regex" => .Regex
  | "notRegex" => .NotRegex
  | "exists" => .Exists
  | "notExists" => .NotExists
  | "isEmpty" => .IsEmpty
  | "isNotEmpty" => .IsNotEmpty
  | _ => .Equals

/-- `collect_reachable` of lower/builder.rs: forward worklist traversal
collecting every node reachable from `start` (the start node included).
The Rust `Vec` stack pops from the tail; the embedding keeps the stack
top at the list head, which changes only the traversal order, not the
resulting set.  Fuel `edges.length + 1` bounds the iteration count: each
iteration pops one entry and entries are pushed once per edge plus the
initial one. -/
def collect_reachable (start : String) (graph : WorkflowGraph) : StrSet :=
  go (graph.edges.length + 1) [start] []
where
  /-- The `while let Some(node_id) = queue.pop()` loop of
  `collect_reachable`. -/
  go : Nat → List String → StrSet → StrSet
  | 0, _, reachable => reachable
  | _ + 1, [], reachable => reachable
  | fuel + 1, node_id :: queue, reachable =>
    if node_id ∈ reachable then go fuel queue reachable
    else go fuel ((graph.successors node_id).map (·.1) ++ queue) (node_id :: reachable)

/-- `find_reconvergence` of lower/builder.rs: the first node in the given
topological order reachable from both branch targets; `none` when a
branch target is absent or the reachable sets share no listed node. -/
def find_reconvergence (_if_node_id true_target false_target : String)
    (all_node_ids : List String) (graph : WorkflowGraph) : Option String :=
  if true_target = "" ∨ false_target = "" then none
  else
    let true_reachable := collect_reachable true_target graph
    let false_reachable := collect_reachable false_target graph
    all_node_ids.find? (fun node_id =>
      true_reachable.contains node_id && false_reachable.contains node_id)

/-- `collect_branch_nodes` of lower/builder.rs: the not-yet-consumed
nodes of the topological order reachable from `start`, the merge point
excluded, in topological order. -/
def collect_branch_nodes (start : String) (merge_id : Option String)
    (all_node_ids : List String) (graph : WorkflowGraph) (consumed : StrSet) :
    List String :=
  if start = "" then []
  else
    let reachable := collect_reachable start graph
    all_node_ids.filter (fun node_id =>
      !(consumed.contains node_id) && !(merge_id == some node_id)
        && reachable.contains node_id)

/-- `resolve_predecessor_input` of lower/builder.rs. -/
def resolve_predecessor_input (node_id http_field default_field : String)
    (graph : WorkflowGraph) (node_map : List (String × WorkflowNode))
    (id_map : IdMap) : ValueExpr :=
  match (graph.predecessors node_id).head? with
  | none => ValueExpr.raw "/* no predecessor */"
  | some pred_id =>
    let trigger_case : Option ValueExpr :=
      match node_map_get node_map pred_id with
      | some pred_node =>
        match pred_node.node_type with
        | "cronTrigger" | "httpTrigger" | "evmLogTrigger" =>
          let field :=
            if pred_node.node_type = "httpTrigger" then "input"
            else if default_field = "" then "input" else default_field
          some (ValueExpr.trigger_data field)
        | _ => none
      | none => none
    match trigger_case with
    | some v => v
    | none =>
      let step_id := (IdMap.get id_map pred_id).getD pred_id
      let field :=
        match (node_map_get node_map pred_id).map (·.node_type) with
        | some "httpRequest" | some "ai" => http_field
        | _ => default_field
      ValueExpr.binding step_id field

/-- `lower_http_request` of lower/builder.rs. -/
def lower_http_request (node_id : String) (config : HttpRequestConfig)
    (id_map : IdMap) : Operation × Option OutputBinding :=
  let method : HttpMethod :=
    match strToUpper config.method with
    | "GET" => .Get
    | "POST" => .Post
    | "PUT" => .Put
    | "DELETE" => .Delete
    | "PATCH" => .Patch
    | "HEAD" => .Head
    | _ => .Get
  let url := resolve_value_expr config.url id_map
  let headers := (config.headers.getD []).map
    (fun kv => (kv.1, resolve_value_expr kv.2 id_map))
  let query_params := (config.query_parameters.getD []).map
    (fun kv => (kv.1, resolve_value_expr kv.2 id_map))
  let body := config.body.map (fun b =>
    { content_type :=
        match b.content_type with
        | "json" => HttpContentType.Json
        | "formUrlEncoded" => HttpContentType.FormUrlEncoded
        | _ => HttpContentType.Raw,
      data := resolve_value_expr b.data id_map })
  let authentication : Option HttpAuth := config.authentication.bind (fun auth =>
    match auth with
    | .BearerToken token_secret => some (.BearerToken token_secret)
    | _ => none)
  let response_format : HttpResponseFormat :=
    match config.response_format with
    | some "text" => .Text
    | some "binary" => .Binary
    | _ => .Json
  (.HttpRequest
    { method := method,
      url := url,
      headers := headers,
      query_params := query_params,
      body := body,
      authentication := authentication,
      cache_max_age_seconds := config.cache_max_age,
      timeout_ms := config.timeout,
      expected_status_codes := config.expected_status_codes.getD [200],
      response_format := response_format,
      consensus := .Identical },
   some
    { variable_name := "step_" ++ strReplaceChar node_id '-' "_",
      ts_type := "{ statusCode: number; body: string; headers: Record<string, string> }",
      destructure_fields := none })

/-- `lower_evm_read` of lower/builder.rs. -/
def lower_evm_read (node_id : String) (config : EvmReadConfig) (id_map : IdMap) :
    Operation × Option OutputBinding :=
  let binding_name := make_evm_binding_name config.chain_selector_name
  let abi_json := serde_json_abi_function config.abi
  let args := config.args.map (fun a =>
    ({ abi_type := a.abi_type, value := resolve_value_expr a.value id_map } : EvmArg))
  (.EvmRead
    { evm_client_binding := binding_name,
      contract_address := resolve_value_expr config.contract_address id_map,
      function_name := config.function_name,
      abi_json := abi_json,
      args := args,
      from_address := config.from_address.map (fun a => resolve_value_expr a id_map),
      block_number := config.block_number.map (fun b => resolve_value_expr b id_map) },
   some
    { variable_name := "step_" ++ strReplaceChar node_id '-' "_",
      ts_type := "any",
      destructure_fields := none })

/-- `lower_evm_write` of lower/builder.rs. -/
def lower_evm_write (node_id : String) (config : EvmWriteConfig) (id_map : IdMap) :
    Operation × Option OutputBinding :=
  let binding_name := make_evm_binding_name config.chain_selector_name
  let gas_limit : Int := (parseI64 config.gas_limit).getD 500000
  let encoded_data :=
    match config.data_mapping.head? with
    | some first => resolve_value_expr first.value id_map
    | none => ValueExpr.raw "/* no data mapping */"
  (.EvmWrite
    { evm_client_binding := binding_name,
      receiver_address := resolve_value_expr config.receiver_address id_map,
      gas_limit := ValueExpr.integer gas_limit,
      encoded_data := encoded_data,
      value_wei := config.value.map (fun v => resolve_value_expr v id_map) },
   some
    { variable_name := "step_" ++ strReplaceChar node_id '-' "_",
      ts_type := "{ txHash: string; status: string }",
      destructure_fields := none })

/-- `lower_get_secret` of lower/builder.rs. -/
def lower_get_secret (node_id : String) (config : GetSecretConfig) :
    Operation × Option OutputBinding :=
  (.GetSecret { secret_name := config.secret_name },
   some
    { variable_name := "step_" ++ strReplaceChar node_id '-' "_",
      ts_type := "{ value: string }",
      destructure_fields := none })

/-- `lower_code_node` of lower/builder.rs. -/
def lower_code_node (node_id : String) (config : CodeNodeConfig) (id_map : IdMap) :
    Operation × Option OutputBinding :=
  let input_bindings := config.input_variables.map (fun var =>
    ({ variable_name :=
         strReplaceChar (strReplaceSub (strReplaceSub var "\x7b\x7b" "") "\x7d\x7d" "") '.' "_",
       value := resolve_value_expr var id_map } : CodeInputBinding))
  let execution_mode : CodeExecutionMode :=
    if config.execution_mode = "runOnceForEach" then .RunOnceForEach else .RunOnceForAll
  (.CodeNode
    { code := config.code,
      input_bindings := input_bindings,
      execution_mode := execution_mode,
      timeout_ms := config.timeout },
   some
    { variable_name := "step_" ++ strReplaceChar node_id '-' "_",
      ts_type := "any",
      destructure_fields := none })

/-- `lower_json_parse` of lower/builder.rs. -/
def lower_json_parse (node_id : String) (config : JsonParseConfig)
    (graph : WorkflowGraph) (node_map : List (String × WorkflowNode))
    (id_map : IdMap) : Operation × Option OutputBinding :=
  let input := resolve_predecessor_input node_id "body" "" graph node_map id_map
  (.JsonParse
    { input := input,
      source_path := config.source_path,
      strict := config.strict.getD true },
   some
    { variable_name := "step_" ++ strReplaceChar node_id '-' "_",
      ts_type := "any",
      destructure_fields := none })

/-- `lower_abi_encode` of lower/builder.rs. -/
def lower_abi_encode (node_id : String) (config : AbiEncodeConfig) (id_map : IdMap) :
    Operation × Option OutputBinding :=
  let abi_json := serde_json_abi_params config.abi_params
  let data_mappings := config.data_mapping.map (fun m =>
    ({ param_name := m.param_name,
       value := resolve_value_expr m.source id_map } : AbiDataMapping))
  (.AbiEncode
    { function_name := none,
      abi_json := abi_json,
      data_mappings := data_mappings },
   some
    { variable_name := "step_" ++ strReplaceChar node_id '-' "_",
      ts_type := "{ encoded: string }",
      destructure_fields := none })

/-- `lower_abi_decode` of lower/builder.rs. -/
def lower_abi_decode (node_id : String) (config : AbiDecodeConfig)
    (graph : WorkflowGraph) (node_map : List (String × WorkflowNode))
    (id_map : IdMap) : Operation × Option OutputBinding :=
  let abi_json := serde_json_abi_params config.abi_params
  let input := resolve_predecessor_input node_id "" "" graph node_map id_map
  (.AbiDecode
    { input := input,
      abi_json := abi_json,
      output_names := config.output_names },
   some
    { variable_name := "step_" ++ strReplaceChar node_id '-' "_",
      ts_type := "any",
      destructure_fields := none })

/-- `lower_filter` of lower/builder.rs. -/
def lower_filter (config : FilterConfig) (id_map : IdMap) :
    Operation × Option OutputBinding :=
  let conditions := config.conditions.map (fun c =>
    ({ field := resolve_value_expr c.field id_map,
       operator := parse_comparison_op c.operator,
       value := c.value.map (fun v => resolve_value_expr v id_map) } : ConditionIR))
  let combine_with : LogicCombinator :=
    if config.combine_with = "or" then .Or else .And
  (.Filter
    { conditions := conditions,
      combine_with := combine_with,
      non_match_behavior := .EarlyReturn "Filter condition not met" },
   none)

/-- `lower_ai` of lower/builder.rs. -/
def lower_ai (node_id : String) (config : AiNodeConfig) (id_map : IdMap) :
    Operation × Option OutputBinding :=
  let response_format : AiResponseFormat :=
    match config.response_format with
    | some "json" => .Json
    | _ => .Text
  (.AiCall
    { provider := config.provider,
      base_url := resolve_value_expr config.base_url id_map,
      model := resolve_value_expr config.model id_map,
      api_key_secret := config.api_key_secret,
      system_prompt := resolve_value_expr config.system_prompt id_map,
      user_prompt := resolve_value_expr config.user_prompt id_map,
      temperature := config.temperature,
      max_tokens := config.max_tokens,
      response_format := response_format,
      consensus := .Identical },
   some
    { variable_name := "step_" ++ strReplaceChar node_id '-' "_",
      ts_type := "any",
      destructure_fields := none })

/-- `lower_log` of lower/builder.rs. -/
def lower_log (config : LogConfig) (id_map : IdMap) :
    Operation × Option OutputBinding :=
  let level : LogLevel :=
    match config.level with
    | "debug" => .Debug
    | "warn" => .Warn
    | "error" => .Error
    | _ => .Info
  (.Log { level := level, message := resolve_value_expr config.message_template id_map },
   none)

/-- `lower_error` of lower/builder.rs. -/
def lower_error (config : ErrorConfig) (id_map : IdMap) :
    Operation × Option OutputBinding :=
  (.ErrorThrow { message := resolve_value_expr config.error_message id_map }, none)

/-- `lower_stop_and_error` of lower/builder.rs. -/
def lower_stop_and_error (config : StopAndErrorConfig) (id_map : IdMap) :
    Operation × Option OutputBinding :=
  (.ErrorThrow { message := resolve_value_expr config.error_message id_map }, none)

/-- `lower_return` of lower/builder.rs. -/
def lower_return (config : ReturnConfig) (id_map : IdMap) :
    Operation × Option OutputBinding :=
  (.Return { expression := resolve_value_expr config.return_expression id_map }, none)

/-- `lower_merge_standalone` of lower/builder.rs: a merge node not paired
with an if-branch becomes a pass-through with branch id "unknown". -/
def lower_merge_standalone (node_id : String) (_config : MergeConfig) :
    Operation × Option OutputBinding :=
  (.Merge
    { branch_step_id := "unknown",
      strategy := .PassThrough,
      inputs := [] },
   some
    { variable_name := "step_" ++ strReplaceChar node_id '-' "_",
      ts_type := "any",
      destructure_fields := none })

/-- `lower_node` of lower/builder.rs: lower a non-convenience,
non-trigger, non-if node to a step; every other node type is the L003
lowering error. -/
def lower_node (node : WorkflowNode) (graph : WorkflowGraph)
    (node_map : List (String × WorkflowNode)) (id_map : IdMap) :
    Except (List CompilerError) Step :=
  let node_id := node.id
  let label := node.label
  let payload : Except (List CompilerError) (Operation × Option OutputBinding) :=
    match node with
    | .HttpRequest n => .ok (lower_http_request node_id n.data.config id_map)
    | .EvmRead n => .ok (lower_evm_read node_id n.data.config id_map)
    | .EvmWrite n => .ok (lower_evm_write node_id n.data.config id_map)
    | .GetSecret n => .ok (lower_get_secret node_id n.data.config)
    | .CodeNode n => .ok (lower_code_node node_id n.data.config id_map)
    | .JsonParse n => .ok (lower_json_parse node_id n.data.config graph node_map id_map)
    | .AbiEncode n => .ok (lower_abi_encode node_id n.data.config id_map)
    | .AbiDecode n => .ok (lower_abi_decode node_id n.data.config graph node_map id_map)
    | .Filter n => .ok (lower_filter n.data.config id_map)
    | .Ai n => .ok (lower_ai node_id n.data.config id_map)
    | .Log n => .ok (lower_log n.data.config id_map)
    | .Error n => .ok (lower_error n.data.config id_map)
    | .StopAndError n => .ok (lower_stop_and_error n.data.config id_map)
    | .Return n => .ok (lower_return n.data.config id_map)
    | .Merge n => .ok (lower_merge_standalone node_id n.data.config)
    | _ => .error [CompilerError.lower "L003"
        ("Unsupported node type '" ++ node.node_type ++ "' for direct lowering")
        (some node_id)]
  payload.map (fun p => .mk node_id [node_id] label p.1 p.2)

/-- The non-If arm of the `build_steps` loop of lower/builder.rs: the
main step(s) for the node (convenience expansion or `lower_node`),
followed by the `settings.log` step and the auto-return step for a
non-terminal leaf.  Returns the steps pushed and the errors extended. -/
def build_non_if_steps (node_id : String) (node : WorkflowNode)
    (node_map : List (String × WorkflowNode)) (graph : WorkflowGraph)
    (id_map : IdMap) : List Step × List CompilerError :=
  let (baseSteps, errs) :=
    match expand_node node id_map with
    | some expanded => (expanded.map expanded_to_step, [])
    | none =>
      match lower_node node graph node_map id_map with
      | .ok step => ([step], [])
      | .error e => ([], e)
  (baseSteps ++ logSteps node_id node id_map
     ++ autoReturnSteps node_id node graph id_map, errs)
where
  /-- The `if let Some(log) = settings.log` block of `build_steps`: the
  optional synthesized `Log` step after a node's main step(s). -/
  logSteps (node_id : String) (node : WorkflowNode) (id_map : IdMap) : List Step :=
    match node.settings with
    | some settings =>
      match settings.log with
      | some log =>
        let level : LogLevel :=
          match log.level with
          | "debug" => .Debug
          | "warn" => .Warn
          | "error" => .Error
          | _ => .Info
        [.mk (node_id ++ "___log") [node_id] ("Log (" ++ node.label ++ ")")
          (.Log { level := level,
                  message := resolve_value_expr log.message_template id_map })
          none]
      | none => []
    | none => []
  /-- The `is_leaf && !is_terminal` block of `build_steps`: the synthesized
  auto-return step closing a non-terminal leaf node. -/
  autoReturnSteps (node_id : String) (node : WorkflowNode) (graph : WorkflowGraph)
      (id_map : IdMap) : List Step :=
    let is_leaf := (graph.outgoing_edges node_id).isEmpty
    let is_terminal := node.is_explicit_terminal
    if is_leaf && !is_terminal then
      let return_expr := (node.settings.bind (·.return_expression)).getD "\"ok\""
      [.mk (node_id ++ "___auto_return") [node_id] "Auto return"
        (.Return { expression := resolve_value_expr return_expr id_map })
        none]
    else []

/-- `build_branch` of lower/builder.rs, parameterised by the `build_steps`
callee `bs` it invokes on each arm (the two are mutually recursive in the
source; `bs` is instantiated with the fueled `build_steps` below).
Threads the consumed set and propagates a failing arm build with `?`. -/
def build_branch_with
    (bs : List String → StrSet → Except (List CompilerError) (List Step) × StrSet)
    (if_node_id : String) (if_config : IfConfig) (all_node_ids : List String)
    (node_map : List (String × WorkflowNode)) (graph : WorkflowGraph)
    (id_map : IdMap) (consumed : StrSet) :
    Except (List CompilerError) (List Step) × StrSet :=
  let edges := graph.outgoing_edges if_node_id
  let targets := edges.foldl (fun acc tl =>
    match tl.2.source_handle with
    | some "true" => (some tl.1, acc.2)
    | some "false" => (acc.1, some tl.1)
    | _ => acc) ((none : Option String), (none : Option String))
  let true_target := targets.1.getD ""
  let false_target := targets.2.getD ""
  let merge_node_id :=
    find_reconvergence if_node_id true_target false_target all_node_ids graph
  let true_nodes :=
    collect_branch_nodes true_target merge_node_id all_node_ids graph consumed
  let false_nodes :=
    collect_branch_nodes false_target merge_node_id all_node_ids graph consumed
  match bs true_nodes consumed with
  | (.error e, consumed) => (.error e, consumed)
  | (.ok true_steps, consumed) =>
    match bs false_nodes consumed with
    | (.error e, consumed) => (.error e, consumed)
    | (.ok false_steps, consumed) =>
      let conditions := if_config.conditions.map (fun c =>
        ({ field := resolve_value_expr c.field id_map,
           operator := parse_comparison_op c.operator,
           value := c.value.map (fun v => resolve_value_expr v id_map) } : ConditionIR))
      let combine_with : LogicCombinator :=
        if if_config.combine_with = "or" then .Or else .And
      let reconverge_at := merge_node_id
      let branch_step : Step :=
        .mk if_node_id [if_node_id]
          (((node_map_get node_map if_node_id).map (·.label)).getD if_node_id)
          (.Branch (.mk conditions combine_with (.mk true_steps) (.mk false_steps)
            reconverge_at))
          none
      match reconverge_at with
      | some merge_id =>
        let consumed := consumed.insert merge_id
        let merge_step : Step :=
          .mk merge_id [merge_id]
            (((node_map_get node_map merge_id).map (·.label)).getD merge_id)
            (.Merge
              { branch_step_id := if_node_id,
                strategy := .PassThrough,
                inputs := [
                  { handle_name := "true",
                    value := ValueExpr.raw "/* true branch result */" },
                  { handle_name := "false",
                    value := ValueExpr.raw "/* false branch result */" }] })
            (some
              { variable_name := "step_" ++ strReplaceChar merge_id '-' "_",
                ts_type := "any",
                destructure_fields := none })
        (.ok [branch_step, merge_step], consumed)
      | none => (.ok [branch_step], consumed)

/-- The loop of `build_steps` of lower/builder.rs, with explicit fuel
(every recursive call decrements it; `rest.length + 2 * unconsumed + 1`
is enough, see `build_steps_go_fuel`-style hypotheses of the theorems).
`all_node_ids` is the full slice the Rust loop indexes into (passed on to
`build_branch`), `rest` its unprocessed suffix.  Returns the steps, the
accumulated errors and the consumed set. -/
def build_steps_go : Nat → List String → List String →
    List (String × WorkflowNode) → WorkflowGraph → IdMap → StrSet →
    List Step × List CompilerError × StrSet
  | 0, _, _, _, _, _, consumed =>
    ([], [CompilerError.lower "FUEL" "embedding fuel exhausted" none], consumed)
  | _ + 1, _, [], _, _, _, consumed => ([], [], consumed)
  | fuel + 1, all_node_ids, node_id :: t, node_map, graph, id_map, consumed =>
    if node_id ∈ consumed then
      build_steps_go fuel all_node_ids t node_map graph id_map consumed
    else
      match node_map_get node_map node_id with
      | none => build_steps_go fuel all_node_ids t node_map graph id_map consumed
      | some node =>
        let consumed := consumed.insert node_id
        match node with
        | .If n =>
          let (res, consumed) := build_branch_with
            (fun ids c =>
              let r := build_steps_go fuel ids ids node_map graph id_map c
              (if r.2.1.isEmpty then .ok r.1 else .error r.2.1, r.2.2))
            node_id n.data.config all_node_ids node_map graph id_map consumed
          let (bsteps, berrs) :=
            match res with
            | .ok s => (s, ([] : List CompilerError))
            | .error e => (([] : List Step), e)
          let (steps2, errs2, consumed) :=
            build_steps_go fuel all_node_ids t node_map graph id_map consumed
          (bsteps ++ steps2, berrs ++ errs2, consumed)
        | _ =>
          let (steps1, errs1) := build_non_if_steps node_id node node_map graph id_map
          let (steps2, errs2, consumed) :=
            build_steps_go fuel all_node_ids t node_map graph id_map consumed
          (steps1 ++ steps2, errs1 ++ errs2, consumed)

/-- `build_steps` of lower/builder.rs: run the loop, then `Err(errors)`
when any error accumulated, `Ok(steps)` otherwise; threads `consumed`. -/
def build_steps (fuel : Nat) (node_ids : List String)
    (node_map : List (String × WorkflowNode)) (graph : WorkflowGraph)
    (id_map : IdMap) (consumed : StrSet) :
    Except (List CompilerError) (List Step) × StrSet :=
  let r := build_steps_go fuel node_ids node_ids node_map graph id_map consumed
  (if r.2.1.isEmpty then .ok r.1 else .error r.2.1, r.2.2)

/-- `build_branch` of lower/builder.rs (its `build_steps` calls carry the
given fuel). -/
def build_branch (fuel : Nat) (if_node_id : String) (if_config : IfConfig)
    (all_node_ids : List String) (node_map : List (String × WorkflowNode))
    (graph : WorkflowGraph) (id_map : IdMap) (consumed : StrSet) :
    Except (List CompilerError) (List Step) × StrSet :=
  build_branch_with
    (fun ids c =>
      let r := build_steps_go fuel ids ids node_map graph id_map c
      (if r.2.1.isEmpty then .ok r.1 else .error r.2.1, r.2.2))
    if_node_id if_config all_node_ids node_map graph id_map consumed

/-- `build_handler_body` of lower/builder.rs: filter the trigger out of
the topological order and build the top-level block from the remainder
(fuel `3 * n + 1` is sufficient for the fueled loop, see the consumed-set
lemmas). -/
def build_handler_body (topo_order : List String)
    (workflow_nodes : List WorkflowNode) (graph : WorkflowGraph) (id_map : IdMap) :
    Except (List CompilerError) Block :=
  let node_map := workflow_nodes.map (fun n => (n.id, n))
  let non_trigger := topo_order.filter (fun id =>
    match node_map_get node_map id with
    | some n => !n.is_trigger
    | none => false)
  let r := build_steps (3 * non_trigger.length + 1) non_trigger node_map graph id_map []
  r.1.map Block.mk

-- ===========================================================================
-- Concrete-workflow helpers shared by the claims' witnesses
-- ===========================================================================

/-- A minimal `WorkflowIR` around a given handler body (cron trigger, no
declared secrets or chains). -/
def mk_ir (body : Block) : WorkflowIR :=
  { metadata :=
      { id := "wf", name := "wf", description := none, version := "1.0.0",
        is_testnet := true, default_chain_selector := none },
    trigger := .Cron { schedule := ValueExpr.config "schedule" },
    trigger_param := .CronTrigger,
    config_schema := [],
    required_secrets := [],
    evm_chains := [],
    user_rpcs := [],
    handler_body := body }

/-- A minimal HTTP-request operation for concrete workflows. -/
def sample_http_op : HttpRequestOp :=
  { method := .Get, url := ValueExpr.string "https://example.com",
    headers := [], query_params := [], body := none, authentication := none,
    cache_max_age_seconds := none, timeout_ms := none,
    expected_status_codes := [200], response_format := .Json,
    consensus := .Identical }

/-- A minimal AI-call operation for concrete workflows. -/
def sample_ai_op : AiCallOp :=
  { provider := "openai", base_url := ValueExpr.string "https://ai.example.com",
    model := ValueExpr.string "m", api_key_secret := "AI_KEY",
    system_prompt := ValueExpr.string "s", user_prompt := ValueExpr.string "u",
    temperature := none, max_tokens := none, response_format := .Text,
    consensus := .Identical }

/-- An HTTP step with the given id. -/
def http_step (i : String) : Step :=
  .mk i [i] ("http " ++ i) (.HttpRequest sample_http_op)
    (some { variable_name := "step_" ++ i, ts_type := "any", destructure_fields := none })

/-- An AI-call step with the given id. -/
def ai_step (i : String) : Step :=
  .mk i [i] ("ai " ++ i) (.AiCall sample_ai_op)
    (some { variable_name := "step_" ++ i, ts_type := "any", destructure_fields := none })

/-- A return step with the given id. -/
def return_step (i : String) : Step :=
  .mk i [i] ("return " ++ i) (.Return { expression := ValueExpr.string "ok" }) none

/-- A log step (no output binding) with the given id. -/
def log_step (i : String) : Step :=
  .mk i [i] ("log " ++ i)
    (.Log { level := .Info, message := ValueExpr.string "hi" }) none

/-- A get-secret step with the given id and secret name. -/
def secret_step (i n : String) : Step :=
  .mk i [i] ("secret " ++ i) (.GetSecret { secret_name := n })
    (some { variable_name := "step_" ++ i, ts_type := "any", destructure_fields := none })

/-- A JSON-parse step referencing another step's output. -/
def parse_ref_step (i target : String) : Step :=
  .mk i [i] ("parse " ++ i)
    (.JsonParse { input := ValueExpr.binding target "body",
                  source_path := none, strict := true })
    (some { variable_name := "step_" ++ i, ts_type := "any", destructure_fields := none })

/-- A block ending in a return step. -/
def c5_ret_ir : WorkflowIR := mk_ir (.mk [log_step "l1", return_step "r1"])

/-- A block whose last step is a no-reconvergence branch with a returning
true arm and a side-effect-only false arm. -/
def c5_mixed_ir : WorkflowIR :=
  mk_ir (.mk [.mk "br" ["br"] "branch"
    (.Branch (.mk [] .And (.mk [return_step "tr"]) (.mk [log_step "fl"]) none))
    none])

-- ===========================================================================
-- C10: the fixed ceilings, and AiCall charged as an HTTP call
-- ===========================================================================

/-- Three HTTP calls and three AI calls on one path. -/
def c10_ir : WorkflowIR :=
  mk_ir (.mk [http_step "h1", http_step "h2", http_step "h3",
              ai_step "a1", ai_step "a2", ai_step "a3", return_step "r"])

/-- The workflow of the claim's example: 3 HTTP calls, then a conditional
whose arms use 3 and 2 HTTP calls. -/
def c6_ir : WorkflowIR :=
  mk_ir (.mk [http_step "h1", http_step "h2", http_step "h3",
    .mk "br" ["br"] "branch"
      (.Branch (.mk [] .And
        (.mk [http_step "t1", http_step "t2", http_step "t3", return_step "tr"])
        (.mk [http_step "f1", http_step "f2", return_step "fr"])
        none))
      none])

-- ===========================================================================
-- C8: the Operation variant set of ir/types.rs versus its consumers
-- ===========================================================================

/-- The constructor names of the `Operation` enum exactly as declared in
the snapshot's ir/types.rs (lines 326-349), in declaration order. -/
def types_rs_operation_variants : List String :=
  ["HttpRequest", "EvmRead", "EvmWrite",
   "CodeNode", "JsonParse", "AbiEncode", "AbiDecode",
   "Branch", "Filter", "Merge",
   "AiCall",
   "ErrorThrow", "Return"]

/-- The constructor tag of the embedded (consumer-faithful) `Operation`. -/
def Operation.tag : Operation → String
  | .HttpRequest _ => "HttpRequest"
  | .EvmRead _ => "EvmRead"
  | .EvmWrite _ => "EvmWrite"
  | .GetSecret _ => "GetSecret"
  | .CodeNode _ => "CodeNode"
  | .JsonParse _ => "JsonParse"
  | .AbiEncode _ => "AbiEncode"
  | .AbiDecode _ => "AbiDecode"
  | .Branch _ => "Branch"
  | .Filter _ => "Filter"
  | .Merge _ => "Merge"
  | .AiCall _ => "AiCall"
  | .Log _ => "Log"
  | .ErrorThrow _ => "ErrorThrow"
  | .Return _ => "Return"

-- ===========================================================================
-- C3: branch/merge adjacency
-- ===========================================================================

/-- Spec-modelled adjacency predicate (C3, from the spec's words): every
`Branch` that declares a reconvergence target is immediately followed, in
the same block, by a step with that id whose operation is a `Merge`
naming the branch; a `Branch` without a target is unconstrained; branch
arms are checked recursively. -/
def spec_branch_merge_ok : Block → Bool
  | .mk steps => go steps
where
  /-- The per-block step scan of the spec predicate. -/
  go : List Step → Bool
  | [] => true
  | .mk id _ _ operation _ :: rest =>
    match operation with
    | .Branch (.mk _ _ true_branch false_branch reconverge_at) =>
      (match reconverge_at with
       | some merge_id =>
         match rest with
         | next_step :: _ =>
           next_step.id == merge_id
             && (match next_step.operation with
                 | .Merge merge => merge.branch_step_id == id
                 | _ => false)
         | [] => false
       | none => true)
        && spec_branch_merge_ok true_branch
        && spec_branch_merge_ok false_branch
        && go rest
    | _ => go rest

/-- The trigger node of the C3/C1/C2 concrete diamond workflow. -/
def diamond_trigger : WorkflowNode :=
  .CronTrigger
    { id := "trig", position := ⟨0, 0⟩,
      data := { label := "Trigger", config := { schedule := "* * * * *", timezone := none } },
      settings := none }

/-- A `Log` workflow node with the given id (lowers to one `Log` step). -/
def diamond_log (i : String) : WorkflowNode :=
  .Log
    { id := i, position := ⟨0, 0⟩,
      data := { label := "Log " ++ i,
                config := { level := "info", message_template := "m" } },
      settings := none }

/-- The conditional node of the concrete diamond workflow. -/
def diamond_if : WorkflowNode :=
  .If
    { id := "if1", position := ⟨0, 0⟩,
      data := { label := "If",
                config := { conditions := [], combine_with := "and" } },
      settings := none }

/-- The merge node of the concrete diamond workflow. -/
def diamond_merge : WorkflowNode :=
  .Merge
    { id := "m", position := ⟨0, 0⟩,
      data := { label := "Merge",
                config := { strategy := .Append, number_of_inputs := none,
                            clash_handling := none } },
      settings := none }

/-- The return node of the concrete diamond workflow. -/
def diamond_return : WorkflowNode :=
  .Return
    { id := "r", position := ⟨0, 0⟩,
      data := { label := "Return", config := { return_expression := "1" } },
      settings := none }

/-- The node list of the concrete diamond workflow: a trigger, a
conditional with a `Log` node on each arm, the merge point and a return. -/
def diamond_nodes : List WorkflowNode :=
  [diamond_trigger, diamond_if, diamond_log "a", diamond_log "b",
   diamond_merge, diamond_return]

/-- The edge list of the concrete diamond workflow. -/
def diamond_graph : WorkflowGraph :=
  { nodes := ["trig", "if1", "a", "b", "m", "r"],
    edges := [
      ⟨"trig", "if1", ⟨none, none⟩⟩,
      ⟨"if1", "a", ⟨some "true", none⟩⟩,
      ⟨"if1", "b", ⟨some "false", none⟩⟩,
      ⟨"a", "m", ⟨none, none⟩⟩,
      ⟨"b", "m", ⟨none, none⟩⟩,
      ⟨"m", "r", ⟨none, none⟩⟩] }

/-- A topological order of the diamond workflow. -/
def diamond_topo : List String := ["trig", "if1", "a", "b", "m", "r"]

/-- The handler body the builder produces for the diamond workflow. -/
def diamond_built_block : Block :=
  (build_handler_body diamond_topo diamond_nodes diamond_graph []).toOption.getD
    (.mk [])

/-- An IR violating branch/merge adjacency: a `Branch` declaring
reconvergence at "m" is followed by a `Log` step instead of the merge. -/
def c3_bad_ir : WorkflowIR :=
  mk_ir (.mk [
    .mk "br" ["br"] "branch"
      (.Branch (.mk [] .And (.mk [return_step "tr"]) (.mk [return_step "fr"])
        (some "m")))
      none,
    log_step "x",
    return_step "r"])

/-- The scope accumulated over a step list: the ids of the steps that
carry an output binding, inserted in order (the other steps extend
nothing); branch arms contribute nothing to it. -/
def scope_after : List Step → StrSet → StrSet
  | [], scope => scope
  | .mk id _ _ _ output :: rest, scope =>
    scope_after rest (match output with | some _ => scope.insert id | none => scope)

/-- Amended scoping predicate (C4): every reference of every step names a
step id already in scope, where the scope before a step is the parent
scope plus the ids of the *output-bearing* steps that precede it in its
own block, and each branch arm is checked against an independent copy of
the scope snapshot taken at the branch point. -/
def spec_bindings_ok : Block → StrSet → Bool
  | .mk steps, scope => go steps scope
where
  /-- The per-block scan of the amended scoping predicate. -/
  go : List Step → StrSet → Bool
  | [], _ => true
  | .mk id src label operation output :: rest, scope =>
    ((collect_binding_refs_from_step (.mk id src label operation output)).all
        (fun r => decide (r.step_id ∈ scope)))
      && (match operation with
          | .Branch (.mk _ _ true_branch false_branch _) =>
            spec_bindings_ok true_branch scope && spec_bindings_ok false_branch scope
          | _ => true)
      && go rest (match output with | some _ => scope.insert id | none => scope)

/-- Counterexample workflow for C4: a no-output `Log` step "L" precedes
the step "P" that references it. -/
def c4_ir : WorkflowIR :=
  mk_ir (.mk [log_step "L", parse_ref_step "P" "L", return_step "r"])

/-- Sibling-arm workflow for C4: "X" is defined only in the true arm and
referenced from the false arm. -/
def c4_sibling_ir : WorkflowIR :=
  mk_ir (.mk [
    .mk "br" ["br"] "branch"
      (.Branch (.mk [] .And
        (.mk [secret_step "X" "k", return_step "tr"])
        (.mk [parse_ref_step "P" "X", return_step "fr"])
        none))
      none])

/-- A correctly scoped block for the C4 witness: "A" carries an output
binding and precedes its referencing step. -/
def c4_ok_block : Block :=
  .mk [secret_step "A" "k", parse_ref_step "P" "A", return_step "r"]

-- ===========================================================================
-- C9: duplicate attribution of nested undeclared secrets
-- ===========================================================================

/-- A step occurs, at any nesting depth, in a block. -/
inductive StepInBlock : Step → Block → Prop where
  | top {s : Step} {steps : List Step} (hs : s ∈ steps) : StepInBlock s (.mk steps)
  | inTrue {s t : Step} {steps : List Step} {bo : BranchOp} (ht : t ∈ steps)
      (hop : Step.operation t = .Branch bo)
      (hs : StepInBlock s bo.true_branch) : StepInBlock s (.mk steps)
  | inFalse {s t : Step} {steps : List Step} {bo : BranchOp} (ht : t ∈ steps)
      (hop : Step.operation t = .Branch bo)
      (hs : StepInBlock s bo.false_branch) : StepInBlock s (.mk steps)

/-- The branch payload of the C9 witness workflow: a `GetSecret` step in
the true arm. -/
def c9_bo : BranchOp :=
  .mk [] .And (.mk [secret_step "S" "mysecret", return_step "tr"])
    (.mk [return_step "fr"]) none

/-- The branch step of the C9 witness workflow. -/
def c9_branch_step : Step := .mk "br" ["br"] "branch" (.Branch c9_bo) none

/-- The C9 witness workflow: the secret "mysecret" is not declared. -/
def c9_ir : WorkflowIR := mk_ir (.mk [c9_branch_step, return_step "r"])

/-- A workflow graph whose two arms never meet (for the C1 witness). -/
def c1_disjoint_graph : WorkflowGraph :=
  { nodes := ["trig", "if1", "a", "b", "r1", "r2"],
    edges := [
      ⟨"trig", "if1", ⟨none, none⟩⟩,
      ⟨"if1", "a", ⟨some "true", none⟩⟩,
      ⟨"if1", "b", ⟨some "false", none⟩⟩,
      ⟨"a", "r1", ⟨none, none⟩⟩,
      ⟨"b", "r2", ⟨none, none⟩⟩] }

-- ===========================================================================
-- C7: topological sort (spec-modelled: topo.rs delegates the algorithm to
-- petgraph::algo::toposort, which is not part of this repository; the
-- sort below implements the documented contract — a total order
-- consistent with all edges, or a cycle error naming a node on a cycle —
-- as Kahn's algorithm over the embedded graph, and `topo_sort` wraps it
-- exactly as topo.rs wraps the library call)
-- ===========================================================================

/-- One directed edge step of the workflow graph. -/
def EdgeStep (g : WorkflowGraph) (a b : String) : Prop :=
  ∃ e ∈ g.edges, e.source = a ∧ e.target = b

/-- A predecessor of `n` inside `remaining`, if any. -/
def pred_in (g : WorkflowGraph) (remaining : List String) (n : String) :
    Option String :=
  (g.edges.find? (fun e => e.target == n && remaining.contains e.source)).map
    (·.source)

/-- The backward walk of length `k` from `n` through `pred_in`. -/
def pred_walk (g : WorkflowGraph) (remaining : List String) :
    Nat → String → List String
  | 0, n => [n]
  | k + 1, n =>
    match pred_in g remaining n with
    | some p => n :: pred_walk g remaining k p
    | none => [n]

/-- A node of `remaining` lying on a cycle, found by walking backwards
`|remaining|` steps and picking a node visited twice. -/
def find_cycle_node (g : WorkflowGraph) (remaining : List String) : String :=
  let trail := (pred_walk g remaining remaining.length (remaining.headD "")).reverse
  (trail.find? (fun n => 2 ≤ trail.count n)).getD (remaining.headD "")

/-- Whether `n` has an incoming edge from `remaining`. -/
def has_incoming_from (g : WorkflowGraph) (remaining : List String) (n : String) :
    Bool :=
  g.edges.any (fun e => e.target == n && remaining.contains e.source)

/-- Kahn's algorithm: repeatedly emit the first remaining node with no
incoming edge from the remaining set; report a cycle node when none
exists. -/
def kahn_go (g : WorkflowGraph) : Nat → List String → List String →
    Except String (List String)
  | 0, remaining, _ => .error (find_cycle_node g remaining)
  | _ + 1, [], acc => .ok acc.reverse
  | fuel + 1, remaining, acc =>
    match remaining.find? (fun n => !has_incoming_from g remaining n) with
    | some n => kahn_go g fuel (remaining.erase n) (n :: acc)
    | none => .error (find_cycle_node g remaining)

/-- `topo_sort` of lower/topo.rs: node ids in topological order, or the
single L001 cycle error naming a node on a cycle. -/
def topo_sort (g : WorkflowGraph) : Except (List CompilerError) (List String) :=
  match kahn_go g (g.nodes.length + 1) g.nodes [] with
  | .ok ids => .ok ids
  | .error node => .error [CompilerError.lower "L001"
      ("Cycle detected at node '" ++ node ++ "'") (some node)]

/-- A rank function certifying that the diamond graph is acyclic. -/
def diamond_rank (n : String) : Nat :=
  if n = "trig" then 0 else if n = "if1" then 1 else if n = "a" then 2
  else if n = "b" then 2 else if n = "m" then 3 else 4

/-- A two-node cyclic graph for the C7 witness. -/
def c7_cyclic_graph : WorkflowGraph :=
  { nodes := ["x", "y"],
    edges := [⟨"x", "y", ⟨none, none⟩⟩, ⟨"y", "x", ⟨none, none⟩⟩] }

-- ===========================================================================
-- C2: branch partitioning and partition completeness
-- ===========================================================================

/-- Shared-tail diamond for C2: both arms of "if1" reach "x" beyond the
merge point "m". -/
def c2_shared_graph : WorkflowGraph :=
  { nodes := ["trig", "if1", "a", "b", "m", "x"],
    edges := [
      ⟨"trig", "if1", ⟨none, none⟩⟩,
      ⟨"if1", "a", ⟨some "true", none⟩⟩,
      ⟨"if1", "b", ⟨some "false", none⟩⟩,
      ⟨"a", "m", ⟨none, none⟩⟩,
      ⟨"b", "m", ⟨none, none⟩⟩,
      ⟨"m", "x", ⟨none, none⟩⟩] }

/-- The topological id list of the shared-tail diamond. -/
def c2_ids : List String := ["trig", "if1", "a", "b", "m", "x"]

/-- Two-conditional workflow for C2: conditional "A" (no reconvergence)
consumes "x" inside its true arm; conditional "B" later reconverges at
the already-consumed "x". -/
def c2_dual_graph : WorkflowGraph :=
  { nodes := ["trig", "A", "t", "f", "x", "B", "u", "v"],
    edges := [
      ⟨"trig", "A", ⟨none, none⟩⟩,
      ⟨"trig", "B", ⟨none, none⟩⟩,
      ⟨"A", "t", ⟨some "true", none⟩⟩,
      ⟨"A", "f", ⟨some "false", none⟩⟩,
      ⟨"t", "x", ⟨none, none⟩⟩,
      ⟨"B", "u", ⟨some "true", none⟩⟩,
      ⟨"B", "v", ⟨some "false", none⟩⟩,
      ⟨"u", "x", ⟨none, none⟩⟩,
      ⟨"v", "x", ⟨none, none⟩⟩] }

/-- An `If` workflow node with the given id. -/
def c2_if_node (i : String) : WorkflowNode :=
  .If
    { id := i, position := ⟨0, 0⟩,
      data := { label := "If " ++ i,
                config := { conditions := [], combine_with := "and" } },
      settings := none }

/-- The node list of the two-conditional workflow. -/
def c2_dual_nodes : List WorkflowNode :=
  [diamond_trigger, c2_if_node "A", diamond_log "t", diamond_log "f",
   diamond_log "x", c2_if_node "B", diamond_log "u", diamond_log "v"]

/-- The topological order of the two-conditional workflow (the trigger
node of `diamond_trigger` has id "trig"). -/
def c2_dual_topo : List String := ["trig", "A", "t", "f", "x", "B", "u", "v"]

/-- The non-trigger part of the topological order. -/
def c2_non_trigger : List String := ["A", "t", "f", "x", "B", "u", "v"]

/-- The node map the builder derives for the two-conditional workflow. -/
def c2_node_map : List (String × WorkflowNode) :=
  c2_dual_nodes.map (fun n => (n.id, n))

/-- The consumed set just before conditional "B" is structured: the state
after the top-level pass has processed the prefix "A", "t", "f", "x"
(consuming "t" and "x" inside A's true arm and "f" inside its false
arm). -/
def c2_consumed_before_B : StrSet :=
  (build_steps_go 25 c2_non_trigger ["A", "t", "f", "x"] c2_node_map
    c2_dual_graph [] []).2.2

/-- Conditional "B" structured by `build_branch` at that state. -/
def c2_b_result : Except (List CompilerError) (List Step) × StrSet :=
  build_branch 25 "B" { conditions := [], combine_with := "and" }
    c2_non_trigger c2_node_map c2_dual_graph [] c2_consumed_before_B

/-- The handler body built for the two-conditional workflow. -/
def c2_dual_built_block : Block :=
  (build_handler_body c2_dual_topo c2_dual_nodes c2_dual_graph []).toOption.getD
    (.mk [])

-- ===========================================================================
-- Which error codes each validator component can emit
-- ===========================================================================

theorem validate_handler_body_non_empty_codes (ir : WorkflowIR) :
    ∀ e ∈ validate_handler_body_non_empty ir, e.code = "E001" := by
  intro e he
  unfold validate_handler_body_non_empty at he
  split at he <;> simp_all

mutual
theorem collect_step_ids_codes (b : Block) (seen : StrSet) :
    ∀ e ∈ (collect_step_ids b seen).2, e.code = "E002" :=
  match b with
  | .mk steps => collect_step_ids_go_codes steps seen

theorem collect_step_ids_go_codes (steps : List Step) (seen : StrSet) :
    ∀ e ∈ (collect_step_ids.go steps seen).2, e.code = "E002" :=
  match steps with
  | [] => by simp [collect_step_ids.go]
  | .mk id src label operation output :: rest => by
    have hrest := fun s => collect_step_ids_go_codes rest s
    cases operation
    case Branch bo =>
      cases bo with
      | mk conds cw tb fb rc =>
        have ht := collect_step_ids_codes tb
        have hf := collect_step_ids_codes fb
        intro e he
        simp only [collect_step_ids.go] at he
        split at he
        · simp at he
          rcases he with he | he | he | he
          · simp [he]
          · exact ht _ _ he
          · exact hf _ _ he
          · exact hrest _ _ he
        · simp at he
          rcases he with he | he | he
          · exact ht _ _ he
          · exact hf _ _ he
          · exact hrest _ _ he
    all_goals (
      intro e he
      simp only [collect_step_ids.go] at he
      split at he
      · simp at he
        rcases he with he | he
        · simp [he]
        · exact hrest _ _ he
      · simp at he
        exact hrest _ _ he)
end

mutual
theorem validate_block_bindings_codes (b : Block) (scope : StrSet) :
    ∀ e ∈ (validate_block_bindings b scope).1, e.code = "E003" :=
  match b with
  | .mk steps => validate_block_bindings_go_codes steps scope

theorem validate_block_bindings_go_codes (steps : List Step) (scope : StrSet) :
    ∀ e ∈ (validate_block_bindings.go steps scope).1, e.code = "E003" :=
  match steps with
  | [] => by simp [validate_block_bindings.go]
  | .mk id src label operation output :: rest => by
    have hrest := fun s => validate_block_bindings_go_codes rest s
    have hrefs : ∀ e ∈ (((collect_binding_refs_from_step
        (.mk id src label operation output)).map (fun r =>
          if r.step_id ∈ scope then [] else [scope_error id r.step_id])).flatten),
        e.code = "E003" := by
      intro e he
      simp at he
      obtain ⟨r, -, -, he⟩ := he
      simp [he, scope_error]
    cases operation
    case Branch bo =>
      cases bo with
      | mk conds cw tb fb rc =>
        have ht := validate_block_bindings_codes tb scope
        have hf := validate_block_bindings_codes fb scope
        intro e he
        simp only [validate_block_bindings.go] at he
        simp at he
        rcases he with he | he | he | he
        · exact hrefs e (by simpa using he)
        · exact ht _ he
        · exact hf _ he
        · exact hrest _ _ he
    all_goals (
      intro e he
      simp only [validate_block_bindings.go] at he
      simp at he
      rcases he with he | he
      · exact hrefs e (by simpa using he)
      · exact hrest _ _ he)
end

mutual
theorem validate_block_branch_merge_codes (b : Block) :
    ∀ e ∈ validate_block_branch_merge b,
      e.code = "E004" ∨ e.code = "E005" ∨ e.code = "E006" :=
  match b with
  | .mk steps => validate_block_branch_merge_go_codes steps

theorem validate_block_branch_merge_go_codes (steps : List Step) :
    ∀ e ∈ validate_block_branch_merge.go steps,
      e.code = "E004" ∨ e.code = "E005" ∨ e.code = "E006" :=
  match steps with
  | [] => by simp [validate_block_branch_merge.go]
  | .mk id src label operation output :: rest => by
    have hrest := validate_block_branch_merge_go_codes rest
    cases operation
    case Branch bo =>
      cases bo with
      | mk conds cw tb fb rc =>
        have ht := validate_block_branch_merge_codes tb
        have hf := validate_block_branch_merge_codes fb
        intro e he
        simp only [validate_block_branch_merge.go] at he
        simp at he
        rcases he with he | he | he | he
        · rcases rc with _ | merge_id
          · simp at he
          · rcases rest with _ | ⟨next, rest2⟩
            · simp [branch_no_next_error] at he
              simp [he]
            · simp at he
              rcases he with he | he
              · simp [he.2, branch_next_mismatch_error]
              · split at he
                · simp at he
                  simp [he.2, merge_wrong_branch_error]
                · simp at he
                  simp [he, not_a_merge_error]
        · exact ht _ he
        · exact hf _ he
        · exact hrest _ he
    all_goals (
      intro e he
      simp only [validate_block_branch_merge.go] at he
      exact hrest _ he)
end

mutual
theorem validate_block_secret_refs_codes (b : Block) (declared : List String) :
    ∀ e ∈ validate_block_secret_refs b declared, e.code = "E007" :=
  match b with
  | .mk steps => validate_block_secret_refs_go_codes steps declared

theorem validate_block_secret_refs_go_codes (steps : List Step) (declared : List String) :
    ∀ e ∈ validate_block_secret_refs.go steps declared, e.code = "E007" :=
  match steps with
  | [] => by simp [validate_block_secret_refs.go]
  | .mk id src label operation output :: rest => by
    have hrest := validate_block_secret_refs_go_codes rest declared
    have hsec : ∀ e ∈ (((collect_secret_refs_from_step
        (.mk id src label operation output)).map (fun name =>
          if name ∈ declared then [] else [secret_error name id])).flatten),
        e.code = "E007" := by
      intro e he
      simp at he
      obtain ⟨r, -, -, he⟩ := he
      simp [he, secret_error]
    cases operation
    case Branch bo =>
      cases bo with
      | mk conds cw tb fb rc =>
        have ht := validate_block_secret_refs_codes tb declared
        have hf := validate_block_secret_refs_codes fb declared
        intro e he
        simp only [validate_block_secret_refs.go] at he
        simp at he
        rcases he with he | he | he | he
        · exact hsec e (by simpa using he)
        · exact ht _ he
        · exact hf _ he
        · exact hrest _ he
    all_goals (
      intro e he
      simp only [validate_block_secret_refs.go] at he
      simp at he
      rcases he with he | he
      · exact hsec e (by simpa using he)
      · exact hrest _ he)
end

mutual
theorem validate_block_evm_refs_codes (b : Block) (declared : List String) :
    ∀ e ∈ validate_block_evm_refs b declared, e.code = "E008" :=
  match b with
  | .mk steps => validate_block_evm_refs_go_codes steps declared

theorem validate_block_evm_refs_go_codes (steps : List Step) (declared : List String) :
    ∀ e ∈ validate_block_evm_refs.go steps declared, e.code = "E008" :=
  match steps with
  | [] => by simp [validate_block_evm_refs.go]
  | .mk id src label operation output :: rest => by
    have hrest := validate_block_evm_refs_go_codes rest declared
    cases operation
    case Branch bo =>
      cases bo with
      | mk conds cw tb fb rc =>
        have ht := validate_block_evm_refs_codes tb declared
        have hf := validate_block_evm_refs_codes fb declared
        intro e he
        simp only [validate_block_evm_refs.go] at he
        simp at he
        rcases he with he | he | he
        · exact ht _ he
        · exact hf _ he
        · exact hrest _ he
    case EvmRead o =>
      intro e he
      simp only [validate_block_evm_refs.go] at he
      simp at he
      rcases he with he | he
      · simp [he.2, evm_ref_error]
      · exact hrest _ he
    case EvmWrite o =>
      intro e he
      simp only [validate_block_evm_refs.go] at he
      simp at he
      rcases he with he | he
      · simp [he.2, evm_ref_error]
      · exact hrest _ he
    all_goals (
      intro e he
      simp only [validate_block_evm_refs.go] at he
      simp at he
      exact hrest _ he)
end

theorem validate_evm_chain_refs_codes (ir : WorkflowIR) :
    ∀ e ∈ validate_evm_chain_refs ir, e.code = "E008" := by
  intro e he
  unfold validate_evm_chain_refs at he
  simp at he
  rcases he with he | he
  · split at he <;> simp_all
  · exact validate_block_evm_refs_codes _ _ _ he

theorem validate_cre_budget_codes (ir : WorkflowIR) :
    ∀ e ∈ validate_cre_budget ir,
      e.code = "E009" ∨ e.code = "E010" ∨ e.code = "E011" := by
  intro e he
  unfold validate_cre_budget at he
  simp at he
  rcases he with he | he | he <;>
    simp [he.2, http_budget_error, evm_read_budget_error, evm_write_budget_error]

theorem validate_return_paths_codes (ir : WorkflowIR) :
    ∀ e ∈ validate_return_paths ir, e.code = "E012" := by
  intro e he
  unfold validate_return_paths at he
  split at he <;> simp_all

-- ===========================================================================
-- Last-step characterisation of `block_terminates`
-- ===========================================================================

theorem block_terminates_go_eq (steps : List Step) (acc : Bool) :
    block_terminates.go acc steps =
      match steps.getLast? with
      | some s => block_terminates.check s
      | none => acc := by
  induction steps generalizing acc with
  | nil => simp [block_terminates.go]
  | cons s rest ih =>
    rw [block_terminates.go, ih]
    cases rest with
    | nil => rfl
    | cons s2 rest2 => rfl

theorem block_terminates_eq (steps : List Step) :
    block_terminates (.mk steps) =
      match steps.getLast? with
      | some s => block_terminates.check s
      | none => false :=
  block_terminates_go_eq steps false

/-- C5: `validate_ir` reports the termination-totality violation (code
E012) exactly when `block_terminates` rejects the top-level block; a
top-level block whose last step is `Return` or `ErrorThrow` passes; a
last-step `Branch` with no reconvergence point passes exactly when both
arms recursively satisfy totality; a last-step `Branch` that reconverges
is never a terminator, so such a block fails totality. -/
theorem C5_termination_totality (ir : WorkflowIR) :
    ((∃ e ∈ validate_ir ir, e.code = "E012") ↔ block_terminates ir.handler_body = false)
    ∧ (∀ s, ir.handler_body.steps.getLast? = some s →
        ((∃ o, s.operation = .Return o) ∨ (∃ o, s.operation = .ErrorThrow o)) →
        block_terminates ir.handler_body = true)
    ∧ (∀ s bo, ir.handler_body.steps.getLast? = some s → s.operation = .Branch bo →
        (bo.reconverge_at = none →
          block_terminates ir.handler_body
            = (block_terminates bo.true_branch && block_terminates bo.false_branch))
        ∧ (∀ m, bo.reconverge_at = some m → block_terminates ir.handler_body = false)) := by
  refine ⟨?_, ?_, ?_⟩
  · constructor
    · rintro ⟨e, he, hcode⟩
      simp only [validate_ir, List.mem_append] at he
      rcases he with ((((((he | he) | he) | he) | he) | he) | he) | he
      · have := validate_handler_body_non_empty_codes ir e he; simp_all
      · have := collect_step_ids_codes ir.handler_body [] e he; simp_all
      · have := validate_block_bindings_codes ir.handler_body [] e he; simp_all
      · have := validate_block_branch_merge_codes ir.handler_body e he
        simp_all
      · have := validate_block_secret_refs_codes ir.handler_body _ e he; simp_all
      · have := validate_evm_chain_refs_codes ir e he; simp_all
      · have := validate_cre_budget_codes ir e he; simp_all
      · unfold validate_return_paths at he
        split at he
        · simp_all
        · simp at he
    · intro hbt
      refine ⟨{ code := "E012",
                message := "Not all execution paths end with a Return or ErrorThrow step",
                step_id := none }, ?_, rfl⟩
      simp only [validate_ir, List.mem_append]
      right
      unfold validate_return_paths
      simp [hbt]
  · intro s hlast hterm
    cases hb : ir.handler_body with
    | mk steps =>
      rw [block_terminates_eq]
      rw [hb] at hlast
      simp only [Block.steps] at hlast
      rw [hlast]
      cases s with
      | mk id src label operation output =>
        rcases hterm with ⟨o, ho⟩ | ⟨o, ho⟩ <;> simp only [Step.operation] at ho <;>
          subst ho <;> simp [block_terminates.check]
  · intro s bo hlast hop
    cases hb : ir.handler_body with
    | mk steps =>
      rw [hb] at hlast
      simp only [Block.steps] at hlast
      cases s with
      | mk id src label operation output =>
        simp only [Step.operation] at hop
        subst hop
        cases bo with
        | mk conds cw tb fb rc =>
          constructor
          · intro hrc
            simp only [BranchOp.reconverge_at] at hrc
            subst hrc
            rw [block_terminates_eq, hlast]
            simp [block_terminates.check, BranchOp.true_branch, BranchOp.false_branch]
          · intro m hrc
            simp only [BranchOp.reconverge_at] at hrc
            subst hrc
            rw [block_terminates_eq, hlast]
            simp [block_terminates.check]

/-- Witness for C5: the totality theorem applied at a returning workflow
and at a mixed-arm branch workflow. -/
theorem C5_termination_totality_witness :
    block_terminates c5_ret_ir.handler_body = true
    ∧ (∃ e ∈ validate_ir c5_mixed_ir, e.code = "E012") := by
  constructor
  · exact (C5_termination_totality c5_ret_ir).2.1 (return_step "r1") rfl
      (Or.inl ⟨_, rfl⟩)
  · exact (C5_termination_totality c5_mixed_ir).1.mpr (by decide)

/-- C10: the capability ceilings are 5 HTTP calls, 10 EVM reads and 5 EVM
writes per workflow; an `AiCall` step is charged toward the HTTP-call
ceiling exactly like an `HttpRequest` step; a workflow with 3 HTTP
requests and 3 AI calls on one path is counted at 6 HTTP calls and is
reported over the HTTP budget. -/
theorem C10_ceilings_and_ai_counting :
    (MAX_HTTP_CALLS = 5 ∧ MAX_EVM_READS = 10 ∧ MAX_EVM_WRITES = 5)
    ∧ (∀ (o : AiCallOp) (o2 : HttpRequestOp) (id id2 : String)
        (src src2 : List String) (lb lb2 : String)
        (out out2 : Option OutputBinding) (rest : List Step),
        count_capabilities.go (.mk id src lb (.AiCall o) out :: rest)
          = count_capabilities.go (.mk id2 src2 lb2 (.HttpRequest o2) out2 :: rest))
    ∧ count_capabilities c10_ir.handler_body = (6, 0, 0)
    ∧ (∃ e ∈ validate_ir c10_ir, e.code = "E009") := by
  refine ⟨⟨rfl, rfl, rfl⟩, ?_, by decide, by decide⟩
  intro o o2 id id2 src src2 lb lb2 out out2 rest
  simp [count_capabilities.go, count_capabilities.contrib]

-- ===========================================================================
-- C6: a Branch is charged the max of its arms, never the sum
-- ===========================================================================

theorem count_capabilities_go_append (l1 l2 : List Step) :
    count_capabilities.go (l1 ++ l2) =
      ((count_capabilities.go l1).1 + (count_capabilities.go l2).1,
       (count_capabilities.go l1).2.1 + (count_capabilities.go l2).2.1,
       (count_capabilities.go l1).2.2 + (count_capabilities.go l2).2.2) := by
  induction l1 with
  | nil => simp [count_capabilities.go]
  | cons s rest ih =>
    cases s with
    | mk id src label operation output =>
      simp only [List.cons_append, count_capabilities.go, List.append_eq, ih]
      simp only [Prod.mk.injEq]
      refine ⟨?_, ?_, ?_⟩ <;> omega

/-- C6: when counting capabilities through a `Branch`, the branch
contributes the componentwise maximum of its two arms' counts, never
their sum; a budget violation (E009/E010/E011) is reported exactly when
the charged count exceeds its fixed ceiling; the claim's example workflow
(3 HTTP calls before a conditional whose arms use 3 and 2) is charged
3 + max 3 2 = 6 HTTP calls, not 8, and is reported over budget. -/
theorem C6_branch_charged_max_not_sum :
    (∀ (pre post : List Step) (id : String) (src : List String) (lb : String)
       (out : Option OutputBinding) (conds : List ConditionIR)
       (cw : LogicCombinator) (tb fb : Block) (rc : Option String),
       count_capabilities
           (.mk (pre ++ .mk id src lb (.Branch (.mk conds cw tb fb rc)) out :: post))
         = ((count_capabilities.go pre).1
              + max (count_capabilities tb).1 (count_capabilities fb).1
              + (count_capabilities.go post).1,
            (count_capabilities.go pre).2.1
              + max (count_capabilities tb).2.1 (count_capabilities fb).2.1
              + (count_capabilities.go post).2.1,
            (count_capabilities.go pre).2.2
              + max (count_capabilities tb).2.2 (count_capabilities fb).2.2
              + (count_capabilities.go post).2.2))
    ∧ (∀ ir : WorkflowIR,
        ((∃ e ∈ validate_ir ir, e.code = "E009")
          ↔ (count_capabilities ir.handler_body).1 > MAX_HTTP_CALLS)
        ∧ ((∃ e ∈ validate_ir ir, e.code = "E010")
          ↔ (count_capabilities ir.handler_body).2.1 > MAX_EVM_READS)
        ∧ ((∃ e ∈ validate_ir ir, e.code = "E011")
          ↔ (count_capabilities ir.handler_body).2.2 > MAX_EVM_WRITES))
    ∧ (count_capabilities c6_ir.handler_body).1 = 3 + max 3 2
    ∧ (count_capabilities c6_ir.handler_body).1 ≠ 3 + 3 + 2 := by
  refine ⟨?_, ?_, by decide, by decide⟩
  · intro pre post id src lb out conds cw tb fb rc
    show count_capabilities.go (pre ++ _ :: post) = _
    rw [count_capabilities_go_append]
    simp only [count_capabilities.go, count_capabilities.contrib]
    simp only [Prod.mk.injEq]
    refine ⟨?_, ?_, ?_⟩ <;> omega
  · intro ir
    have budget : ∀ e ∈ validate_cre_budget ir, e ∈ validate_ir ir := by
      intro e he
      simp only [validate_ir, List.mem_append]
      left; right
      exact he
    have notBudget : ∀ e ∈ validate_ir ir,
        (e.code = "E009" ∨ e.code = "E010" ∨ e.code = "E011") →
        e ∈ validate_cre_budget ir := by
      intro e he hc
      simp only [validate_ir, List.mem_append] at he
      rcases he with ((((((he | he) | he) | he) | he) | he) | he) | he
      · have := validate_handler_body_non_empty_codes ir e he; simp_all
      · have := collect_step_ids_codes ir.handler_body [] e he; simp_all
      · have := validate_block_bindings_codes ir.handler_body [] e he; simp_all
      · have := validate_block_branch_merge_codes ir.handler_body e he
        rcases this with h | h | h <;> rcases hc with hc | hc | hc <;> simp_all
      · have := validate_block_secret_refs_codes ir.handler_body _ e he; simp_all
      · have := validate_evm_chain_refs_codes ir e he; simp_all
      · exact he
      · have := validate_return_paths_codes ir e he; simp_all
    refine ⟨⟨?_, ?_⟩, ⟨?_, ?_⟩, ⟨?_, ?_⟩⟩
    · rintro ⟨e, he, hcode⟩
      have hmem := notBudget e he (Or.inl hcode)
      unfold validate_cre_budget at hmem
      simp at hmem
      rcases hmem with hm | hm | hm <;> first
        | exact hm.1
        | (exfalso; rw [hm.2] at hcode;
           simp [http_budget_error, evm_read_budget_error,
             evm_write_budget_error] at hcode)
    · intro hgt
      have hm : http_budget_error (count_capabilities ir.handler_body).1
          ∈ validate_cre_budget ir := by
        unfold validate_cre_budget
        simp [hgt]
      exact ⟨_, budget _ hm, rfl⟩
    · rintro ⟨e, he, hcode⟩
      have hmem := notBudget e he (Or.inr (Or.inl hcode))
      unfold validate_cre_budget at hmem
      simp at hmem
      rcases hmem with hm | hm | hm <;> first
        | exact hm.1
        | (exfalso; rw [hm.2] at hcode;
           simp [http_budget_error, evm_read_budget_error,
             evm_write_budget_error] at hcode)
    · intro hgt
      have hm : evm_read_budget_error (count_capabilities ir.handler_body).2.1
          ∈ validate_cre_budget ir := by
        unfold validate_cre_budget
        simp [hgt]
      exact ⟨_, budget _ hm, rfl⟩
    · rintro ⟨e, he, hcode⟩
      have hmem := notBudget e he (Or.inr (Or.inr hcode))
      unfold validate_cre_budget at hmem
      simp at hmem
      rcases hmem with hm | hm | hm <;> first
        | exact hm.1
        | (exfalso; rw [hm.2] at hcode;
           simp [http_budget_error, evm_read_budget_error,
             evm_write_budget_error] at hcode)
    · intro hgt
      have hm : evm_write_budget_error (count_capabilities ir.handler_body).2.2
          ∈ validate_cre_budget ir := by
        unfold validate_cre_budget
        simp [hgt]
      exact ⟨_, budget _ hm, rfl⟩

/-- C8 (code bug): the spec requires the closed `Operation` variant to
carry a secret-fetch and a log constructor, and every consumer in the
snapshot does construct and match `Operation::GetSecret` and
`Operation::Log` — e.g. the validator's secret collector consumes a
`GetSecret` step — but the `Operation` enum declared at ir/types.rs lines
326-349 has neither constructor (13 variants only). -/
theorem C8_operation_variants :
    "GetSecret" ∉ types_rs_operation_variants
    ∧ "Log" ∉ types_rs_operation_variants
    ∧ types_rs_operation_variants.length = 13
    ∧ (∀ o : GetSecretOp, Operation.tag (.GetSecret o) = "GetSecret")
    ∧ (∀ o : LogOp, Operation.tag (.Log o) = "Log")
    ∧ collect_secret_refs_from_step
        (.mk "s" ["s"] "s" (.GetSecret { secret_name := "K" }) none) = ["K"] := by
  refine ⟨by decide, by decide, rfl, fun o => rfl, fun o => rfl, rfl⟩

theorem branch_merge_go_nil_iff_cons_some (id : String) (src : List String)
    (label : String) (output : Option OutputBinding) (conds : List ConditionIR)
    (cw : LogicCombinator) (tb fb : Block) (merge_id : String)
    (next : Step) (rest2 : List Step)
    (ht : validate_block_branch_merge tb = [] ↔ spec_branch_merge_ok tb = true)
    (hf : validate_block_branch_merge fb = [] ↔ spec_branch_merge_ok fb = true)
    (hrest : validate_block_branch_merge.go (next :: rest2) = []
      ↔ spec_branch_merge_ok.go (next :: rest2) = true) :
    validate_block_branch_merge.go
        (.mk id src label (.Branch (.mk conds cw tb fb (some merge_id))) output
          :: next :: rest2) = []
      ↔ spec_branch_merge_ok.go
          (.mk id src label (.Branch (.mk conds cw tb fb (some merge_id))) output
            :: next :: rest2) = true := by
  have hv : validate_block_branch_merge.go
      (.mk id src label (.Branch (.mk conds cw tb fb (some merge_id))) output
        :: next :: rest2)
    = ((if next.id ≠ merge_id then
          [branch_next_mismatch_error id merge_id next.id] else [])
        ++ (match next.operation with
            | .Merge merge =>
              if merge.branch_step_id ≠ id then
                [merge_wrong_branch_error next.id merge.branch_step_id id]
              else []
            | _ => [not_a_merge_error next.id id]))
        ++ validate_block_branch_merge tb ++ validate_block_branch_merge fb
        ++ validate_block_branch_merge.go (next :: rest2) := rfl
  have hs : spec_branch_merge_ok.go
      (.mk id src label (.Branch (.mk conds cw tb fb (some merge_id))) output
        :: next :: rest2)
    = (((next.id == merge_id)
          && (match next.operation with
              | .Merge merge => merge.branch_step_id == id
              | _ => false))
        && spec_branch_merge_ok tb && spec_branch_merge_ok fb
        && spec_branch_merge_ok.go (next :: rest2)) := rfl
  rw [hv, hs]
  cases hop : next.operation
  case Merge m =>
    by_cases hn : next.id = merge_id <;> by_cases hb : m.branch_step_id = id <;>
      simp [hn, hb, ht, hf, hrest, and_assoc,
        branch_next_mismatch_error, merge_wrong_branch_error]
  all_goals
    simp [not_a_merge_error]

mutual
theorem branch_merge_nil_iff (b : Block) :
    validate_block_branch_merge b = [] ↔ spec_branch_merge_ok b = true :=
  match b with
  | .mk steps => branch_merge_go_nil_iff steps

theorem branch_merge_go_nil_iff (steps : List Step) :
    validate_block_branch_merge.go steps = []
      ↔ spec_branch_merge_ok.go steps = true :=
  match steps with
  | [] => by simp [validate_block_branch_merge.go, spec_branch_merge_ok.go]
  | .mk id src label operation output :: rest => by
    have hrest := branch_merge_go_nil_iff rest
    cases operation
    case Branch bo =>
      cases bo with
      | mk conds cw tb fb rc =>
        have ht := branch_merge_nil_iff tb
        have hf := branch_merge_nil_iff fb
        rcases rc with _ | merge_id
        · simp only [validate_block_branch_merge.go, spec_branch_merge_ok.go,
            List.nil_append, List.append_eq_nil, Bool.true_and, Bool.and_eq_true,
            and_assoc]
          exact and_congr ht (and_congr hf hrest)
        · rcases rest with _ | ⟨next, rest2⟩
          · simp [validate_block_branch_merge.go, spec_branch_merge_ok.go,
              branch_no_next_error]
          · exact branch_merge_go_nil_iff_cons_some id src label output conds cw
              tb fb merge_id next rest2 ht hf hrest
    all_goals
      simpa only [validate_block_branch_merge.go, spec_branch_merge_ok.go]
        using hrest
end

theorem spec_go_append_non_branch (l1 l2 : List Step)
    (h : ∀ s ∈ l1, ∀ bo, s.operation ≠ .Branch bo) :
    spec_branch_merge_ok.go (l1 ++ l2) = spec_branch_merge_ok.go l2 := by
  induction l1 with
  | nil => rfl
  | cons s rest ih =>
    obtain ⟨id, src, lb, op, out⟩ := s
    cases op
    case Branch bo => exact absurd rfl (h _ (List.mem_cons_self _ _) bo)
    all_goals
      simp only [List.cons_append, spec_branch_merge_ok.go]
      exact ih (fun s hs => h s (List.mem_cons_of_mem _ hs))

theorem expand_node_not_branch (node : WorkflowNode) (id_map : IdMap)
    (es : List ExpandedStep) (h : expand_node node id_map = some es) :
    ∀ x ∈ es, ∀ bo, (expanded_to_step x).operation ≠ .Branch bo := by
  intro x hx bo
  cases node
  case MintToken n =>
    simp only [expand_node, Option.some.injEq] at h
    subst h
    simp only [expand_mint_token, List.mem_cons, List.not_mem_nil, or_false] at hx
    rcases hx with rfl | rfl <;> simp [expanded_to_step, Step.operation]
  case BurnToken n =>
    simp only [expand_node, Option.some.injEq] at h
    subst h
    simp only [expand_burn_token, List.mem_cons, List.not_mem_nil, or_false] at hx
    rcases hx with rfl | rfl <;> simp [expanded_to_step, Step.operation]
  case TransferToken n =>
    simp only [expand_node, Option.some.injEq] at h
    subst h
    simp only [expand_transfer_token, List.mem_cons, List.not_mem_nil, or_false] at hx
    rcases hx with rfl | rfl <;> simp [expanded_to_step, Step.operation]
  case CheckKyc n =>
    simp only [expand_node, Option.some.injEq] at h
    subst h
    simp only [expand_check_kyc, List.mem_cons, List.not_mem_nil, or_false] at hx
    rcases hx with rfl | rfl | rfl <;> simp [expanded_to_step, Step.operation]
  case CheckBalance n =>
    simp only [expand_node, Option.some.injEq] at h
    subst h
    simp only [expand_check_balance, List.mem_cons, List.not_mem_nil, or_false] at hx
    subst hx
    simp [expanded_to_step, Step.operation]
  all_goals simp [expand_node] at h

theorem lower_node_not_branch (node : WorkflowNode) (graph : WorkflowGraph)
    (node_map : List (String × WorkflowNode)) (id_map : IdMap) (step : Step)
    (h : lower_node node graph node_map id_map = .ok step) :
    ∀ bo, step.operation ≠ .Branch bo := by
  intro bo
  cases node <;> simp only [lower_node, Except.map] at h
  all_goals first
    | exact Except.noConfusion h
    | (injection h with h
       subst h
       simp [Step.operation, lower_http_request, lower_evm_read, lower_evm_write,
         lower_get_secret, lower_code_node, lower_json_parse, lower_abi_encode,
         lower_abi_decode, lower_filter, lower_ai, lower_log, lower_error,
         lower_stop_and_error, lower_return, lower_merge_standalone])

theorem logSteps_not_branch (node_id : String) (node : WorkflowNode)
    (id_map : IdMap) :
    ∀ s ∈ build_non_if_steps.logSteps node_id node id_map, ∀ bo,
      s.operation ≠ .Branch bo := by
  intro s hs bo
  simp only [build_non_if_steps.logSteps] at hs
  split at hs
  · split at hs
    · simp only [List.mem_singleton] at hs
      subst hs
      simp [Step.operation]
    · exact absurd hs (List.not_mem_nil s)
  · exact absurd hs (List.not_mem_nil s)

theorem autoReturnSteps_not_branch (node_id : String) (node : WorkflowNode)
    (graph : WorkflowGraph) (id_map : IdMap) :
    ∀ s ∈ build_non_if_steps.autoReturnSteps node_id node graph id_map, ∀ bo,
      s.operation ≠ .Branch bo := by
  intro s hs bo
  simp only [build_non_if_steps.autoReturnSteps] at hs
  split at hs
  · simp only [List.mem_singleton] at hs
    subst hs
    simp [Step.operation]
  · exact absurd hs (List.not_mem_nil s)

theorem build_non_if_steps_not_branch (node_id : String) (node : WorkflowNode)
    (node_map : List (String × WorkflowNode)) (graph : WorkflowGraph)
    (id_map : IdMap) :
    ∀ s ∈ (build_non_if_steps node_id node node_map graph id_map).1, ∀ bo,
      s.operation ≠ .Branch bo := by
  intro s hs bo
  unfold build_non_if_steps at hs
  rcases hex : expand_node node id_map with _ | es
  · rw [hex] at hs
    cases hlow : lower_node node graph node_map id_map with
    | error e =>
      rw [hlow] at hs
      simp only [List.nil_append, List.mem_append] at hs
      rcases hs with hs | hs
      · exact logSteps_not_branch node_id node id_map s hs bo
      · exact autoReturnSteps_not_branch node_id node graph id_map s hs bo
    | ok step =>
      rw [hlow] at hs
      simp only [List.mem_append, List.mem_singleton] at hs
      rcases hs with (rfl | hs) | hs
      · exact lower_node_not_branch node graph node_map id_map s hlow bo
      · exact logSteps_not_branch node_id node id_map s hs bo
      · exact autoReturnSteps_not_branch node_id node graph id_map s hs bo
  · rw [hex] at hs
    simp only [List.mem_append, List.mem_map] at hs
    rcases hs with (⟨x, hx, rfl⟩ | hs) | hs
    · exact expand_node_not_branch node id_map es hex x hx bo
    · exact logSteps_not_branch node_id node id_map s hs bo
    · exact autoReturnSteps_not_branch node_id node graph id_map s hs bo

theorem build_branch_with_ok_append (bs : List String → StrSet →
      Except (List CompilerError) (List Step) × StrSet)
    (Hbs : ∀ ids c steps, (bs ids c).1 = .ok steps →
      spec_branch_merge_ok.go steps = true)
    (if_node_id : String) (if_config : IfConfig) (all_node_ids : List String)
    (node_map : List (String × WorkflowNode)) (graph : WorkflowGraph)
    (id_map : IdMap) (consumed : StrSet) (steps tail : List Step)
    (h : (build_branch_with bs if_node_id if_config all_node_ids node_map graph
          id_map consumed).1 = .ok steps) :
    spec_branch_merge_ok.go (steps ++ tail) = spec_branch_merge_ok.go tail := by
  simp only [build_branch_with] at h
  split at h
  next e c1 heq => simp at h
  next ts c1 heq =>
    split at h
    next e c2 heq2 => simp at h
    next fs c2 heq2 =>
      have hts : spec_branch_merge_ok.go ts = true := Hbs _ _ ts (by rw [heq])
      have hfs : spec_branch_merge_ok.go fs = true := Hbs _ _ fs (by rw [heq2])
      split at h
      next merge_id hm =>
        simp only [Except.ok.injEq] at h
        subst h
        simp only [hm]
        dsimp only [List.cons_append, spec_branch_merge_ok.go,
          spec_branch_merge_ok, Step.id, Step.operation]
        simp [hts, hfs]
      next hm =>
        simp only [Except.ok.injEq] at h
        subst h
        simp only [hm]
        dsimp only [List.cons_append, spec_branch_merge_ok.go,
          spec_branch_merge_ok, Step.id, Step.operation]
        simp [hts, hfs]

theorem build_steps_go_branch_merge_ok (fuel : Nat) :
    ∀ (all_node_ids rest : List String)
      (node_map : List (String × WorkflowNode)) (graph : WorkflowGraph)
      (id_map : IdMap) (consumed : StrSet),
      spec_branch_merge_ok.go
          (build_steps_go fuel all_node_ids rest node_map graph id_map consumed).1
        = true := by
  induction fuel with
  | zero => intro all rest nm g im c; rfl
  | succ fuel ih =>
    intro all rest nm g im c
    cases rest with
    | nil => rfl
    | cons node_id t =>
      simp only [build_steps_go]
      split
      · exact ih all t nm g im c
      · split
        · exact ih all t nm g im c
        next node hnm =>
          split
          next n =>
            split
            next s hbbw =>
              rw [build_branch_with_ok_append _ ?hbs _ _ _ _ _ _ _ _ _ hbbw]
              case hbs =>
                intro ids cc steps hsok
                dsimp only at hsok
                split at hsok
                · rw [← (Except.ok.injEq _ _).mp hsok]
                  exact ih ids ids nm g im cc
                · exact Except.noConfusion hsok
              exact ih all t nm g im _
            next e hbbw =>
              simpa using ih all t nm g im _
          next hnotif =>
            rw [spec_go_append_non_branch _ _
              (build_non_if_steps_not_branch node_id node nm g im)]
            exact ih all t nm g im _

theorem build_handler_body_branch_merge (topo_order : List String)
    (workflow_nodes : List WorkflowNode) (graph : WorkflowGraph) (id_map : IdMap)
    (b : Block)
    (h : build_handler_body topo_order workflow_nodes graph id_map = .ok b) :
    spec_branch_merge_ok b = true ∧ validate_block_branch_merge b = [] := by
  simp only [build_handler_body, build_steps] at h
  split at h
  · simp only [Except.map, Except.ok.injEq] at h
    subst h
    refine ⟨build_steps_go_branch_merge_ok _ _ _ _ _ _ _, ?_⟩
    exact (branch_merge_nil_iff _).mpr (build_steps_go_branch_merge_ok _ _ _ _ _ _ _)
  · simp [Except.map] at h

/-- No-reconvergence sanity step list for C3's equation conjunct. -/
theorem validate_block_branch_merge_none_eq (id : String) (src : List String)
    (lb : String) (out : Option OutputBinding) (conds : List ConditionIR)
    (cw : LogicCombinator) (tb fb : Block) (rest : List Step) :
    validate_block_branch_merge.go
        (.mk id src lb (.Branch (.mk conds cw tb fb none)) out :: rest)
      = validate_block_branch_merge tb ++ validate_block_branch_merge fb
          ++ validate_block_branch_merge.go rest := rfl

/-- C3: a `Branch` step that declares a reconvergence target must be
immediately followed, in the same block, by a `Merge` step with that id
whose `branch_step_id` names the branch.  (1) `validate_block_branch_merge`
accepts a block exactly when this adjacency holds everywhere
(`spec_branch_merge_ok`, the spec's predicate) — so any violation (wrong
next id, non-Merge next step, merge naming a different branch, or no next
step) is reported, via E004/E005/E006; (2) every handler body the builder
returns satisfies the adjacency; (3) on any IR violating it, `validate_ir`
reports one of the adjacency codes; (4) a `Branch` with no reconvergence
target contributes no adjacency error of its own. -/
theorem C3_branch_merge_adjacency :
    (∀ b : Block, validate_block_branch_merge b = [] ↔ spec_branch_merge_ok b = true)
    ∧ (∀ (topo_order : List String) (workflow_nodes : List WorkflowNode)
         (graph : WorkflowGraph) (id_map : IdMap) (b : Block),
        build_handler_body topo_order workflow_nodes graph id_map = .ok b →
        validate_block_branch_merge b = [])
    ∧ (∀ ir : WorkflowIR, spec_branch_merge_ok ir.handler_body = false →
        ∃ e ∈ validate_ir ir, e.code = "E004" ∨ e.code = "E005" ∨ e.code = "E006")
    ∧ (∀ (id : String) (src : List String) (lb : String)
         (out : Option OutputBinding) (conds : List ConditionIR)
         (cw : LogicCombinator) (tb fb : Block) (rest : List Step),
        validate_block_branch_merge.go
            (.mk id src lb (.Branch (.mk conds cw tb fb none)) out :: rest)
          = validate_block_branch_merge tb ++ validate_block_branch_merge fb
              ++ validate_block_branch_merge.go rest) := by
  refine ⟨fun b => branch_merge_nil_iff b, ?_, ?_, ?_⟩
  · intro topo nodes graph id_map b h
    exact (build_handler_body_branch_merge topo nodes graph id_map b h).2
  · intro ir hfalse
    have hne : validate_block_branch_merge ir.handler_body ≠ [] := by
      intro hnil
      rw [(branch_merge_nil_iff _).mp hnil] at hfalse
      simp at hfalse
    obtain ⟨e, he⟩ := List.exists_mem_of_ne_nil _ hne
    refine ⟨e, ?_, validate_block_branch_merge_codes _ e he⟩
    simp only [validate_ir, validate_branch_merge_consistency, List.mem_append]
    left; left; left; left; right
    exact he
  · intro id src lb out conds cw tb fb rest
    exact validate_block_branch_merge_none_eq id src lb out conds cw tb fb rest

/-- Witness for C3: the builder's diamond output validates cleanly, and
the IR with a `Log` step between `Branch` and its declared merge is
reported. -/
theorem C3_branch_merge_adjacency_witness :
    validate_block_branch_merge diamond_built_block = []
    ∧ (∃ e ∈ validate_ir c3_bad_ir,
        e.code = "E004" ∨ e.code = "E005" ∨ e.code = "E006") := by
  constructor
  · exact C3_branch_merge_adjacency.2.1 diamond_topo diamond_nodes diamond_graph
      [] diamond_built_block rfl
  · exact C3_branch_merge_adjacency.2.2.1 c3_bad_ir rfl

-- ===========================================================================
-- C4: forward-reference scoping
-- ===========================================================================

/-- Membership in a `StrSet` after an insert. -/
theorem StrSet.mem_insert_iff (s : StrSet) (i x : String) :
    x ∈ StrSet.insert s i ↔ x = i ∨ x ∈ s := by
  by_cases h : i ∈ s <;> simp only [StrSet.insert, h, if_true, if_false, List.mem_cons]
  constructor
  · exact Or.inr
  · rintro (rfl | hx)
    · exact h
    · exact hx

/-- The scope threaded by `validate_block_bindings` is exactly
`scope_after`. -/
theorem validate_block_bindings_go_scope (steps : List Step) :
    ∀ scope : StrSet,
      (validate_block_bindings.go steps scope).2 = scope_after steps scope := by
  induction steps with
  | nil => intro scope; rfl
  | cons s rest ih =>
    intro scope
    obtain ⟨id, src, lb, op, out⟩ := s
    simp only [validate_block_bindings.go, scope_after]
    exact ih _

/-- Membership in `scope_after`: exactly the parent scope plus the ids of
the output-bearing steps of the list. -/
theorem scope_after_mem (steps : List Step) :
    ∀ (scope : StrSet) (x : String),
      x ∈ scope_after steps scope
        ↔ x ∈ scope ∨ ∃ s ∈ steps, Step.id s = x ∧ (Step.output s).isSome = true := by
  induction steps with
  | nil => intro scope x; simp [scope_after]
  | cons s rest ih =>
    intro scope x
    obtain ⟨id, src, lb, op, out⟩ := s
    rcases out with _ | ob
    · simp only [scope_after, ih, List.mem_cons, Step.id, Step.output]
      constructor
      · rintro (hx | hs)
        · exact Or.inl hx
        · obtain ⟨t, ht, hx⟩ := hs
          exact Or.inr ⟨t, Or.inr ht, hx⟩
      · rintro (hx | ⟨t, rfl | ht, hid, hout⟩)
        · exact Or.inl hx
        · simp at hout
        · exact Or.inr ⟨t, ht, hid, hout⟩
    · simp only [scope_after, ih, List.mem_cons, Step.id, Step.output,
        StrSet.mem_insert_iff]
      constructor
      · rintro ((rfl | hx) | hs)
        · exact Or.inr ⟨.mk x src lb op (some ob), Or.inl rfl, rfl, rfl⟩
        · exact Or.inl hx
        · obtain ⟨t, ht, hx⟩ := hs
          exact Or.inr ⟨t, Or.inr ht, hx⟩
      · rintro (hx | ⟨t, rfl | ht, hid, hout⟩)
        · exact Or.inl (Or.inr hx)
        · exact Or.inl (Or.inl hid.symm)
        · exact Or.inr ⟨t, ht, hid, hout⟩

/-- The error list of `validate_block_bindings.go` over an appended list
splits at the accumulated scope. -/
theorem validate_block_bindings_go_append (pre post : List Step) :
    ∀ scope : StrSet,
      (validate_block_bindings.go (pre ++ post) scope).1
        = (validate_block_bindings.go pre scope).1
          ++ (validate_block_bindings.go post (scope_after pre scope)).1 := by
  induction pre with
  | nil => intro scope; rfl
  | cons s rest ih =>
    intro scope
    obtain ⟨id, src, lb, op, out⟩ := s
    cases op
    case Branch bo =>
      obtain ⟨cconds, cw, tb, fb, rc⟩ := bo
      rcases out with _ | ob <;>
        simp only [List.cons_append, validate_block_bindings.go, List.append_eq,
          scope_after, ih, List.append_assoc]
    all_goals
      rcases out with _ | ob <;>
        simp only [List.cons_append, validate_block_bindings.go, List.append_eq,
          scope_after, ih, List.append_assoc]

/-- A reference whose target is not in scope at its step is reported. -/
theorem scope_error_emitted (s : Step) (rest : List Step) (scope : StrSet)
    (ref : BindingRef) (href : ref ∈ collect_binding_refs_from_step s)
    (hmem : ref.step_id ∉ scope) :
    scope_error (Step.id s) ref.step_id
      ∈ (validate_block_bindings.go (s :: rest) scope).1 := by
  obtain ⟨id, src, lb, op, out⟩ := s
  cases op
  case Branch bo =>
    obtain ⟨cconds, cw, tb, fb, rc⟩ := bo
    rcases out with _ | ob <;>
      · dsimp only [validate_block_bindings.go, Step.id]
        simp only [List.mem_append]
        left; left
        simp only [List.mem_flatten, List.mem_map]
        refine ⟨[scope_error id ref.step_id], ⟨ref, href, ?_⟩,
          List.mem_singleton.mpr rfl⟩
        rw [if_neg hmem]
  all_goals
    rcases out with _ | ob <;>
      · dsimp only [validate_block_bindings.go, Step.id]
        simp only [List.mem_append]
        left; left
        simp only [List.mem_flatten, List.mem_map]
        refine ⟨[scope_error id ref.step_id], ⟨ref, href, ?_⟩,
          List.mem_singleton.mpr rfl⟩
        rw [if_neg hmem]

theorem ref_errs_nil_iff (id : String) (refs : List BindingRef) (scope : StrSet) :
    (refs.map (fun r =>
        if r.step_id ∈ scope then [] else [scope_error id r.step_id])).flatten = []
      ↔ refs.all (fun r => decide (r.step_id ∈ scope)) = true := by
  rw [List.flatten_eq_nil_iff, List.all_eq_true]
  constructor
  · intro h r hr
    have := h _ (List.mem_map_of_mem _ hr)
    by_contra hmem
    rw [decide_eq_true_iff] at hmem
    rw [if_neg hmem] at this
    exact List.cons_ne_nil _ _ this
  · intro h l hl
    obtain ⟨r, hr, rfl⟩ := List.mem_map.mp hl
    rw [if_pos (of_decide_eq_true (h r hr))]

mutual
theorem bindings_nil_iff (b : Block) : ∀ scope : StrSet,
    (validate_block_bindings b scope).1 = [] ↔ spec_bindings_ok b scope = true :=
  match b with
  | .mk steps => bindings_go_nil_iff steps

theorem bindings_go_nil_iff (steps : List Step) : ∀ scope : StrSet,
    (validate_block_bindings.go steps scope).1 = []
      ↔ spec_bindings_ok.go steps scope = true :=
  match steps with
  | [] => by
    intro scope
    simp [validate_block_bindings.go, spec_bindings_ok.go]
  | .mk id src label operation output :: rest => by
    intro scope
    cases operation
    case Branch bo =>
      obtain ⟨cconds, cw, tb, fb, rc⟩ := bo
      have ht := bindings_nil_iff tb scope
      have hf := bindings_nil_iff fb scope
      rcases output with _ | ob
      · have hrest := bindings_go_nil_iff rest scope
        dsimp only [validate_block_bindings.go, spec_bindings_ok.go]
        simp only [List.append_eq_nil, Bool.and_eq_true, and_assoc]
        exact and_congr (ref_errs_nil_iff id _ scope)
          (and_congr ht (and_congr hf hrest))
      · have hrest := bindings_go_nil_iff rest (scope.insert id)
        dsimp only [validate_block_bindings.go, spec_bindings_ok.go]
        simp only [List.append_eq_nil, Bool.and_eq_true, and_assoc]
        exact and_congr (ref_errs_nil_iff id _ scope)
          (and_congr ht (and_congr hf hrest))
    all_goals
      rcases output with _ | ob
      · have hrest := bindings_go_nil_iff rest scope
        dsimp only [validate_block_bindings.go, spec_bindings_ok.go]
        simp only [List.append_nil, List.append_eq_nil, Bool.and_true,
          Bool.and_eq_true]
        exact and_congr (ref_errs_nil_iff id _ scope) hrest
      · have hrest := bindings_go_nil_iff rest (scope.insert id)
        dsimp only [validate_block_bindings.go, spec_bindings_ok.go]
        simp only [List.append_nil, List.append_eq_nil, Bool.and_true,
          Bool.and_eq_true]
        exact and_congr (ref_errs_nil_iff id _ scope) hrest
end

/-- C4 (corrected): the spec's "a reference to step X validates iff X
precedes the referencing step" is wrong — the validator admits a
reference only when the target is in the accumulated *scope*, and a step
extends the scope only when it carries an output binding, so a preceding
no-output step (the `Log` "L" of `c4_ir`) is still rejected (E003).
Amended: a block validates iff every reference names a step id in scope,
where the scope before a step is the parent scope plus the ids of the
preceding output-bearing steps of its own block, and each branch arm is
checked against an independent copy of the branch-point scope — hence a
reference to a step defined only in a sibling arm always fails. -/
theorem C4_scope_monotonicity :
    (c4_ir.handler_body
        = .mk [log_step "L", parse_ref_step "P" "L", return_step "r"]
      ∧ Step.output (log_step "L") = none
      ∧ ⟨"L", "body"⟩ ∈ collect_binding_refs_from_step (parse_ref_step "P" "L")
      ∧ scope_error "P" "L" ∈ validate_ir c4_ir)
    ∧ (∀ (b : Block) (scope : StrSet),
        (validate_block_bindings b scope).1 = [] ↔ spec_bindings_ok b scope = true)
    ∧ (∀ (steps : List Step) (scope : StrSet),
        (validate_block_bindings.go steps scope).2 = scope_after steps scope)
    ∧ (∀ (steps : List Step) (scope : StrSet) (x : String),
        x ∈ scope_after steps scope
          ↔ x ∈ scope ∨ ∃ s ∈ steps, Step.id s = x ∧ (Step.output s).isSome = true)
    ∧ (∀ (pre : List Step) (s : Step) (post : List Step) (scope : StrSet)
         (ref : BindingRef), ref ∈ collect_binding_refs_from_step s →
        ref.step_id ∉ scope_after pre scope →
        scope_error (Step.id s) ref.step_id
          ∈ (validate_block_bindings.go (pre ++ s :: post) scope).1)
    ∧ (∀ (id : String) (src : List String) (lb : String) (conds : List ConditionIR)
         (cw : LogicCombinator) (tb fb : Block) (rc : Option String)
         (rest : List Step) (scope : StrSet),
        (validate_block_bindings.go
            (.mk id src lb (.Branch (.mk conds cw tb fb rc)) none :: rest) scope).1
          = ((collect_binding_refs_from_step
                (.mk id src lb (.Branch (.mk conds cw tb fb rc)) none)).map
              (fun r => if r.step_id ∈ scope then [] else [scope_error id r.step_id])).flatten
            ++ ((validate_block_bindings tb scope).1
                ++ (validate_block_bindings fb scope).1)
            ++ (validate_block_bindings.go rest scope).1)
    ∧ scope_error "P" "X" ∈ validate_ir c4_sibling_ir := by
  refine ⟨⟨rfl, rfl, by decide, by decide⟩,
    fun b scope => bindings_nil_iff b scope,
    fun steps scope => validate_block_bindings_go_scope steps scope,
    fun steps scope x => scope_after_mem steps scope x,
    ?_, ?_, by decide⟩
  · intro pre s post scope ref href hmem
    rw [validate_block_bindings_go_append pre (s :: post) scope]
    exact List.mem_append_right _ (scope_error_emitted s post _ ref href hmem)
  · intro id src lb conds cw tb fb rc rest scope
    rfl

/-- Witness for C4: the out-of-scope-reference theorem applied at the
counterexample position, and the amended acceptance applied at a
correctly scoped block. -/
theorem C4_scope_monotonicity_witness :
    scope_error "P" "L"
      ∈ (validate_block_bindings.go
          ([log_step "L"] ++ parse_ref_step "P" "L" :: [return_step "r"]) []).1
    ∧ (validate_block_bindings c4_ok_block []).1 = [] := by
  constructor
  · exact C4_scope_monotonicity.2.2.2.2.1 [log_step "L"] (parse_ref_step "P" "L")
      [return_step "r"] [] ⟨"L", "body"⟩ (by decide) (by decide)
  · exact (C4_scope_monotonicity.2.1 c4_ok_block []).mpr (by decide)

/-- A secret collected from a member step is collected from the list. -/
theorem goSteps_secret_mem (n : String) :
    ∀ (l : List Step) (s : Step), s ∈ l →
      n ∈ collect_secret_refs_from_step s →
      n ∈ collect_secret_refs_from_step.goSteps l := by
  intro l
  induction l with
  | nil => intro s hs _; exact absurd hs (List.not_mem_nil s)
  | cons t rest ih =>
    intro s hs hn
    rcases List.mem_cons.mp hs with rfl | hs
    · exact List.mem_append_left _ hn
    · exact List.mem_append_right _ (ih s hs hn)

/-- A secret collected from a step nested in an arm of a `Branch` step is
collected from the `Branch` step itself (attributed to it). -/
theorem collect_secret_refs_nested (s : Step) (b : Block) (hs : StepInBlock s b)
    (n : String) (hn : n ∈ collect_secret_refs_from_step s) :
    ∀ steps : List Step, b = .mk steps →
      n ∈ collect_secret_refs_from_step.goSteps steps := by
  induction hs with
  | top hmem =>
    intro steps he
    cases he
    exact goSteps_secret_mem n _ s hmem hn
  | inTrue ht hop _ ih =>
    intro steps he
    cases he
    rename_i t _ bo _
    obtain ⟨id, src, lb, op, out⟩ := t
    simp only [Step.operation] at hop
    subst hop
    obtain ⟨conds, cw, tb, fb, rc⟩ := bo
    obtain ⟨ts⟩ := tb
    obtain ⟨fs⟩ := fb
    refine goSteps_secret_mem n _ _ ht ?_
    exact List.mem_append_left _ (ih ts rfl)
  | inFalse ht hop _ ih =>
    intro steps he
    cases he
    rename_i t _ bo _
    obtain ⟨id, src, lb, op, out⟩ := t
    simp only [Step.operation] at hop
    subst hop
    obtain ⟨conds, cw, tb, fb, rc⟩ := bo
    obtain ⟨ts⟩ := tb
    obtain ⟨fs⟩ := fb
    refine goSteps_secret_mem n _ _ ht ?_
    exact List.mem_append_right _ (ih fs rfl)

/-- An undeclared secret collected from a member step is reported against
that step by the block secret validator. -/
theorem secret_error_direct (declared : List String) (n : String)
    (hnd : n ∉ declared) :
    ∀ (l : List Step) (s : Step), s ∈ l →
      n ∈ collect_secret_refs_from_step s →
      secret_error n (Step.id s) ∈ validate_block_secret_refs.go l declared := by
  intro l
  induction l with
  | nil => intro s hs _; exact absurd hs (List.not_mem_nil s)
  | cons t rest ih =>
    intro s hs hn
    rcases List.mem_cons.mp hs with rfl | hs2
    · obtain ⟨id, src, lb, op, out⟩ := s
      cases op
      case Branch bo =>
        obtain ⟨conds, cw, tb, fb, rc⟩ := bo
        dsimp only [validate_block_secret_refs.go, Step.id]
        refine List.mem_append_left _ (List.mem_append_left _ ?_)
        simp only [List.mem_flatten, List.mem_map]
        exact ⟨[secret_error n id], ⟨n, hn, if_neg hnd⟩, List.mem_singleton.mpr rfl⟩
      all_goals
        dsimp only [validate_block_secret_refs.go, Step.id]
        refine List.mem_append_left _ (List.mem_append_left _ ?_)
        simp only [List.mem_flatten, List.mem_map]
        exact ⟨[secret_error n id], ⟨n, hn, if_neg hnd⟩, List.mem_singleton.mpr rfl⟩
    · obtain ⟨id, src, lb, op, out⟩ := t
      cases op
      case Branch bo =>
        obtain ⟨conds, cw, tb, fb, rc⟩ := bo
        exact List.mem_append_right _ (ih s hs2 hn)
      all_goals
        exact List.mem_append_right _ (ih s hs2 hn)

/-- An error of an arm of a member `Branch` step is reported by the block
secret validator of the enclosing list. -/
theorem secret_error_arm (declared : List String) (e : ValidationError) :
    ∀ (l : List Step) (t : Step), t ∈ l →
      ∀ bo : BranchOp, Step.operation t = .Branch bo →
      (e ∈ validate_block_secret_refs bo.true_branch declared
        ∨ e ∈ validate_block_secret_refs bo.false_branch declared) →
      e ∈ validate_block_secret_refs.go l declared := by
  intro l
  induction l with
  | nil => intro t ht _ _ _; exact absurd ht (List.not_mem_nil t)
  | cons u rest ih =>
    intro t ht bo hop he
    rcases List.mem_cons.mp ht with rfl | ht2
    · obtain ⟨id, src, lb, op, out⟩ := t
      simp only [Step.operation] at hop
      subst hop
      obtain ⟨conds, cw, tb, fb, rc⟩ := bo
      dsimp only [validate_block_secret_refs.go]
      refine List.mem_append_left _ (List.mem_append_right _ ?_)
      rcases he with he | he
      · exact List.mem_append_left _ he
      · exact List.mem_append_right _ he
    · obtain ⟨id, src, lb, op, out⟩ := u
      cases op
      case Branch bo2 =>
        obtain ⟨conds, cw, tb, fb, rc⟩ := bo2
        exact List.mem_append_right _ (ih t ht2 bo hop he)
      all_goals
        exact List.mem_append_right _ (ih t ht2 bo hop he)

/-- An undeclared secret of a step nested anywhere in a block is reported
against that step. -/
theorem secret_error_of_nested (b : Block) (t : Step) (ht : StepInBlock t b)
    (n : String) (hn : n ∈ collect_secret_refs_from_step t)
    (declared : List String) (hnd : n ∉ declared) :
    secret_error n (Step.id t) ∈ validate_block_secret_refs b declared := by
  induction ht with
  | top hmem => exact secret_error_direct declared n hnd _ t hmem hn
  | inTrue hu hop _ ih => exact secret_error_arm declared _ _ _ hu _ hop (Or.inl ih)
  | inFalse hu hop _ ih => exact secret_error_arm declared _ _ _ hu _ hop (Or.inr ih)

/-- Occurrence in an arm of an occurring `Branch` step is occurrence in
the block. -/
theorem StepInBlock.through_arm (b : Block) (t : Step) (ht : StepInBlock t b)
    (bo : BranchOp) (hop : Step.operation t = .Branch bo) (s : Step)
    (hs : StepInBlock s bo.true_branch ∨ StepInBlock s bo.false_branch) :
    StepInBlock s b := by
  induction ht with
  | top hmem =>
    rcases hs with hs | hs
    · exact .inTrue hmem hop hs
    · exact .inFalse hmem hop hs
  | inTrue hu huop _ ih => exact .inTrue hu huop ih
  | inFalse hu huop _ ih => exact .inFalse hu huop ih

/-- C9: an undeclared secret referenced by a step nested inside a `Branch`
arm is reported (at least) twice by `validate_ir`: once attributed to the
enclosing `Branch` step — whose secret collection recurses into both arms
and charges every nested secret to the branch step's own id — and once
attributed to the inner step itself, via the validator's separate
recursion into the arm blocks.  One underlying problem thus yields two
violation entries with different attributions. -/
theorem C9_duplicate_secret_attribution :
    ∀ (ir : WorkflowIR) (t s : Step) (bo : BranchOp) (n : String),
      StepInBlock t ir.handler_body →
      Step.operation t = .Branch bo →
      (StepInBlock s bo.true_branch ∨ StepInBlock s bo.false_branch) →
      n ∈ collect_secret_refs_from_step s →
      n ∉ ir.required_secrets.map SecretDeclaration.name →
      secret_error n (Step.id t) ∈ validate_ir ir
        ∧ secret_error n (Step.id s) ∈ validate_ir ir := by
  intro ir t s bo n ht hop hs hn hnd
  have hmem : ∀ e ∈ validate_secret_refs ir, e ∈ validate_ir ir := by
    intro e he
    simp only [validate_ir, List.mem_append]
    left; left; left; right
    exact he
  constructor
  · refine hmem _ ?_
    have hct : n ∈ collect_secret_refs_from_step t := by
      obtain ⟨id, src, lb, op, out⟩ := t
      simp only [Step.operation] at hop
      subst hop
      obtain ⟨conds, cw, tb, fb, rc⟩ := bo
      obtain ⟨ts⟩ := tb
      obtain ⟨fs⟩ := fb
      rcases hs with hs | hs
      · exact List.mem_append_left _ (collect_secret_refs_nested s _ hs n hn ts rfl)
      · exact List.mem_append_right _ (collect_secret_refs_nested s _ hs n hn fs rfl)
    exact secret_error_of_nested _ t ht n hct _ hnd
  · refine hmem _ ?_
    exact secret_error_of_nested _ s
      (StepInBlock.through_arm _ t ht bo hop s hs) n hn _ hnd

/-- Witness for C9: the undeclared nested secret is reported both against
the branch step "br" and against the inner step "S". -/
theorem C9_duplicate_secret_attribution_witness :
    secret_error "mysecret" "br" ∈ validate_ir c9_ir
    ∧ secret_error "mysecret" "S" ∈ validate_ir c9_ir :=
  C9_duplicate_secret_attribution c9_ir c9_branch_step
    (secret_step "S" "mysecret") c9_bo "mysecret"
    (.top (List.mem_cons_self _ _)) rfl
    (Or.inl (.top (List.mem_cons_self _ _))) (by decide) (by decide)

-- ===========================================================================
-- C1: reconvergence detection
-- ===========================================================================

theorem find?_first_characterization (p : String → Bool) :
    ∀ (l : List String) (m : String), l.find? p = some m →
      m ∈ l ∧ p m = true ∧ ∀ x ∈ l, p x = true → l.indexOf m ≤ l.indexOf x := by
  intro l
  induction l with
  | nil => intro m h; simp [List.find?] at h
  | cons a t ih =>
    intro m h
    by_cases hpa : p a = true
    · rw [List.find?_cons_of_pos _ hpa] at h
      injection h with h
      subst h
      refine ⟨List.mem_cons_self _ _, hpa, ?_⟩
      intro x hx hpx
      simp [List.indexOf_cons_self]
    · rw [List.find?_cons_of_neg _ (by simpa using hpa)] at h
      obtain ⟨hm, hpm, hmin⟩ := ih m h
      have hma : m ≠ a := fun he => hpa (he ▸ hpm)
      refine ⟨List.mem_cons_of_mem _ hm, hpm, ?_⟩
      intro x hx hpx
      have hxa : x ≠ a := fun he => hpa (he ▸ hpx)
      rcases List.mem_cons.mp hx with rfl | hx
      · exact absurd rfl hxa
      · rw [List.indexOf_cons_ne _ hma.symm, List.indexOf_cons_ne _ hxa.symm]
        exact Nat.succ_le_succ (hmin x hx hpx)

/-- C1: with both branch targets present, `find_reconvergence` returns —
whenever some listed node is forward-reachable from both targets — the
node of the topological order that is reachable from both arms and
earliest in that order, and that node is the unique such minimum; when no
listed node is reachable from both (in particular when the two reachable
sets are disjoint), it returns no merge point. -/
theorem C1_find_reconvergence_correctness :
    ∀ (if_id tt ft : String) (ids : List String) (g : WorkflowGraph),
      tt ≠ "" → ft ≠ "" →
      ((∃ x ∈ ids, x ∈ collect_reachable tt g ∧ x ∈ collect_reachable ft g) →
        ∃ m, find_reconvergence if_id tt ft ids g = some m
          ∧ m ∈ ids ∧ m ∈ collect_reachable tt g ∧ m ∈ collect_reachable ft g
          ∧ (∀ x ∈ ids, x ∈ collect_reachable tt g → x ∈ collect_reachable ft g →
              ids.indexOf m ≤ ids.indexOf x)
          ∧ (∀ m', m' ∈ ids → m' ∈ collect_reachable tt g →
              m' ∈ collect_reachable ft g →
              (∀ x ∈ ids, x ∈ collect_reachable tt g →
                x ∈ collect_reachable ft g → ids.indexOf m' ≤ ids.indexOf x) →
              m' = m))
      ∧ ((∀ x ∈ ids, ¬(x ∈ collect_reachable tt g ∧ x ∈ collect_reachable ft g)) →
          find_reconvergence if_id tt ft ids g = none)
      ∧ ((∀ x, x ∈ collect_reachable tt g → x ∉ collect_reachable ft g) →
          find_reconvergence if_id tt ft ids g = none) := by
  intro if_id tt ft ids g htt hft
  have hguard : find_reconvergence if_id tt ft ids g
      = ids.find? (fun node_id =>
          (collect_reachable tt g).contains node_id
            && (collect_reachable ft g).contains node_id) := by
    unfold find_reconvergence
    rw [if_neg (not_or.mpr ⟨htt, hft⟩)]
  have hp : ∀ x, ((collect_reachable tt g).contains x
        && (collect_reachable ft g).contains x) = true
      ↔ x ∈ collect_reachable tt g ∧ x ∈ collect_reachable ft g := by
    intro x
    simp [List.contains, Bool.and_eq_true, List.elem_iff]
  refine ⟨?_, ?_, ?_⟩
  · rintro ⟨x, hx, hxt, hxf⟩
    have hsome : (ids.find? (fun node_id =>
        (collect_reachable tt g).contains node_id
          && (collect_reachable ft g).contains node_id)).isSome := by
      rw [List.find?_isSome]
      exact ⟨x, hx, (hp x).mpr ⟨hxt, hxf⟩⟩
    obtain ⟨m, hm⟩ := Option.isSome_iff_exists.mp hsome
    obtain ⟨hmem, hpm, hmin⟩ := find?_first_characterization _ ids m hm
    refine ⟨m, hguard.trans hm, hmem, ((hp m).mp hpm).1, ((hp m).mp hpm).2,
      fun y hy hyt hyf => hmin y hy ((hp y).mpr ⟨hyt, hyf⟩), ?_⟩
    intro m' hm' hmt' hmf' hmin'
    have h1 := hmin' m hmem ((hp m).mp hpm).1 ((hp m).mp hpm).2
    have h2 := hmin m' hm' ((hp m').mpr ⟨hmt', hmf'⟩)
    exact (List.indexOf_inj hm' hmem).mp (Nat.le_antisymm h1 h2)
  · intro hnone
    rw [hguard, List.find?_eq_none]
    intro x hx
    simp only [Bool.not_eq_true]
    rw [Bool.eq_false_iff]
    intro hpx
    exact hnone x hx ((hp x).mp hpx)
  · intro hdisj
    rw [hguard, List.find?_eq_none]
    intro x hx
    simp only [Bool.not_eq_true]
    rw [Bool.eq_false_iff]
    intro hpx
    exact hdisj x ((hp x).mp hpx).1 ((hp x).mp hpx).2

/-- Witness for C1: on the diamond the merge point "m" is found together
with its minimality certificate, and on the disjoint-arms graph no merge
point is reported. -/
theorem C1_find_reconvergence_correctness_witness :
    (∃ m, find_reconvergence "if1" "a" "b" ["trig", "if1", "a", "b", "m", "r"]
          diamond_graph = some m
        ∧ m ∈ ["trig", "if1", "a", "b", "m", "r"]
        ∧ m ∈ collect_reachable "a" diamond_graph
        ∧ m ∈ collect_reachable "b" diamond_graph
        ∧ (∀ x ∈ ["trig", "if1", "a", "b", "m", "r"],
            x ∈ collect_reachable "a" diamond_graph →
            x ∈ collect_reachable "b" diamond_graph →
            List.indexOf m ["trig", "if1", "a", "b", "m", "r"]
              ≤ List.indexOf x ["trig", "if1", "a", "b", "m", "r"])
        ∧ (∀ m', m' ∈ ["trig", "if1", "a", "b", "m", "r"] →
            m' ∈ collect_reachable "a" diamond_graph →
            m' ∈ collect_reachable "b" diamond_graph →
            (∀ x ∈ ["trig", "if1", "a", "b", "m", "r"],
              x ∈ collect_reachable "a" diamond_graph →
              x ∈ collect_reachable "b" diamond_graph →
              List.indexOf m' ["trig", "if1", "a", "b", "m", "r"]
                ≤ List.indexOf x ["trig", "if1", "a", "b", "m", "r"]) → m' = m))
    ∧ find_reconvergence "if1" "a" "b" ["trig", "if1", "a", "b", "r1", "r2"]
        c1_disjoint_graph = none := by
  constructor
  · exact (C1_find_reconvergence_correctness "if1" "a" "b"
      ["trig", "if1", "a", "b", "m", "r"] diamond_graph (by decide) (by decide)).1
      ⟨"m", by decide, by decide, by decide⟩
  · exact (C1_find_reconvergence_correctness "if1" "a" "b"
      ["trig", "if1", "a", "b", "r1", "r2"] c1_disjoint_graph (by decide)
      (by decide)).2.2 (by decide)

theorem pred_in_spec (g : WorkflowGraph) (remaining : List String) (n p : String)
    (h : pred_in g remaining n = some p) :
    EdgeStep g p n ∧ p ∈ remaining := by
  unfold pred_in at h
  rcases he : g.edges.find? (fun e => e.target == n && remaining.contains e.source)
    with _ | e
  · rw [he] at h; exact Option.noConfusion h
  · rw [he] at h
    injection h with h
    have hmem := List.mem_of_find?_eq_some he
    have hp := List.find?_some he
    simp only [Bool.and_eq_true, beq_iff_eq] at hp
    subst h
    refine ⟨⟨e, hmem, rfl, hp.1⟩, ?_⟩
    have := hp.2
    simpa [List.contains, List.elem_iff] using this

theorem pred_in_isSome (g : WorkflowGraph) (remaining : List String) (n : String)
    (h : ∃ e ∈ g.edges, e.target = n ∧ e.source ∈ remaining) :
    (pred_in g remaining n).isSome := by
  obtain ⟨e, he, ht, hs⟩ := h
  have hfs : (g.edges.find? (fun e =>
      e.target == n && remaining.contains e.source)).isSome := by
    rw [List.find?_isSome]
    refine ⟨e, he, ?_⟩
    simp [ht, List.contains, List.elem_iff, hs]
  obtain ⟨e', he'⟩ := Option.isSome_iff_exists.mp hfs
  unfold pred_in
  rw [he']
  rfl

theorem pred_walk_spec (g : WorkflowGraph) (remaining : List String)
    (H : ∀ n ∈ remaining, ∃ e ∈ g.edges, e.target = n ∧ e.source ∈ remaining) :
    ∀ (k : Nat) (n : String), n ∈ remaining →
      (pred_walk g remaining k n).length = k + 1
      ∧ (∀ x ∈ pred_walk g remaining k n, x ∈ remaining)
      ∧ (pred_walk g remaining k n).Chain' (fun a b => EdgeStep g b a)
      ∧ (pred_walk g remaining k n).head? = some n := by
  intro k
  induction k with
  | zero =>
    intro n hn
    refine ⟨rfl, ?_, List.chain'_singleton n, rfl⟩
    intro x hx
    rw [List.mem_singleton.mp hx]
    exact hn
  | succ k ih =>
    intro n hn
    have hsome := pred_in_isSome g remaining n (H n hn)
    obtain ⟨p, hp⟩ := Option.isSome_iff_exists.mp hsome
    obtain ⟨hedge, hpmem⟩ := pred_in_spec g remaining n p hp
    obtain ⟨hlen, hmem, hchain, hhead⟩ := ih p hpmem
    have hwalk : pred_walk g remaining (k + 1) n = n :: pred_walk g remaining k p := by
      show (match pred_in g remaining n with
        | some p => n :: pred_walk g remaining k p
        | none => [n]) = n :: pred_walk g remaining k p
      rw [hp]

    rw [hwalk]
    refine ⟨by simp [hlen], ?_, ?_, rfl⟩
    · intro x hx
      rcases List.mem_cons.mp hx with rfl | hx
      · exact hn
      · exact hmem x hx
    · rw [List.chain'_cons']
      refine ⟨?_, hchain⟩
      intro y hy
      rw [hhead] at hy
      cases hy
      exact hedge

theorem chain_to_transGen {R : String → String → Prop} :
    ∀ (l : List String) (a b : String), List.Chain R a (l ++ [b]) →
      Relation.TransGen R a b := by
  intro l
  induction l with
  | nil =>
    intro a b h
    rw [List.nil_append] at h
    rcases h with _ | ⟨hr, _⟩
    exact Relation.TransGen.single hr
  | cons x t ih =>
    intro a b h
    rw [List.cons_append] at h
    rcases h with _ | ⟨hr, hch⟩
    exact Relation.TransGen.head hr (ih x b hch)

theorem sublist_pair_decomp (x : String) :
    ∀ l : List String, List.Sublist [x, x] l →
      ∃ l1 l2 l3, l = l1 ++ x :: l2 ++ x :: l3 := by
  intro l
  induction l with
  | nil => intro h; exact absurd (List.Sublist.length_le h) (by simp)
  | cons y t ih =>
    intro h
    rcases h with _ | ⟨_, h⟩ | ⟨_, h⟩
    · obtain ⟨l1, l2, l3, rfl⟩ := ih (by assumption)
      exact ⟨y :: l1, l2, l3, rfl⟩
    · have hx : x ∈ t := (List.singleton_sublist).mp (by assumption)
      obtain ⟨l2, l3, rfl⟩ := List.append_of_mem hx
      exact ⟨[], l2, l3, rfl⟩

theorem cycle_of_all_have_preds (g : WorkflowGraph) (remaining : List String)
    (hne : remaining ≠ [])
    (H : ∀ n ∈ remaining, ∃ e ∈ g.edges, e.target = n ∧ e.source ∈ remaining) :
    Relation.TransGen (EdgeStep g) (find_cycle_node g remaining)
      (find_cycle_node g remaining) := by
  obtain ⟨h0, rem', rfl⟩ := List.exists_cons_of_ne_nil hne
  have hh : (h0 :: rem').headD "" = h0 := rfl
  obtain ⟨hlen, hmemb, hchain, hhead⟩ :=
    pred_walk_spec g (h0 :: rem') H (h0 :: rem').length h0 (List.mem_cons_self _ _)
  set trail := pred_walk g (h0 :: rem') (h0 :: rem').length h0 with htr
  set tr := trail.reverse with htrr
  have htrchain : tr.Chain' (EdgeStep g) := by
    rw [htrr, List.chain'_reverse]
    exact hchain
  have htrmem : ∀ x ∈ tr, x ∈ h0 :: rem' := by
    intro x hx
    exact hmemb x (List.mem_reverse.mp hx)
  have htrlen : tr.length = (h0 :: rem').length + 1 := by
    rw [htrr, List.length_reverse, hlen]
  have hnotnodup : ¬ tr.Nodup := by
    intro hnd
    have h1 : tr.length = tr.toFinset.card := (List.toFinset_card_of_nodup hnd).symm
    have h2 : tr.toFinset ⊆ (h0 :: rem').toFinset := by
      intro x hx
      rw [List.mem_toFinset] at hx ⊢
      exact htrmem x hx
    have h3 := Finset.card_le_card h2
    have h4 := List.toFinset_card_le (h0 :: rem')
    omega
  obtain ⟨x, hdup⟩ := List.exists_duplicate_iff_not_nodup.mpr hnotnodup
  have hcount : ∃ y ∈ tr, (2 ≤ tr.count y) := by
    refine ⟨x, hdup.mem, ?_⟩
    exact List.duplicate_iff_two_le_count.mp hdup
  have hfind : (tr.find? (fun n => 2 ≤ tr.count n)).isSome := by
    rw [List.find?_isSome]
    obtain ⟨y, hy, hc⟩ := hcount
    exact ⟨y, hy, by simpa using hc⟩
  obtain ⟨c, hc⟩ := Option.isSome_iff_exists.mp hfind
  have hcmem := List.mem_of_find?_eq_some hc
  have hcp := List.find?_some hc
  have hccount : 2 ≤ tr.count c := by simpa using hcp
  have hcdup : List.Duplicate c tr := List.duplicate_iff_two_le_count.mpr hccount
  have hcsub : List.Sublist [c, c] tr := List.duplicate_iff_sublist.mp hcdup
  obtain ⟨l1, l2, l3, hdec⟩ := sublist_pair_decomp c tr hcsub
  have hseg : List.Chain' (EdgeStep g) (c :: l2 ++ [c]) := by
    refine List.Chain'.infix htrchain ?_
    refine ⟨l1, l3, ?_⟩
    rw [hdec]
    simp
  have hcyc : Relation.TransGen (EdgeStep g) c c := by
    rw [List.cons_append] at hseg
    rw [List.chain'_cons'] at hseg
    rcases l2 with _ | ⟨z, l2'⟩
    · simp only [List.nil_append] at hseg
      obtain ⟨hh1, _⟩ := hseg
      exact Relation.TransGen.single (hh1 c rfl)
    · obtain ⟨hh1, hseg⟩ := hseg
      refine Relation.TransGen.head (hh1 z rfl) ?_
      exact chain_to_transGen l2' z c hseg
  have hgoal : find_cycle_node g (h0 :: rem') = c := by
    unfold find_cycle_node
    dsimp only
    rw [hh, ← htr, ← htrr, hc]
    rfl
  rw [hgoal]
  exact hcyc

theorem has_incoming_from_false (g : WorkflowGraph) (remaining : List String)
    (n : String) (h : has_incoming_from g remaining n = false) :
    ∀ e ∈ g.edges, e.target = n → e.source ∉ remaining := by
  intro e he ht hs
  unfold has_incoming_from at h
  rw [List.any_eq_false] at h
  exact h e he (by simp [ht, List.contains, List.elem_iff, hs])

theorem has_incoming_from_true (g : WorkflowGraph) (remaining : List String)
    (n : String) (h : has_incoming_from g remaining n = true) :
    ∃ e ∈ g.edges, e.target = n ∧ e.source ∈ remaining := by
  unfold has_incoming_from at h
  rw [List.any_eq_true] at h
  obtain ⟨e, he, hp⟩ := h
  simp only [Bool.and_eq_true, beq_iff_eq] at hp
  refine ⟨e, he, hp.1, ?_⟩
  have := hp.2
  simpa [List.contains, List.elem_iff] using this

theorem kahn_go_ok (g : WorkflowGraph)
    (Hacyc : ∀ n, ¬ Relation.TransGen (EdgeStep g) n n) :
    ∀ (fuel : Nat) (remaining acc : List String),
      remaining.Nodup →
      remaining.length < fuel →
      (∀ e ∈ g.edges, e.target ∈ acc → e.source ∉ remaining) →
      acc.Pairwise (fun a b => ¬ EdgeStep g a b) →
      ∃ l2 : List String, kahn_go g fuel remaining acc = .ok (acc.reverse ++ l2)
        ∧ (acc.reverse ++ l2).Perm (acc.reverse ++ remaining)
        ∧ (acc.reverse ++ l2).Pairwise (fun a b => ¬ EdgeStep g b a) := by
  intro fuel
  induction fuel with
  | zero => intro remaining acc _ hlt _ _; omega
  | succ fuel ih =>
    intro remaining acc hnd hlt hnb hpw
    cases remaining with
    | nil =>
      refine ⟨[], ?_, by simp, ?_⟩
      · show Except.ok acc.reverse = Except.ok (acc.reverse ++ [])
        rw [List.append_nil]
      · rw [List.append_nil, List.pairwise_reverse]
        exact hpw
    | cons r rest =>
      rcases hfind : (r :: rest).find?
          (fun n => !has_incoming_from g (r :: rest) n) with _ | n
      · exfalso
        rw [List.find?_eq_none] at hfind
        have hall : ∀ n ∈ r :: rest, ∃ e ∈ g.edges,
            e.target = n ∧ e.source ∈ r :: rest := by
          intro n hn
          have := hfind n hn
          simp only [Bool.not_eq_true', Bool.not_eq_false] at this
          exact has_incoming_from_true g _ n this
        exact Hacyc _ (cycle_of_all_have_preds g (r :: rest) (by simp) hall)
      · have hnmem := List.mem_of_find?_eq_some hfind
        have hnp := List.find?_some hfind
        have hpick : has_incoming_from g (r :: rest) n = false := by
          simpa using hnp
        have hstep : kahn_go g (fuel + 1) (r :: rest) acc
            = kahn_go g fuel ((r :: rest).erase n) (n :: acc) := by
          show (match (r :: rest).find?
              (fun n => !has_incoming_from g (r :: rest) n) with
            | some n => kahn_go g fuel ((r :: rest).erase n) (n :: acc)
            | none => .error (find_cycle_node g (r :: rest))) = _
          rw [hfind]
        have herase_sub : ∀ x ∈ (r :: rest).erase n, x ∈ r :: rest :=
          fun x hx => List.mem_of_mem_erase hx
        have hlen : ((r :: rest).erase n).length = (r :: rest).length - 1 :=
          List.length_erase_of_mem hnmem
        obtain ⟨l2, hres, hperm, hpw2⟩ := ih ((r :: rest).erase n) (n :: acc)
          (hnd.erase n)
          (by rw [hlen]; simp only [List.length_cons] at hlt ⊢; omega)
          (by
            intro e he htacc hsrc
            rcases List.mem_cons.mp htacc with rfl | htacc
            · exact has_incoming_from_false g _ _ hpick e he rfl
                (herase_sub _ hsrc)
            · exact hnb e he htacc (herase_sub _ hsrc))
          (by
            rw [List.pairwise_cons]
            refine ⟨?_, hpw⟩
            intro b hb ⟨e, he, hsrc, htgt⟩
            exact hnb e he (htgt ▸ hb) (hsrc ▸ hnmem))
        rw [hstep]
        refine ⟨n :: l2, ?_, ?_, ?_⟩
        · rw [hres]
          congr 1
          simp
        · have h1 : (n :: acc).reverse ++ l2 = acc.reverse ++ n :: l2 := by simp
          rw [← h1]
          refine hperm.trans ?_
          have h2 : (n :: acc).reverse ++ (r :: rest).erase n
              = acc.reverse ++ (n :: (r :: rest).erase n) := by simp
          rw [h2]
          exact List.Perm.append_left acc.reverse
            (List.perm_cons_erase hnmem).symm
        · have h1 : (n :: acc).reverse ++ l2 = acc.reverse ++ n :: l2 := by simp
          rw [← h1]
          exact hpw2

theorem kahn_go_cycle (g : WorkflowGraph) (c : String)
    (Hc : Relation.TransGen (EdgeStep g) c c) :
    ∀ (fuel : Nat) (remaining acc : List String),
      remaining.Nodup →
      remaining.length ≤ fuel →
      (∀ x, Relation.TransGen (EdgeStep g) c x →
        Relation.TransGen (EdgeStep g) x c → x ∈ remaining) →
      ∃ node, kahn_go g fuel remaining acc = .error node
        ∧ Relation.TransGen (EdgeStep g) node node := by
  intro fuel
  induction fuel with
  | zero =>
    intro remaining acc _ hle hinv
    have hc := hinv c Hc Hc
    cases remaining with
    | nil => exact absurd hc (List.not_mem_nil c)
    | cons r rest => simp at hle
  | succ fuel ih =>
    intro remaining acc hnd hle hinv
    cases remaining with
    | nil => exact absurd (hinv c Hc Hc) (List.not_mem_nil c)
    | cons r rest =>
      rcases hfind : (r :: rest).find?
          (fun n => !has_incoming_from g (r :: rest) n) with _ | n
      · have hfind2 := hfind
        rw [List.find?_eq_none] at hfind2
        have hall : ∀ n ∈ r :: rest, ∃ e ∈ g.edges,
            e.target = n ∧ e.source ∈ r :: rest := by
          intro n hn
          have := hfind2 n hn
          simp only [Bool.not_eq_true', Bool.not_eq_false] at this
          exact has_incoming_from_true g _ n this
        refine ⟨find_cycle_node g (r :: rest), ?_,
          cycle_of_all_have_preds g (r :: rest) (by simp) hall⟩
        show (match (r :: rest).find?
            (fun n => !has_incoming_from g (r :: rest) n) with
          | some n => kahn_go g fuel ((r :: rest).erase n) (n :: acc)
          | none => .error (find_cycle_node g (r :: rest))) = _
        rw [hfind]
      · have hnmem := List.mem_of_find?_eq_some hfind
        have hnp := List.find?_some hfind
        have hpick : has_incoming_from g (r :: rest) n = false := by
          simpa using hnp
        have hn_not_cyc : ¬(Relation.TransGen (EdgeStep g) c n
            ∧ Relation.TransGen (EdgeStep g) n c) := by
          rintro ⟨hcn, hnc⟩
          obtain ⟨y, hcy, hyx⟩ := (Relation.TransGen.tail'_iff).mp hcn
          have hy_cyc : Relation.TransGen (EdgeStep g) c y
              ∧ Relation.TransGen (EdgeStep g) y c := by
            rcases (Relation.reflTransGen_iff_eq_or_transGen.mp hcy) with rfl | hcy'
            · exact ⟨Hc, Hc⟩
            · exact ⟨hcy', Relation.TransGen.head hyx hnc⟩
          have hy_rem : y ∈ r :: rest := hinv y hy_cyc.1 hy_cyc.2
          obtain ⟨e, he, hsrc, htgt⟩ := hyx
          exact has_incoming_from_false g _ _ hpick e he htgt (hsrc ▸ hy_rem)
        have hstep : kahn_go g (fuel + 1) (r :: rest) acc
            = kahn_go g fuel ((r :: rest).erase n) (n :: acc) := by
          show (match (r :: rest).find?
              (fun n => !has_incoming_from g (r :: rest) n) with
            | some n => kahn_go g fuel ((r :: rest).erase n) (n :: acc)
            | none => .error (find_cycle_node g (r :: rest))) = _
          rw [hfind]
        rw [hstep]
        refine ih ((r :: rest).erase n) (n :: acc) (hnd.erase n) ?_ ?_
        · rw [List.length_erase_of_mem hnmem]
          simp only [List.length_cons] at hle ⊢
          omega
        · intro x hcx hxc
          have hx_rem := hinv x hcx hxc
          have hxn : x ≠ n := by
            rintro rfl
            exact hn_not_cyc ⟨hcx, hxc⟩
          exact (List.mem_erase_of_ne hxn).mpr hx_rem

theorem transGen_target_mem (g : WorkflowGraph)
    (Hwf : ∀ e ∈ g.edges, e.source ∈ g.nodes ∧ e.target ∈ g.nodes)
    (a b : String) (h : Relation.TransGen (EdgeStep g) a b) : b ∈ g.nodes := by
  obtain ⟨y, _, hyx⟩ := (Relation.TransGen.tail'_iff).mp h
  obtain ⟨e, he, _, htgt⟩ := hyx
  exact htgt ▸ (Hwf e he).2

theorem pairwise_no_back_indexOf (g : WorkflowGraph) (l : List String)
    (hnd : l.Nodup) (hpw : l.Pairwise (fun a b => ¬ EdgeStep g b a))
    (Hacyc : ∀ n, ¬ Relation.TransGen (EdgeStep g) n n)
    (e : GraphEdge) (he : e ∈ g.edges) (hs : e.source ∈ l) (ht : e.target ∈ l) :
    l.indexOf e.source < l.indexOf e.target := by
  have hilt := List.indexOf_lt_length.mpr hs
  have hjlt := List.indexOf_lt_length.mpr ht
  have hgs : l.get ⟨l.indexOf e.source, hilt⟩ = e.source := List.indexOf_get hilt
  have hgt : l.get ⟨l.indexOf e.target, hjlt⟩ = e.target := List.indexOf_get hjlt
  rcases Nat.lt_trichotomy (l.indexOf e.source) (l.indexOf e.target) with h | h | h
  · exact h
  · exfalso
    have : e.source = e.target := by
      rw [← hgs, ← hgt]
      congr 1
      exact Fin.ext h
    exact Hacyc e.source (Relation.TransGen.single ⟨e, he, rfl, this.symm⟩)
  · exfalso
    have := (List.pairwise_iff_get.mp hpw)
      ⟨l.indexOf e.target, hjlt⟩ ⟨l.indexOf e.source, hilt⟩ h
    rw [hgs, hgt] at this
    exact this ⟨e, he, rfl, rfl⟩

theorem kahn_go_cons_step (g : WorkflowGraph) (fuel : Nat) (r : String)
    (rest acc : List String) (n : String)
    (hfind : (r :: rest).find? (fun n => !has_incoming_from g (r :: rest) n)
      = some n) :
    kahn_go g (fuel + 1) (r :: rest) acc
      = kahn_go g fuel ((r :: rest).erase n) (n :: acc) := by
  show (match (r :: rest).find?
      (fun n => !has_incoming_from g (r :: rest) n) with
    | some n => kahn_go g fuel ((r :: rest).erase n) (n :: acc)
    | none => .error (find_cycle_node g (r :: rest))) = _
  rw [hfind]

theorem topo_sort_ok (g : WorkflowGraph) (t : String)
    (Hwf : ∀ e ∈ g.edges, e.source ∈ g.nodes ∧ e.target ∈ g.nodes)
    (Hnd : g.nodes.Nodup)
    (Hacyc : ∀ n, ¬ Relation.TransGen (EdgeStep g) n n)
    (Htm : t ∈ g.nodes)
    (Hti : ∀ n ∈ g.nodes, n ≠ t → ∃ e ∈ g.edges, e.target = n)
    (Htn : ∀ e ∈ g.edges, e.target ≠ t) :
    ∃ l, topo_sort g = .ok l
      ∧ l.Perm g.nodes
      ∧ l.head? = some t
      ∧ ∀ e ∈ g.edges, l.indexOf e.source < l.indexOf e.target := by
  have hfind : g.nodes.find? (fun n => !has_incoming_from g g.nodes n) = some t := by
    have hpt : (!has_incoming_from g g.nodes t) = true := by
      simp only [Bool.not_eq_true']
      rw [Bool.eq_false_iff]
      intro htrue
      obtain ⟨e, he, htgt, _⟩ := has_incoming_from_true g _ t htrue
      exact Htn e he htgt
    have hsome : (g.nodes.find? (fun n => !has_incoming_from g g.nodes n)).isSome := by
      rw [List.find?_isSome]
      exact ⟨t, Htm, hpt⟩
    obtain ⟨m, hm⟩ := Option.isSome_iff_exists.mp hsome
    have hmp := List.find?_some hm
    have hmmem := List.mem_of_find?_eq_some hm
    have hmt : m = t := by
      by_contra hne
      obtain ⟨e, he, htgt⟩ := Hti m hmmem hne
      simp only [Bool.not_eq_true'] at hmp
      exact has_incoming_from_false g _ _ hmp e he htgt (Hwf e he).1
    rw [hm, hmt]
  obtain ⟨r, rest, hgn⟩ : ∃ r rest, g.nodes = r :: rest := by
    cases h : g.nodes with
    | nil => rw [h] at Htm; exact absurd Htm (List.not_mem_nil t)
    | cons r rest => exact ⟨r, rest, rfl⟩
  have htmem : t ∈ r :: rest := hgn ▸ Htm
  have hstep := kahn_go_cons_step g (r :: rest).length r rest [] t (hgn ▸ hfind)
  obtain ⟨l2, hres, hperm, hpw⟩ := kahn_go_ok g Hacyc (r :: rest).length
    ((r :: rest).erase t) [t]
    ((hgn ▸ Hnd).erase t)
    (by
      rw [List.length_erase_of_mem htmem]
      simp only [List.length_cons]
      omega)
    (by
      intro e he htacc _
      rcases List.mem_cons.mp htacc with h | h
      · exact absurd h.symm (Htn e he).symm
      · exact absurd h (List.not_mem_nil _))
    (List.pairwise_singleton _ t)
  have hl : topo_sort g = .ok (t :: l2) := by
    unfold topo_sort
    rw [hgn]
    simp only [List.length_cons] at hstep hres ⊢
    rw [hstep]
    rw [show ([t].reverse ++ l2) = t :: l2 from rfl] at hres
    rw [hres]
  have hperm2 : (t :: l2).Perm g.nodes := by
    rw [show (t :: l2) = [t].reverse ++ l2 from rfl]
    refine hperm.trans ?_
    rw [hgn]
    show (t :: (r :: rest).erase t).Perm (r :: rest)
    exact (List.perm_cons_erase htmem).symm
  have hnodup : (t :: l2).Nodup := hperm2.nodup_iff.mpr Hnd
  refine ⟨t :: l2, hl, hperm2, rfl, ?_⟩
  intro e he
  refine pairwise_no_back_indexOf g (t :: l2) hnodup ?_ Hacyc e he ?_ ?_
  · rw [show (t :: l2) = [t].reverse ++ l2 from rfl]
    exact hpw
  · exact hperm2.mem_iff.mpr ((Hwf e he).1)
  · exact hperm2.mem_iff.mpr ((Hwf e he).2)

theorem topo_sort_cycle (g : WorkflowGraph)
    (Hwf : ∀ e ∈ g.edges, e.source ∈ g.nodes ∧ e.target ∈ g.nodes)
    (Hnd : g.nodes.Nodup) (c : String)
    (Hc : Relation.TransGen (EdgeStep g) c c) :
    ∃ node, topo_sort g = .error [CompilerError.lower "L001"
        ("Cycle detected at node '" ++ node ++ "'") (some node)]
      ∧ Relation.TransGen (EdgeStep g) node node := by
  obtain ⟨node, hres, hcyc⟩ := kahn_go_cycle g c Hc (g.nodes.length + 1) g.nodes []
    Hnd (by omega) (fun x hcx _ => transGen_target_mem g Hwf c x hcx)
  refine ⟨node, ?_, hcyc⟩
  unfold topo_sort
  rw [hres]

/-- C7: for a well-formed acyclic graph whose trigger `t` is the only node
with no incoming edge, `topo_sort` succeeds with a total order that is a
permutation of the nodes, puts the trigger first, and points every edge
from an earlier to a later position; for a graph containing a cycle it
fails with the single L001 lowering error naming a node that lies on a
cycle. -/
theorem C7_topo_sort_soundness :
    (∀ (g : WorkflowGraph) (t : String),
      (∀ e ∈ g.edges, e.source ∈ g.nodes ∧ e.target ∈ g.nodes) →
      g.nodes.Nodup →
      (∀ n, ¬ Relation.TransGen (EdgeStep g) n n) →
      t ∈ g.nodes →
      (∀ n ∈ g.nodes, n ≠ t → ∃ e ∈ g.edges, e.target = n) →
      (∀ e ∈ g.edges, e.target ≠ t) →
      ∃ l, topo_sort g = .ok l
        ∧ l.Perm g.nodes
        ∧ l.head? = some t
        ∧ ∀ e ∈ g.edges, l.indexOf e.source < l.indexOf e.target)
    ∧ (∀ (g : WorkflowGraph) (c : String),
      (∀ e ∈ g.edges, e.source ∈ g.nodes ∧ e.target ∈ g.nodes) →
      g.nodes.Nodup →
      Relation.TransGen (EdgeStep g) c c →
      ∃ node, topo_sort g = .error [CompilerError.lower "L001"
          ("Cycle detected at node '" ++ node ++ "'") (some node)]
        ∧ Relation.TransGen (EdgeStep g) node node) :=
  ⟨fun g t hwf hnd hacyc htm hti htn => topo_sort_ok g t hwf hnd hacyc htm hti htn,
   fun g c hwf hnd hc => topo_sort_cycle g hwf hnd c hc⟩

theorem diamond_edge_rank : ∀ a b, EdgeStep diamond_graph a b →
    diamond_rank a < diamond_rank b := by
  rintro a b ⟨e, he, rfl, rfl⟩
  simp only [diamond_graph, List.mem_cons, List.not_mem_nil, or_false] at he
  rcases he with rfl | rfl | rfl | rfl | rfl | rfl <;> decide

theorem diamond_acyclic : ∀ n, ¬ Relation.TransGen (EdgeStep diamond_graph) n n := by
  have mono : ∀ a b, Relation.TransGen (EdgeStep diamond_graph) a b →
      diamond_rank a < diamond_rank b := by
    intro a b h
    induction h with
    | single hr => exact diamond_edge_rank _ _ hr
    | tail _ hr ih => exact lt_trans ih (diamond_edge_rank _ _ hr)
  intro n h
  exact lt_irrefl _ (mono n n h)

theorem c7_cycle_xx : Relation.TransGen (EdgeStep c7_cyclic_graph) "x" "x" := by
  have h1 : EdgeStep c7_cyclic_graph "x" "y" :=
    ⟨⟨"x", "y", ⟨none, none⟩⟩, by simp [c7_cyclic_graph], rfl, rfl⟩
  have h2 : EdgeStep c7_cyclic_graph "y" "x" :=
    ⟨⟨"y", "x", ⟨none, none⟩⟩, by simp [c7_cyclic_graph], rfl, rfl⟩
  exact Relation.TransGen.head h1 (Relation.TransGen.single h2)

/-- Witness for C7: the diamond graph sorts with "trig" first and all
edges forward; the two-node cyclic graph fails with an L001 error naming
a node on the cycle. -/
theorem C7_topo_sort_soundness_witness :
    (∃ l, topo_sort diamond_graph = .ok l
      ∧ l.Perm diamond_graph.nodes
      ∧ l.head? = some "trig"
      ∧ ∀ e ∈ diamond_graph.edges, l.indexOf e.source < l.indexOf e.target)
    ∧ (∃ node, topo_sort c7_cyclic_graph = .error [CompilerError.lower "L001"
          ("Cycle detected at node '" ++ node ++ "'") (some node)]
        ∧ Relation.TransGen (EdgeStep c7_cyclic_graph) node node) := by
  constructor
  · exact C7_topo_sort_soundness.1 diamond_graph "trig" (by decide) (by decide)
      diamond_acyclic (by decide) (by decide) (by decide)
  · exact C7_topo_sort_soundness.2 c7_cyclic_graph "x" (by decide) (by decide)
      c7_cycle_xx

theorem list_contains_iff (l : List String) (a : String) :
    l.contains a = true ↔ a ∈ l := by
  simp [List.contains, List.elem_iff]

theorem collect_branch_nodes_mem (start : String) (merge_id : Option String)
    (ids : List String) (g : WorkflowGraph) (consumed : StrSet)
    (hne : start ≠ "") (n : String) :
    n ∈ collect_branch_nodes start merge_id ids g consumed
      ↔ n ∈ ids ∧ n ∉ consumed ∧ merge_id ≠ some n
          ∧ n ∈ collect_reachable start g := by
  unfold collect_branch_nodes
  rw [if_neg hne]
  rw [List.mem_filter]
  constructor
  · rintro ⟨hid, hp⟩
    simp only [Bool.and_eq_true] at hp
    obtain ⟨⟨hc, hm⟩, hr⟩ := hp
    rw [Bool.not_eq_true'] at hc hm
    refine ⟨hid, ?_, ?_, (list_contains_iff _ _).mp hr⟩
    · intro h
      rw [(list_contains_iff _ _).mpr h] at hc
      simp at hc
    · intro h
      rw [h] at hm
      simp at hm
  · rintro ⟨hid, hc, hm, hr⟩
    refine ⟨hid, ?_⟩
    simp only [Bool.and_eq_true]
    refine ⟨⟨?_, ?_⟩, (list_contains_iff _ _).mpr hr⟩
    · rw [Bool.not_eq_true']
      rw [Bool.eq_false_iff]
      intro h
      exact hc ((list_contains_iff _ _).mp h)
    · rw [Bool.not_eq_true']
      rw [Bool.eq_false_iff]
      intro h
      exact hm (eq_of_beq h)

/-- C2 (corrected): the partitioning sentence is exact — each arm's flat
node list is precisely the not-yet-consumed listed nodes reachable from
that arm's entry, the merge point excluded, in topological (list) order —
but the completeness sentence is wrong in general: the two arm lists are
computed against the same pre-branch consumed snapshot, so a node
reachable from both arms beyond the merge point appears in *both* lists
(shared-tail diamond, node "x"), and a merge point that an earlier
conditional already consumed is re-emitted without a check, so the union
{true-arm nodes, false-arm nodes, merge point} differs from the nodes the
structuring step newly consumed and the finished tree carries a duplicate
step id (E002).  Amended: the arms are disjoint when the merge point is
the only listed node reachable from both entries. -/
theorem C2_partition_completeness :
    (∀ (start : String) (merge_id : Option String) (ids : List String)
       (g : WorkflowGraph) (consumed : StrSet), start ≠ "" →
      (∀ n, n ∈ collect_branch_nodes start merge_id ids g consumed
        ↔ n ∈ ids ∧ n ∉ consumed ∧ merge_id ≠ some n
            ∧ n ∈ collect_reachable start g)
      ∧ List.Sublist (collect_branch_nodes start merge_id ids g consumed) ids)
    ∧ (∀ (tt ft m : String) (ids : List String) (g : WorkflowGraph)
         (consumed : StrSet) (n : String),
        (∀ x ∈ ids, x ∈ collect_reachable tt g → x ∈ collect_reachable ft g →
          x = m) →
        n ∈ collect_branch_nodes tt (some m) ids g consumed →
        n ∉ collect_branch_nodes ft (some m) ids g consumed)
    ∧ ("x" ∈ collect_branch_nodes "a" (some "m") c2_ids c2_shared_graph []
        ∧ "x" ∈ collect_branch_nodes "b" (some "m") c2_ids c2_shared_graph [])
    ∧ (c2_consumed_before_B = ["f", "x", "t", "A"]
        ∧ find_reconvergence "B" "u" "v" c2_non_trigger c2_dual_graph = some "x"
        ∧ collect_branch_nodes "u" (some "x") c2_non_trigger c2_dual_graph
            c2_consumed_before_B = ["u"]
        ∧ collect_branch_nodes "v" (some "x") c2_non_trigger c2_dual_graph
            c2_consumed_before_B = ["v"]
        ∧ c2_b_result.2 = "v" :: "u" :: c2_consumed_before_B
        ∧ ∃ e ∈ validate_ir (mk_ir c2_dual_built_block), e.code = "E002") := by
  refine ⟨?_, ?_, by decide,
    by decide, by decide, by decide, by decide, by decide, by decide⟩
  · intro start merge_id ids g consumed hne
    refine ⟨collect_branch_nodes_mem start merge_id ids g consumed hne, ?_⟩
    unfold collect_branch_nodes
    rw [if_neg hne]
    exact List.filter_sublist ids
  · intro tt ft m ids g consumed n honly hmem1 hmem2
    by_cases htt : tt = ""
    · rw [htt] at hmem1
      unfold collect_branch_nodes at hmem1
      rw [if_pos rfl] at hmem1
      exact absurd hmem1 (List.not_mem_nil n)
    · by_cases hft : ft = ""
      · rw [hft] at hmem2
        unfold collect_branch_nodes at hmem2
        rw [if_pos rfl] at hmem2
        exact absurd hmem2 (List.not_mem_nil n)
      · obtain ⟨hid, _, hm, hr1⟩ :=
          (collect_branch_nodes_mem tt (some m) ids g consumed htt n).mp hmem1
        obtain ⟨_, _, _, hr2⟩ :=
          (collect_branch_nodes_mem ft (some m) ids g consumed hft n).mp hmem2
        exact hm (by rw [honly n hid hr1 hr2])

/-- Witness for C2: the arm-list characterisation applied at the
shared-tail diamond, and the amended disjointness applied at conditional
"B" of the two-conditional workflow. -/
theorem C2_partition_completeness_witness :
    ("a" ∈ collect_branch_nodes "a" (some "m") c2_ids c2_shared_graph []
      ↔ "a" ∈ c2_ids ∧ "a" ∉ ([] : StrSet) ∧ (some "m" : Option String) ≠ some "a"
          ∧ "a" ∈ collect_reachable "a" c2_shared_graph)
    ∧ "u" ∉ collect_branch_nodes "v" (some "x") c2_non_trigger c2_dual_graph
        c2_consumed_before_B := by
  constructor
  · exact (C2_partition_completeness.1 "a" (some "m") c2_ids c2_shared_graph []
      (by decide)).1 "a"
  · exact C2_partition_completeness.2.1 "u" "v" "x" c2_non_trigger c2_dual_graph
      c2_consumed_before_B "u" (by decide) (by decide)

/-- Counterexample for C4: the Log step "L" precedes the step "P" that
references it, yet the validator emits the out-of-scope error E003 — a
preceding step as such does not enter the binding scope, only a step with
an output binding does; and a binding made in the true arm of a branch is
invisible to the sibling false arm. -/
theorem C4_scope_monotonicity_cex :
    Step.output (log_step "L") = none
    ∧ scope_error "P" "L" ∈ validate_ir c4_ir
    ∧ scope_error "P" "X" ∈ validate_ir c4_sibling_ir :=
  ⟨rfl, by decide, by decide⟩

/-- Counterexample for C2: on the shared-tail diamond the node "x", which
both arms of "if1" reach beyond the merge point "m", is put in both arm
lists; and in the two-conditional workflow, conditional "B" reconverges at
"x", already consumed by conditional "A", so the union of the arm lists of B
and merge point differs from the nodes B newly consumed and the finished
tree carries a duplicate step id (E002). -/
theorem C2_partition_completeness_cex :
    ("x" ∈ collect_branch_nodes "a" (some "m") c2_ids c2_shared_graph []
      ∧ "x" ∈ collect_branch_nodes "b" (some "m") c2_ids c2_shared_graph [])
    ∧ (find_reconvergence "B" "u" "v" c2_non_trigger c2_dual_graph = some "x"
      ∧ "x" ∈ c2_consumed_before_B
      ∧ c2_b_result.2 = "v" :: "u" :: c2_consumed_before_B
      ∧ ∃ e ∈ validate_ir (mk_ir c2_dual_built_block), e.code = "E002") :=
  ⟨⟨by decide, by decide⟩, by decide, by decide, by decide, by decide⟩


end Sixflow
